import Mathlib

/-!
# libhildon: a verification development

Shallow embedding of parts of the Hildon widget library:

* `hildon/hildon-time-selector.c`: the hour / minute / am-pm selector,
  `hildon_time_selector_set_time` and `hildon_time_selector_get_time`;
* `hildon/hildon-live-search.c`: the default row filter, the text column and
  custom visible function setters, the entry "changed" handler and the saving
  and restoring of the search text;
* `hildon/hildon-wizard-dialog.c`: the "response" handler that switches the
  pages of a wizard and dims its buttons;
* `hildon/hildon-banner.c`: the instances of timed and other banners, the
  timeout that closes a banner, and the functions that show a text or a custom
  widget in a banner;
* `src/hildon-pannable-area.c`: the timer callback of kinetic scrolling.

The GTK+ toolkit objects the widgets are built from (tree models, the
selection of a touch selector column, widget visibility, signal handlers,
the sources of the main loop, adjustments) are represented by the part of
their state the embedded functions read and write.
-/

namespace TimeSelector

/-! ## Data model -/

/-- A two-column `GtkListStore` (COLUMN_STRING, COLUMN_INT), represented by
the COLUMN_INT values of its rows in row order.  COLUMN_STRING only holds the
strftime label shown for the row and is never read back by the selector. -/
abbrev GtkTreeModel := List Nat

/-- The enumerators COLUMN_HOURS = 0, COLUMN_MINUTES, COLUMN_AMPM. -/
def COLUMN_HOURS : Nat := 0
def COLUMN_MINUTES : Nat := 1
def COLUMN_AMPM : Nat := 2

/-- The static table range_12h of _create_hours_model. -/
def range_12h : List Nat := [12, 1, 2, 3, 4, 5, 6, 7, 8, 9, 10, 11]

/-- The static table range_24h of _create_hours_model. -/
def range_24h : List Nat :=
  [0, 1, 2, 3, 4, 5, 6, 7, 8, 9, 10, 11, 12, 13, 14, 15, 16, 17, 18, 19, 20, 21, 22, 23]

/-- The selector: the fields of `struct _HildonTimeSelectorPrivate` that the
time functions use, together with the state of the parent HildonTouchSelector
they go through (the selected row of each column, whether the "changed"
signal is blocked, and whether `_manage_ampm_selection_cb` is connected to
it).

`pm` is a gboolean; the code only ever stores 0 or 1 in it (TRUE in init, the
result of a comparison in `_set_pm`, a COLUMN_INT value of the am/pm model in
the callback). -/
structure HildonTimeSelector where
  hours_model : GtkTreeModel
  minutes_model : GtkTreeModel
  ampm_model : Option GtkTreeModel
  minutes_step : Nat
  ampm_format : Bool
  pm : Nat
  selected_hours : Option Nat
  selected_minutes : Option Nat
  selected_ampm : Option Nat
  changed_blocked : Bool
  ampm_cb_connected : Bool
  deriving DecidableEq, Repr

/-- Conversion of an integer to the 32-bit `guint` it is stored as. -/
def to_guint (z : Int) : Nat := (z % 4294967296).toNat

/-- Conversion of an integer to the 32-bit `gint` it is stored as. -/
def to_gint (z : Int) : Int := (z + 2147483648) % 4294967296 - 2147483648

/-! ## Model creation -/

/-- The loop `for (i = 0; i <= 59; i = i + minutes_step)` of
_create_minutes_model, appending a row with COLUMN_INT = i on each pass.  The
first argument bounds the number of passes. -/
def minutes_rows (minutes_step : Nat) : Nat → Nat → List Nat
  | 0, _ => []
  | fuel + 1, i =>
    if i ≤ 59 then i :: minutes_rows minutes_step fuel (i + minutes_step) else []

/-- The function _create_minutes_model: for a step of at least 1 the loop
makes at most 60 passes. -/
def _create_minutes_model (minutes_step : Nat) : GtkTreeModel :=
  minutes_rows minutes_step 60 0

/-- The function _create_hours_model: the rows of range_12h in am/pm format,
of range_24h otherwise. -/
def _create_hours_model (ampm_format : Bool) : GtkTreeModel :=
  if ampm_format then range_12h else range_24h

/-- The function _create_ampm_model: two rows, COLUMN_INT 0 (am) and 1 (pm). -/
def _create_ampm_model : GtkTreeModel := [0, 1]

/-! ## Toolkit operations -/

/-- GTK+ `gtk_tree_model_iter_nth_child (model, &iter, NULL, n)` on a list
store: the iter of row n when the store has such a row, no valid iter
otherwise. -/
def gtk_tree_model_iter_nth_child (model : GtkTreeModel) (n : Int) : Option Nat :=
  if 0 ≤ n ∧ n.toNat < model.length then some n.toNat else none

/-- GTK+ `gtk_tree_model_get (model, &iter, COLUMN_INT, &v, -1)`. -/
def gtk_tree_model_get (model : GtkTreeModel) (iter : Nat) : Option Nat :=
  model.get? iter

/-- Modelled from the spec: hildon_touch_selector_get_selected is declared in
hildon-touch-selector.h and its body is not among the sources; it yields the
iter of the selected row of a column, or FALSE when the column has none. -/
def hildon_touch_selector_get_selected (selector : HildonTimeSelector) (column : Nat) :
    Option Nat :=
  if column = COLUMN_HOURS then selector.selected_hours
  else if column = COLUMN_MINUTES then selector.selected_minutes
  else if column = COLUMN_AMPM then
    (if selector.ampm_model.isSome then selector.selected_ampm else none)
  else none

/-- The callback _manage_ampm_selection_cb connected to "changed": when the
changed column is COLUMN_AMPM and it has a selected row, `pm` becomes the
COLUMN_INT value of that row. -/
def _manage_ampm_selection_cb (selector : HildonTimeSelector) (num_column : Nat) :
    HildonTimeSelector :=
  if num_column = COLUMN_AMPM then
    match hildon_touch_selector_get_selected selector COLUMN_AMPM with
    | some iter =>
      match selector.ampm_model with
      | some model =>
        match gtk_tree_model_get model iter with
        | some pm => { selector with pm := pm }
        | none => selector
      | none => selector
    | none => selector
  else selector

/-- Modelled from the spec: hildon_touch_selector_select_iter is declared in
hildon-touch-selector.h and its body is not among the sources; it makes the
row of the iter the selected row of the column and emits "changed" for that
column unless the signal is blocked, which runs _manage_ampm_selection_cb
when it is connected.  Nothing is selected through an invalid iter. -/
def hildon_touch_selector_select_iter (selector : HildonTimeSelector) (column : Nat)
    (iter : Option Nat) : HildonTimeSelector :=
  match iter with
  | none => selector
  | some row =>
    let selector :=
      if column = COLUMN_HOURS then { selector with selected_hours := some row }
      else if column = COLUMN_MINUTES then { selector with selected_minutes := some row }
      else if column = COLUMN_AMPM then { selector with selected_ampm := some row }
      else selector
    if selector.ampm_cb_connected ∧ ¬ selector.changed_blocked then
      _manage_ampm_selection_cb selector column
    else selector

/-! ## The selector's functions -/

/-- The function _set_pm: stores the flag and, when there is an am/pm column,
selects its row number `pm`. -/
def _set_pm (selector : HildonTimeSelector) (pm : Nat) : HildonTimeSelector :=
  let selector := { selector with pm := pm }
  match selector.ampm_model with
  | some model =>
    hildon_touch_selector_select_iter selector COLUMN_AMPM
      (gtk_tree_model_iter_nth_child model pm)
  | none => selector

/-- The function hildon_time_selector_set_time.  The result is `none` when
`g_assert (minutes_step > 0)` fails (the program aborts), otherwise the
returned gboolean and the selector afterwards. -/
def hildon_time_selector_set_time (selector : HildonTimeSelector) (hours minutes : Nat) :
    Option (Bool × HildonTimeSelector) :=
  if ¬ hours ≤ 23 then some (false, selector)
  else if ¬ minutes ≤ 59 then some (false, selector)
  else
    let selector := _set_pm selector (if hours ≥ 12 then 1 else 0)
    let hours_item : Int :=
      if selector.ampm_format then to_gint (Int.ofNat hours - Int.ofNat selector.pm * 12)
      else to_gint (Int.ofNat hours)
    let selector := hildon_touch_selector_select_iter selector COLUMN_HOURS
      (gtk_tree_model_iter_nth_child selector.hours_model hours_item)
    if ¬ selector.minutes_step > 0 then none
    else
      let minutes := minutes / selector.minutes_step
      let selector := hildon_touch_selector_select_iter selector COLUMN_MINUTES
        (gtk_tree_model_iter_nth_child selector.minutes_model minutes)
      some (true, selector)

/-- The function hildon_time_selector_get_time with both out-parameters
non-NULL; `hours0` and `minutes0` are what the caller's variables hold before
the call (they are written only when the column has a selected row). -/
def hildon_time_selector_get_time (selector : HildonTimeSelector) (hours0 minutes0 : Nat) :
    Nat × Nat :=
  let hours :=
    match hildon_touch_selector_get_selected selector COLUMN_HOURS with
    | some iter => (gtk_tree_model_get selector.hours_model iter).getD hours0
    | none => hours0
  let hours :=
    if selector.ampm_format then
      to_guint (Int.ofNat (hours % 12) + Int.ofNat selector.pm * 12)
    else hours
  let minutes :=
    match hildon_touch_selector_get_selected selector COLUMN_MINUTES with
    | some iter => (gtk_tree_model_get selector.minutes_model iter).getD minutes0
    | none => minutes0
  (hours, minutes)

/-- The state hildon_time_selector_constructor builds before its closing
call of hildon_time_selector_set_time: `ampm_format` is the format chosen by
the time-format policy, `minutes_step` the construct property (0 is replaced
by 1), `pm` is TRUE from hildon_time_selector_init and no row is selected. -/
def constructed_columns (minutes_step : Nat) (ampm_format : Bool) : HildonTimeSelector :=
  let step := if minutes_step ≠ 0 then minutes_step else 1
  { hours_model := _create_hours_model ampm_format
    minutes_model := _create_minutes_model step
    ampm_model := if ampm_format then some _create_ampm_model else none
    minutes_step := step
    ampm_format := ampm_format
    pm := 1
    selected_hours := none
    selected_minutes := none
    selected_ampm := none
    changed_blocked := false
    ampm_cb_connected := ampm_format }

/-- The function hildon_time_selector_constructor: the columns are created
and the creation time (the local time read by _get_real_time) is selected. -/
def hildon_time_selector_constructor (minutes_step : Nat) (ampm_format : Bool)
    (creation_hours creation_minutes : Nat) : Option HildonTimeSelector :=
  (hildon_time_selector_set_time (constructed_columns minutes_step ampm_format)
    creation_hours creation_minutes).map Prod.snd

/-- The row hildon_time_selector_set_time selects in the hours column for an
hour of 0..23: `hours - pm * 12` with `pm` set to `hours >= 12` in am/pm
format, that is hours mod 12, and `hours` itself in 24h format. -/
def hours_row (ampm_format : Bool) (hours : Nat) : Nat :=
  if ampm_format then hours % 12 else hours

/-- The models of a selector are the ones its constructor and
update_format_dependant_columns create for its format and minutes step, and
the step is within the range 1..30 of the "minutes-step" property. -/
def WellFormed (selector : HildonTimeSelector) : Prop :=
  1 ≤ selector.minutes_step ∧ selector.minutes_step ≤ 30 ∧
  selector.hours_model = _create_hours_model selector.ampm_format ∧
  selector.minutes_model = _create_minutes_model selector.minutes_step ∧
  selector.ampm_model = (if selector.ampm_format then some _create_ampm_model else none)

instance (selector : HildonTimeSelector) : Decidable (WellFormed selector) := by
  unfold WellFormed; infer_instance

end TimeSelector


namespace LiveSearch

/-! ## Data model -/

/-- A C string: its bytes before the terminating NUL. -/
abbrev CString := List Nat

/-- A row of the child model of the filter: the (possibly NULL) string it
holds in each column. -/
abbrev Row := Int → Option CString

/-- A `HildonLiveSearchVisibleFunc`: called with the row, the search text
and the user data, it tells whether the row is visible. -/
abbrev HildonLiveSearchVisibleFunc := Row → CString → Nat → Bool

/-- A `GKeyFile`: its (group, key, value) entries. -/
abbrev GKeyFile := List (String × String × CString)

/-- The live search widget: the fields of `struct _HildonLiveSearchPrivate`
and the toolkit state its functions read and write.

* `filter` is NULL or a GtkTreeModelFilter, represented by the number of
  columns of its child model;
* `entry_text` is the text of the GtkEntry `entry`;
* `needs_mapping` and `view_has_model` describe the hooked focus widget: it
  is a GtkTreeView whose selection mode is not GTK_SELECTION_NONE, and that
  view has a model;
* `selection_map` tells whether the selection map exists (is non-NULL);
* `visible` is the GTK_VISIBLE flag of the live search widget itself;
* function and data pointers other than `visible_func` are numbers, 0 for
  NULL; `destroy_calls` logs the data each destroy notifier was called with;
* `last_source_id` is the id of the last event source the main loop handed
  out, `refilter_count` the number of "refilter" emissions so far. -/
structure HildonLiveSearch where
  filter : Option Int
  entry_text : CString
  selection_map : Bool
  needs_mapping : Bool
  view_has_model : Bool
  idle_filter_id : Nat
  prefix_ : Option CString
  text_column : Int
  visible_func : Option HildonLiveSearchVisibleFunc
  visible_data : Nat
  visible_destroy : Nat
  visible_func_set : Bool
  run_async : Bool
  visible : Bool
  destroy_calls : List Nat
  last_source_id : Nat
  refilter_count : Nat

/-- The state hildon_live_search_init leaves: no filter, empty entry, no
prefix, text column -1, no visible function, asynchronous filtering, and a
widget that is not shown. -/
def hildon_live_search_init : HildonLiveSearch :=
  { filter := none
    entry_text := []
    selection_map := false
    needs_mapping := false
    view_has_model := false
    idle_filter_id := 0
    prefix_ := none
    text_column := -1
    visible_func := none
    visible_data := 0
    visible_destroy := 0
    visible_func_set := false
    run_async := true
    visible := false
    destroy_calls := []
    last_source_id := 0
    refilter_count := 0 }

/-! ## GLib string functions -/

/-- GLib `g_utf8_skip`: the length of the UTF-8 sequence a lead byte starts. -/
def g_utf8_skip (c : Nat) : Nat :=
  if c < 192 then 1 else if c < 224 then 2 else if c < 240 then 3
  else if c < 248 then 4 else if c < 252 then 5 else if c < 254 then 6 else 1

/-- The loop `while (*p) { p = g_utf8_next_char (p); ++len; }` of GLib
`g_utf8_strlen (p, -1)`; each pass consumes at least one byte, so the number
of bytes bounds the number of passes. -/
def utf8_count : Nat → CString → Nat
  | 0, _ => 0
  | _ + 1, [] => 0
  | fuel + 1, c :: rest => utf8_count fuel (rest.drop (g_utf8_skip c - 1)) + 1

/-- GLib `g_utf8_strlen (p, -1)`: the number of characters of a string. -/
def g_utf8_strlen (p : CString) : Nat := utf8_count p.length p

/-- GLib `g_str_has_prefix (str, prefix)`, that is
`strncmp (str, prefix, strlen (prefix)) == 0`: the bytes of the second string
are compared one by one with those at the start of the first. -/
def g_str_has_prefix : CString → CString → Bool
  | _, [] => true
  | [], _ :: _ => false
  | a :: str, b :: pre => a == b && g_str_has_prefix str pre

/-! ## Filtering -/

/-- The function visible_func installed on the GtkTreeModelFilter. -/
def visible_func (priv : HildonLiveSearch) (row : Row) : Bool :=
  match priv.prefix_ with
  | none => true
  | some pre =>
    if priv.visible_func.isNone ∧ priv.text_column = -1 then true
    else
      match priv.visible_func with
      | some func => func row pre priv.visible_data
      | none =>
        match row priv.text_column with
        | some string => g_str_has_prefix string pre
        | none => false

/-- The function selection_map_create. -/
def selection_map_create (priv : HildonLiveSearch) : HildonLiveSearch :=
  { priv with selection_map := true }

/-- The function selection_map_destroy. -/
def selection_map_destroy (priv : HildonLiveSearch) : HildonLiveSearch :=
  if priv.selection_map then { priv with selection_map := false } else priv

/-- The function refilter: returns early when the tree view has no model
yet, creates the selection map when it is needed and missing, and emits
"refilter" (after which the filter model is refiltered).  The rows the
selection map holds are not represented. -/
def refilter (livesearch : HildonLiveSearch) : HildonLiveSearch :=
  if livesearch.needs_mapping ∧ ¬ livesearch.view_has_model then livesearch
  else
    let livesearch :=
      if livesearch.needs_mapping ∧ ¬ livesearch.selection_map then
        selection_map_create livesearch
      else livesearch
    { livesearch with refilter_count := livesearch.refilter_count + 1 }

/-- The function on_idle_refilter. -/
def on_idle_refilter (livesearch : HildonLiveSearch) : HildonLiveSearch :=
  let livesearch := refilter livesearch
  let livesearch :=
    if livesearch.prefix_.isNone then selection_map_destroy livesearch else livesearch
  { livesearch with idle_filter_id := 0 }

/-- GDK `gdk_threads_add_idle`: registers an idle source and returns its id,
which is greater than 0. -/
def gdk_threads_add_idle (livesearch : HildonLiveSearch) : HildonLiveSearch × Nat :=
  ({ livesearch with last_source_id := livesearch.last_source_id + 1 },
    livesearch.last_source_id + 1)

/-- The first part of on_entry_changed, up to the point where the widget is
shown or hidden: the prefix is replaced by a copy of the entry text (NULL
when the text has less than one character) and the model is refiltered, from
an idle source when `run_async` is set and at once otherwise. -/
def on_entry_changed_filter (livesearch : HildonLiveSearch) : HildonLiveSearch :=
  let text : Option CString :=
    if g_utf8_strlen livesearch.entry_text < 1 then none else some livesearch.entry_text
  let livesearch := { livesearch with prefix_ := text }
  if livesearch.run_async then
    if livesearch.idle_filter_id = 0 then
      let r := gdk_threads_add_idle livesearch
      { r.1 with idle_filter_id := r.2 }
    else livesearch
  else
    let livesearch :=
      if livesearch.idle_filter_id ≠ 0 then { livesearch with idle_filter_id := 0 }
      else livesearch
    on_idle_refilter livesearch

/-! The "changed" handler of the entry and the "hide" handler of the widget
call each other through the toolkit: on_entry_changed hides the widget,
`gtk_widget_hide` emits "hide" when the widget was visible, on_hide_cb sets the
text to "", and `gtk_entry_set_text` emits "changed" when the text differs.
The chain ends because "hide" handlers run with the GTK_VISIBLE flag cleared. -/
mutual

/-- The function on_entry_changed, the handler of "changed" on the entry:
after the prefix is stored and the filtering started, the widget is hidden
when the prefix is NULL and shown otherwise.  The closing notification of the
"text" property has no handler in the widget and is not represented. -/
def on_entry_changed (livesearch : HildonLiveSearch) : HildonLiveSearch :=
  if (on_entry_changed_filter livesearch).prefix_.isNone then
    gtk_widget_hide (on_entry_changed_filter livesearch)
  else
    { on_entry_changed_filter livesearch with visible := true }
termination_by ((if livesearch.visible then 1 else 0), 1)
decreasing_by
  have hvisible : (on_entry_changed_filter livesearch).visible = livesearch.visible := by
    unfold on_entry_changed_filter on_idle_refilter refilter selection_map_destroy
      selection_map_create gdk_threads_add_idle
    simp only
    repeat (first | rfl | split)
  rw [hvisible]
  exact Prod.Lex.right _ (by decide)

/-- GTK+ `gtk_widget_hide` on the live search widget: nothing when it is not
visible; otherwise the flag is cleared and the "hide" handler on_hide_cb
runs. -/
def gtk_widget_hide (livesearch : HildonLiveSearch) : HildonLiveSearch :=
  if _h : livesearch.visible then on_hide_cb { livesearch with visible := false } else livesearch
termination_by ((if livesearch.visible then 1 else 0), 0)
decreasing_by
  simp only [_h]
  exact Prod.Lex.left _ _ (by decide)

/-- The function on_hide_cb: the text is set to "" (and the focus handed to
the focus widget). -/
def on_hide_cb (livesearch : HildonLiveSearch) : HildonLiveSearch :=
  hildon_live_search_set_text livesearch []
termination_by ((if livesearch.visible then 1 else 0), 4)
decreasing_by
  exact Prod.Lex.right _ (by decide)

/-- The function hildon_live_search_set_text: the entry text is replaced
with filtering made synchronous for the duration of the call. -/
def hildon_live_search_set_text (livesearch : HildonLiveSearch) (text : CString) :
    HildonLiveSearch :=
  { gtk_entry_set_text { livesearch with run_async := false } text with run_async := true }
termination_by ((if livesearch.visible then 1 else 0), 3)
decreasing_by
  exact Prod.Lex.right _ (by decide)

/-- GTK+ `gtk_entry_set_text` on the entry of the live search: nothing when
the entry already holds the text; otherwise the text is replaced and
"changed" is emitted, which runs on_entry_changed. -/
def gtk_entry_set_text (livesearch : HildonLiveSearch) (text : CString) : HildonLiveSearch :=
  if livesearch.entry_text = text then livesearch
  else on_entry_changed { livesearch with entry_text := text }
termination_by ((if livesearch.visible then 1 else 0), 2)
decreasing_by
  exact Prod.Lex.right _ (by decide)

end

/-- A live search over a one-column model, filtering on column 0 with the
text "hi" typed in. -/
def sample_search : HildonLiveSearch :=
  { hildon_live_search_init with
    filter := some 1, text_column := 0, entry_text := [104, 105], prefix_ := some [104, 105],
    visible_func_set := true, visible := true }

/-- A row holding "hill" in column 0 and NULL elsewhere. -/
def sample_row : Row := fun column => if column = 0 then some [104, 105, 108, 108] else none

/-! ## The text column and the custom visible function -/

/-- GTK+ `gtk_tree_model_get_n_columns (gtk_tree_model_filter_get_model (filter))`:
the number of columns of the child model; with a NULL filter both calls fail
their checks and the result is 0. -/
def filter_n_columns (livesearch : HildonLiveSearch) : Int :=
  match livesearch.filter with
  | some n_columns => n_columns
  | none => 0

/-- The installation of visible_func on the filter, done once. -/
def install_visible_func (livesearch : HildonLiveSearch) : HildonLiveSearch :=
  if livesearch.visible_func_set = false then { livesearch with visible_func_set := true }
  else livesearch

/-- The function hildon_live_search_set_text_column.  The four
g_return_if_fail checks return without any change. -/
def hildon_live_search_set_text_column (livesearch : HildonLiveSearch) (text_column : Int) :
    HildonLiveSearch :=
  if ¬ (-1 ≤ text_column) then livesearch
  else if ¬ (text_column < filter_n_columns livesearch) then livesearch
  else if ¬ livesearch.visible_func.isNone then livesearch
  else if livesearch.text_column = text_column then livesearch
  else
    let livesearch := { livesearch with text_column := text_column }
    let livesearch := install_visible_func livesearch
    refilter livesearch

/-- The function hildon_live_search_set_visible_func; `func` is NULL (none)
or a function.  The g_return_if_fail checks return without any change. -/
def hildon_live_search_set_visible_func (livesearch : HildonLiveSearch)
    (func : Option HildonLiveSearchVisibleFunc) (data destroy : Nat) : HildonLiveSearch :=
  match func with
  | none => livesearch
  | some f =>
    if ¬ (livesearch.text_column = -1) then livesearch
    else
      let livesearch :=
        if livesearch.visible_destroy ≠ 0 then
          { livesearch with destroy_calls := livesearch.visible_data :: livesearch.destroy_calls }
        else livesearch
      let livesearch :=
        { livesearch with visible_func := some f, visible_data := data, visible_destroy := destroy }
      let livesearch := install_visible_func livesearch
      refilter livesearch

/-- The calls of the two setters. -/
inductive SetterCall where
  | set_text_column (text_column : Int)
  | set_visible_func (func : Option HildonLiveSearchVisibleFunc) (data destroy : Nat)

/-- The effect of a setter call. -/
def SetterCall.run (livesearch : HildonLiveSearch) : SetterCall → HildonLiveSearch
  | .set_text_column text_column => hildon_live_search_set_text_column livesearch text_column
  | .set_visible_func func data destroy =>
    hildon_live_search_set_visible_func livesearch func data destroy

/-- The states reached from a freshly initialised widget, given any filter,
by calls of the two setters. -/
inductive Reachable : HildonLiveSearch → Prop where
  | init (filter : Option Int) : Reachable { hildon_live_search_init with filter := filter }
  | step (livesearch : HildonLiveSearch) (call : SetterCall) :
      Reachable livesearch → Reachable (call.run livesearch)

/-- A custom visible function is never set while the text column differs
from -1. -/
def Exclusive (livesearch : HildonLiveSearch) : Prop :=
  ¬ (livesearch.visible_func.isSome = true ∧ livesearch.text_column ≠ -1)

/-- A live search over a two-column model on which a custom visible function
(one that shows every row) has been set. -/
def sample_custom : HildonLiveSearch :=
  (SetterCall.set_visible_func (some (fun _ _ _ => true)) 0 0).run
    { hildon_live_search_init with filter := some 2 }

/-! ## Saving and restoring the text -/

/-- GLib `g_key_file_set_string`: the value of the key in the group is set,
replacing an earlier one. -/
def g_key_file_set_string (key_file : GKeyFile) (group key : String) (string : CString) :
    GKeyFile :=
  (group, key, string) :: key_file.filter (fun e => ¬ (e.1 = group ∧ e.2.1 = key))

/-- GLib `g_key_file_get_string`: the value of the key in the group, NULL
when the key file has no such key.  The values are those of entry texts,
which are valid UTF-8 and read back as they were stored. -/
def g_key_file_get_string (key_file : GKeyFile) (group key : String) : Option CString :=
  (key_file.find? (fun e => e.1 = group ∧ e.2.1 = key)).map (fun e => e.2.2)

/-- GTK+ `gtk_entry_get_text`: the text of the entry, never NULL. -/
def gtk_entry_get_text (livesearch : HildonLiveSearch) : Option CString :=
  some livesearch.entry_text

/-- The function hildon_live_search_save_state. -/
def hildon_live_search_save_state (livesearch : HildonLiveSearch) (key_file : GKeyFile) :
    GKeyFile :=
  match gtk_entry_get_text livesearch with
  | some text => g_key_file_set_string key_file "LiveSearch" "Text" text
  | none => key_file

/-- The function hildon_live_search_restore_state. -/
def hildon_live_search_restore_state (livesearch : HildonLiveSearch) (key_file : GKeyFile) :
    HildonLiveSearch :=
  match g_key_file_get_string key_file "LiveSearch" "Text" with
  | some text => gtk_entry_set_text livesearch text
  | none => livesearch

end LiveSearch

namespace WizardDialog

/-! ## Data model -/

/-- The response ids the handler switches on.  The enumerators
HILDON_WIZARD_DIALOG_PREVIOUS, _NEXT, _FINISH and _CANCEL (which is
GTK_RESPONSE_CANCEL) are declared in hildon-wizard-dialog.h, which is not
among the sources; they are taken as parameters, pairwise different as the
enumerators of the header are. -/
structure HildonWizardDialogResponse where
  PREVIOUS : Int
  NEXT : Int
  FINISH : Int
  CANCEL : Int
  distinct : PREVIOUS ≠ NEXT ∧ PREVIOUS ≠ FINISH ∧ NEXT ≠ FINISH ∧
    CANCEL ≠ PREVIOUS ∧ CANCEL ≠ NEXT ∧ CANCEL ≠ FINISH

/-- An assignment of the enumerators: cancel is GTK_RESPONSE_CANCEL = -6 and
the other three are numbered from 0, in the order PREVIOUS, NEXT, FINISH. -/
def hildon_response_ids : HildonWizardDialogResponse :=
  { PREVIOUS := 0, NEXT := 1, FINISH := 2, CANCEL := -6, distinct := by decide }

/-- A `HildonWizardDialogPageFunc`: called with the notebook, the current
page number and the user data, it tells whether the wizard may go forward. -/
abbrev HildonWizardDialogPageFunc := Int → Bool

/-- The wizard dialog with its notebook.

* `n_pages` and `current_page` are the state of the GtkNotebook (all of its
  pages visible): `gtk_notebook_get_n_pages` and
  `gtk_notebook_get_current_page`, the latter -1 when there is no page;
* the three `_sensitive` flags are the sensitivity of the response buttons
  set through `gtk_dialog_set_response_sensitive`;
* `forward_function` and `autotitle` are the private fields of that name;
* `title_page` is the page number create_title last made the window title
  for, if it made one. -/
structure HildonWizardDialog where
  n_pages : Nat
  current_page : Int
  previous_sensitive : Bool
  finish_sensitive : Bool
  next_sensitive : Bool
  forward_function : Option HildonWizardDialogPageFunc
  autotitle : Bool
  title_page : Option Int

/-- The function make_buttons_sensitive. -/
def make_buttons_sensitive (wizard_dialog : HildonWizardDialog)
    (previous finish next : Bool) : HildonWizardDialog :=
  { wizard_dialog with
    previous_sensitive := previous, finish_sensitive := finish, next_sensitive := next }

/-- GTK+ `gtk_notebook_prev_page`: switches to the previous page; nothing
happens if the current page is the first page. -/
def gtk_notebook_prev_page (wizard_dialog : HildonWizardDialog) : HildonWizardDialog :=
  if 0 < wizard_dialog.current_page then
    { wizard_dialog with current_page := wizard_dialog.current_page - 1 }
  else wizard_dialog

/-- GTK+ `gtk_notebook_next_page`: switches to the next page; nothing
happens if the current page is the last page. -/
def gtk_notebook_next_page (wizard_dialog : HildonWizardDialog) : HildonWizardDialog :=
  if 0 ≤ wizard_dialog.current_page ∧ wizard_dialog.current_page + 1 < wizard_dialog.n_pages then
    { wizard_dialog with current_page := wizard_dialog.current_page + 1 }
  else wizard_dialog

/-- The function create_title, as far as the page it reads: a negative
current page counts as page 0. -/
def create_title (wizard_dialog : HildonWizardDialog) : HildonWizardDialog :=
  { wizard_dialog with
    title_page := some (if wizard_dialog.current_page < 0 then 0 else wizard_dialog.current_page) }

/-- The tail of the response handler after the switch: the emission of
"response" is stopped and the title is updated when `autotitle` is set. -/
def response_stop (wizard_dialog : HildonWizardDialog) : HildonWizardDialog × Bool :=
  (if wizard_dialog.autotitle then create_title wizard_dialog else wizard_dialog, true)

/-- The function response, the handler of the "response" signal of the
dialog.  The result is the dialog afterwards and whether the handler stopped
the emission of the signal (`g_signal_stop_emission_by_name`). -/
def response (ids : HildonWizardDialogResponse) (wizard_dialog : HildonWizardDialog)
    (response_id : Int) : HildonWizardDialog × Bool :=
  let last : Int := Int.ofNat wizard_dialog.n_pages - 1
  let current : Int := wizard_dialog.current_page
  if response_id = ids.PREVIOUS then
    let current := current - 1
    let is_last := decide (current = last)
    let is_first := decide (current = 0)
    let wizard_dialog := make_buttons_sensitive wizard_dialog (!is_first) (!is_first) (!is_last)
    response_stop (gtk_notebook_prev_page wizard_dialog)
  else if response_id = ids.NEXT then
    if wizard_dialog.forward_function.isNone ∨
        (wizard_dialog.forward_function.map (fun f => f current)) = some true then
      let current := current + 1
      let is_last := decide (current = last)
      let is_first := decide (current = 0)
      let wizard_dialog := make_buttons_sensitive wizard_dialog (!is_first) (!is_first) (!is_last)
      response_stop (gtk_notebook_next_page wizard_dialog)
    else response_stop wizard_dialog
  else if response_id = ids.FINISH then (wizard_dialog, false)
  else response_stop wizard_dialog

/-- The function hildon_wizard_dialog_set_forward_page_func. -/
def hildon_wizard_dialog_set_forward_page_func (wizard_dialog : HildonWizardDialog)
    (page_func : Option HildonWizardDialogPageFunc) : HildonWizardDialog :=
  { wizard_dialog with forward_function := page_func }

/-- The dialog hildon_wizard_dialog_new returns for a notebook that shows
its first page: hildon_wizard_dialog_init disables Previous and Finish and
enables Next, and no forward page function is set. -/
def hildon_wizard_dialog_new (n_pages : Nat) (autotitle : Bool) : HildonWizardDialog :=
  { n_pages := n_pages
    current_page := if n_pages = 0 then -1 else 0
    previous_sensitive := false
    finish_sensitive := false
    next_sensitive := true
    forward_function := none
    autotitle := autotitle
    title_page := if autotitle then some 0 else none }

/-- The two buttons that switch pages. -/
inductive Button where
  | previous
  | next
  deriving DecidableEq, Repr

/-- A press of a button: an insensitive button cannot be pressed; pressing
a sensitive one emits "response" with its id. -/
def press (ids : HildonWizardDialogResponse) (wizard_dialog : HildonWizardDialog) :
    Button → Option HildonWizardDialog
  | .previous =>
    if wizard_dialog.previous_sensitive then some (response ids wizard_dialog ids.PREVIOUS).1
    else none
  | .next =>
    if wizard_dialog.next_sensitive then some (response ids wizard_dialog ids.NEXT).1
    else none

/-- The states a wizard over a notebook of `n_pages` pages reaches from its
initial state, with any forward page function, by presses of its sensitive
Previous and Next buttons. -/
inductive Reachable (ids : HildonWizardDialogResponse) (n_pages : Nat) :
    HildonWizardDialog → Prop where
  | init (autotitle : Bool) (page_func : Option HildonWizardDialogPageFunc) :
      Reachable ids n_pages
        (hildon_wizard_dialog_set_forward_page_func
          (hildon_wizard_dialog_new n_pages autotitle) page_func)
  | press (wizard_dialog next_dialog : HildonWizardDialog) (button : Button) :
      Reachable ids n_pages wizard_dialog → press ids wizard_dialog button = some next_dialog →
      Reachable ids n_pages next_dialog

/-- Previous and Finish are sensitive iff the current page is not the first
page, and Next is sensitive iff the current page is not the last page. -/
def ButtonsMatchPage (wizard_dialog : HildonWizardDialog) : Prop :=
  (wizard_dialog.previous_sensitive = true ↔ wizard_dialog.current_page ≠ 0) ∧
  (wizard_dialog.finish_sensitive = true ↔ wizard_dialog.current_page ≠ 0) ∧
  (wizard_dialog.next_sensitive = true ↔
    wizard_dialog.current_page ≠ Int.ofNat wizard_dialog.n_pages - 1)

/-- The invariant of the reachable states of a wizard over `n_pages` pages:
the notebook keeps its pages, the current page is one of them, and the
buttons match the page. -/
def Invariant (n_pages : Nat) (wizard_dialog : HildonWizardDialog) : Prop :=
  wizard_dialog.n_pages = n_pages ∧ 0 ≤ wizard_dialog.current_page ∧
  wizard_dialog.current_page < Int.ofNat n_pages ∧ ButtonsMatchPage wizard_dialog

/-- A wizard over a one-page notebook, as created. -/
def one_page_wizard : HildonWizardDialog :=
  hildon_wizard_dialog_set_forward_page_func (hildon_wizard_dialog_new 1 true) none

/-- A wizard over a three-page notebook, as created, with a forward page
function that lets the user leave every page but page 1. -/
def three_page_wizard : HildonWizardDialog :=
  hildon_wizard_dialog_set_forward_page_func (hildon_wizard_dialog_new 3 true)
    (some (fun page => decide (page ≠ 1)))

/-- The three-page wizard after a press of Next. -/
def three_page_wizard_next : HildonWizardDialog :=
  (response hildon_response_ids three_page_wizard hildon_response_ids.NEXT).1

end WizardDialog

namespace Banner

/-! ## Data model -/

/-- A child of the GtkHBox `layout` of a banner: the banner's own label or a
custom widget, named by a number. -/
inductive LayoutChild where
  | label
  | custom (widget : Nat)
  deriving DecidableEq, Repr

/-- The container a custom widget is packed in: the layout of a banner, or
some container outside the banners. -/
inductive Container where
  | layout (banner : Nat)
  | other (container : Nat)
  deriving DecidableEq, Repr

/-- A banner: the fields of `struct _HildonBannerPrivate` the embedded
functions use and the toolkit state of the banner window.

* `main_item` is NULL or the custom widget shown instead of the label;
* `layout` lists the children of the box `layout` in packing order;
* `label_text` and `label_is_markup` are the content of `label`;
* `parent` is NULL or the parent window, named by a number;
* `timeout_id` is 0 or the id of the pending timeout source;
* `visible` and `mapped` are the GTK_VISIBLE and GTK_MAPPED flags of the
  window, `destroyed` tells that gtk_widget_destroy has run on it. -/
structure HildonBanner where
  main_item : Option Nat
  layout : List LayoutChild
  label_text : String
  label_is_markup : Bool
  parent : Option Nat
  name_suffix : Option String
  timeout : Nat
  timeout_id : Nat
  is_timed : Bool
  require_override_dnd : Bool
  visible : Bool
  mapped : Bool
  destroyed : Bool
  deriving DecidableEq, Repr

/-- The program state the banner functions work on.

* `banners` are the HildonBanner instances created so far, named by the
  numbers below `n_banners`;
* `window_qdata` is, for each window, the data stored on it under
  hildon_banner_timed_quark;
* `global_timed_banner` is the static variable of that name;
* `sources` are the timeout sources pending in the main loop, each with the
  banner it was added for, and `last_source_id` the last id handed out;
* `widget_parent` is the parent of each custom widget, if it has one. -/
structure World where
  banners : Nat → Option HildonBanner
  n_banners : Nat
  window_qdata : Nat → Option Nat
  global_timed_banner : Option Nat
  sources : Nat → Option Nat
  last_source_id : Nat
  widget_parent : Nat → Option Container

/-- The constant HILDON_BANNER_DEFAULT_TIMEOUT, the default of the "timeout"
property. -/
def HILDON_BANNER_DEFAULT_TIMEOUT : Nat := 3000

/-- The state before any banner exists, given the parents the custom widgets
have. -/
def initial_world (widget_parent : Nat → Option Container) : World :=
  { banners := fun _ => none
    n_banners := 0
    window_qdata := fun _ => none
    global_timed_banner := none
    sources := fun _ => none
    last_source_id := 0
    widget_parent := widget_parent }

/-- An update of the fields of a banner. -/
def update_banner (world : World) (banner : Nat) (f : HildonBanner → HildonBanner) : World :=
  match world.banners banner with
  | some priv => { world with banners := Function.update world.banners banner (some (f priv)) }
  | none => world

/-- The function hildon_banner_init: the label is packed into the layout;
the private structure starts zeroed. -/
def hildon_banner_init : HildonBanner :=
  { main_item := none
    layout := [LayoutChild.label]
    label_text := ""
    label_is_markup := false
    parent := none
    name_suffix := none
    timeout := 0
    timeout_id := 0
    is_timed := false
    require_override_dnd := false
    visible := false
    mapped := false
    destroyed := false }

/-! ## The timeout -/

/-- GLib `g_source_remove`: the source leaves the main loop. -/
def g_source_remove (world : World) (id : Nat) : World :=
  { world with sources := Function.update world.sources id none }

/-- GDK `gdk_threads_add_timeout (timeout, hildon_banner_timeout, self)`: a
timeout source is added to the main loop; its id is greater than 0. -/
def gdk_threads_add_timeout (world : World) (banner : Nat) : World × Nat :=
  ({ world with
      sources := Function.update world.sources (world.last_source_id + 1) (some banner)
      last_source_id := world.last_source_id + 1 },
    world.last_source_id + 1)

/-- The function hildon_banner_clear_timeout; the result holds the returned
gboolean. -/
def hildon_banner_clear_timeout (world : World) (self : Nat) : World × Bool :=
  match world.banners self with
  | some priv =>
    if priv.timeout_id ≠ 0 then
      (update_banner (g_source_remove world priv.timeout_id) self
        (fun priv => { priv with timeout_id := 0 }), true)
    else (world, false)
  | none => (world, false)

/-- The function hildon_banner_ensure_timeout. -/
def hildon_banner_ensure_timeout (world : World) (self : Nat) : World :=
  match world.banners self with
  | some priv =>
    if priv.timeout_id = 0 ∧ priv.is_timed = true ∧ priv.timeout > 0 then
      update_banner (gdk_threads_add_timeout world self).1 self
        (fun priv => { priv with timeout_id := (gdk_threads_add_timeout world self).2 })
    else world
  | none => world

/-- The function hildon_banner_set_timeout. -/
def hildon_banner_set_timeout (world : World) (self : Nat) (timeout : Nat) : World :=
  update_banner world self (fun priv => { priv with timeout := timeout })

/-- The function hildon_banner_map_event: once the window is on screen the
timeout is started. -/
def hildon_banner_map_event (world : World) (widget : Nat) : World :=
  hildon_banner_ensure_timeout
    (update_banner world widget (fun priv => { priv with mapped := true })) widget

/-! ## Instances -/

/-- The function hildon_banner_real_get_instance: the previous instance, if
there is one. -/
def hildon_banner_real_get_instance (world : World) (window : Option Nat) (timed : Bool) :
    Option Nat :=
  if timed then
    match window with
    | some w => world.window_qdata w
    | none => world.global_timed_banner
  else none

/-- The parent constructor followed by the storing of a new timed instance:
a new banner is made by hildon_banner_init and given its construct
properties (the parent window, is-timed, the default timeout), and a timed one
is stored on its parent window or in `global_timed_banner`. -/
def new_instance (world : World) (window : Option Nat) (timed : Bool) : World × Nat :=
  let banner := world.n_banners
  let world :=
    { world with
      banners := Function.update world.banners banner
        (some { hildon_banner_init with
          parent := window, is_timed := timed, timeout := HILDON_BANNER_DEFAULT_TIMEOUT })
      n_banners := world.n_banners + 1 }
  let world :=
    if timed then
      match window with
      | some w => { world with window_qdata := Function.update world.window_qdata w (some banner) }
      | none => { world with global_timed_banner := some banner }
    else world
  (world, banner)

/-- The function hildon_banner_constructor, with the construct parameters
"parent-window" and "is-timed": an earlier instance is reused or a new one
made, and the timeout of a timed banner is restarted if one was pending. -/
def hildon_banner_constructor (world : World) (window : Option Nat) (timed : Bool) :
    World × Nat :=
  let r :=
    match hildon_banner_real_get_instance world window timed with
    | none => new_instance world window timed
    | some banner => (world, banner)
  if timed then
    if (hildon_banner_clear_timeout r.1 r.2).2 then
      (hildon_banner_ensure_timeout (hildon_banner_clear_timeout r.1 r.2).1 r.2, r.2)
    else ((hildon_banner_clear_timeout r.1 r.2).1, r.2)
  else r

/-- The function hildon_banner_get_instance_for_widget; `window` is the
GtkWindow ancestor of the widget, NULL if it has none. -/
def hildon_banner_get_instance_for_widget (world : World) (window : Option Nat)
    (timed : Bool) : World × Nat :=
  hildon_banner_constructor world window timed

/-- The function hildon_banner_destroy, the "destroy" handler: the global
pointer and the data of the parent window are dropped and the timeout is
cleared.  The progress indicator of the parent window, reset for a banner
that is not timed, is not represented. -/
def hildon_banner_destroy (world : World) (object : Nat) : World :=
  match world.banners object with
  | some priv =>
    let world :=
      if world.global_timed_banner = some object then { world with global_timed_banner := none }
      else world
    let world :=
      match priv.parent with
      | some parent_window =>
        if priv.is_timed then
          { world with window_qdata := Function.update world.window_qdata parent_window none }
        else world
      | none => world
    (hildon_banner_clear_timeout world object).1
  | none => world

/-- GTK+ `gtk_widget_destroy` on a banner: the "destroy" handler runs and
the window is gone from the screen. -/
def gtk_widget_destroy (world : World) (widget : Nat) : World :=
  update_banner (hildon_banner_destroy world widget) widget
    (fun priv => { priv with destroyed := true, visible := false, mapped := false })

/-- The function simulate_close: a delete event is sent to a drawable banner;
`handled` is what the handlers of the event return. -/
def simulate_close (priv : HildonBanner) (handled : Bool) : Bool :=
  if priv.visible ∧ priv.mapped then handled else false

/-- The function hildon_banner_timeout, the callback of the timeout source;
the result holds the returned gboolean. -/
def hildon_banner_timeout (world : World) (data : Nat) (handled : Bool) : World × Bool :=
  match world.banners data with
  | some priv =>
    if simulate_close priv handled then (world, true)
    else
      let world :=
        if priv.timeout_id ≠ 0 then
          update_banner (g_source_remove world priv.timeout_id) data
            (fun priv => { priv with timeout_id := 0 })
        else world
      (gtk_widget_destroy world data, false)
  | none => (world, false)

/-- The main loop dispatches a pending timeout source: its callback runs,
and the source is removed when the callback returns FALSE. -/
def dispatch_timeout (world : World) (id : Nat) (handled : Bool) : World :=
  match world.sources id with
  | some banner =>
    if (hildon_banner_timeout world banner handled).2 then
      (hildon_banner_timeout world banner handled).1
    else g_source_remove (hildon_banner_timeout world banner handled).1 id
  | none => world

/-- The function hildon_banner_button_press_event: the banner is hidden
unless a handler of the delete event stopped it. -/
def hildon_banner_button_press_event (world : World) (widget : Nat) (handled : Bool) : World :=
  update_banner world widget (fun priv =>
    if simulate_close priv handled then priv
    else { priv with visible := false, mapped := false })

/-! ## Showing banners -/

/-- GTK+ `gtk_container_remove (layout, child)` on the layout of a banner. -/
def gtk_container_remove (world : World) (banner : Nat) (child : LayoutChild) : World :=
  let world := update_banner world banner
    (fun priv => { priv with layout := priv.layout.erase child })
  match child with
  | LayoutChild.custom widget =>
    { world with widget_parent := Function.update world.widget_parent widget none }
  | LayoutChild.label => world

/-- GTK+ `gtk_box_pack_start (layout, child, ...)` on the layout of a banner:
the child is added after the children packed before. -/
def gtk_box_pack_start (world : World) (banner : Nat) (child : LayoutChild) : World :=
  let world := update_banner world banner
    (fun priv => { priv with layout := priv.layout ++ [child] })
  match child with
  | LayoutChild.custom widget =>
    { world with
      widget_parent := Function.update world.widget_parent widget (some (Container.layout banner)) }
  | LayoutChild.label => world

/-- The function unpack_main_widget_pack_label: a custom widget in the
layout is removed and the label packed back. -/
def unpack_main_widget_pack_label (world : World) (banner : Nat) : World :=
  match world.banners banner with
  | some priv =>
    match priv.main_item with
    | some main_item =>
      let world := gtk_container_remove world banner (LayoutChild.custom main_item)
      let world := update_banner world banner (fun priv => { priv with main_item := none })
      gtk_box_pack_start world banner LayoutChild.label
    | none => world
  | none => world

/-- The function banner_do_set_text. -/
def banner_do_set_text (world : World) (banner : Nat) (text : String) (is_markup : Bool) :
    World :=
  update_banner world banner
    (fun priv => { priv with label_text := text, label_is_markup := is_markup })

/-- The function reshow_banner: the window is resized and shown. -/
def reshow_banner (world : World) (banner : Nat) : World :=
  update_banner world banner (fun priv => { priv with visible := true })

/-- The assignment `priv->name_suffix = "information"`; the widget names
hildon_banner_bind_style then derives from it are not represented. -/
def set_name_suffix (world : World) (banner : Nat) : World :=
  update_banner world banner (fun priv => { priv with name_suffix := some "information" })

/-- The function hildon_banner_real_show_information; the result holds the
returned banner, NULL when `text` is NULL. -/
def hildon_banner_real_show_information (world : World) (window : Option Nat)
    (text : Option String) (override_dnd : Bool) : World × Option Nat :=
  match text with
  | none => (world, none)
  | some text =>
    let r := hildon_banner_get_instance_for_widget world window true
    let banner := r.2
    let world := set_name_suffix r.1 banner
    let world := unpack_main_widget_pack_label world banner
    let world := banner_do_set_text world banner text false
    let world :=
      if override_dnd then
        update_banner world banner (fun priv => { priv with require_override_dnd := true })
      else world
    (reshow_banner world banner, some banner)

/-- The function hildon_banner_show_information. -/
def hildon_banner_show_information (world : World) (window : Option Nat)
    (text : Option String) : World × Option Nat :=
  hildon_banner_real_show_information world window text false

/-- The function hildon_banner_show_information_override_dnd. -/
def hildon_banner_show_information_override_dnd (world : World) (window : Option Nat)
    (text : Option String) : World × Option Nat :=
  hildon_banner_real_show_information world window text true

/-- The function hildon_banner_show_information_with_markup; the result
holds the returned banner, NULL when `icon_name` is an empty string or
`markup` is NULL. -/
def hildon_banner_show_information_with_markup (world : World) (window : Option Nat)
    (icon_name : Option String) (markup : Option String) : World × Option Nat :=
  if ¬ (icon_name = none ∨ icon_name ≠ some "") then (world, none)
  else
    match markup with
    | none => (world, none)
    | some markup =>
      let r := hildon_banner_get_instance_for_widget world window true
      let banner := r.2
      let world := set_name_suffix r.1 banner
      let world := banner_do_set_text world banner markup true
      (reshow_banner world banner, some banner)

/-- The function hildon_banner_show_custom_widget; the result holds the
returned banner, NULL when the custom widget has a parent and is not the item
the banner already shows. -/
def hildon_banner_show_custom_widget (world : World) (window : Option Nat)
    (custom_widget : Nat) : World × Option Nat :=
  let r := hildon_banner_get_instance_for_widget world window true
  let banner := r.2
  let world := r.1
  match world.banners banner with
  | some priv =>
    if ¬ (world.widget_parent custom_widget = none ∨ priv.main_item = some custom_widget) then
      (world, none)
    else
      let world :=
        if priv.main_item = none then gtk_container_remove world banner LayoutChild.label
        else world
      let world :=
        if priv.main_item ≠ some custom_widget then
          let world :=
            match priv.main_item with
            | some old_item => gtk_container_remove world banner (LayoutChild.custom old_item)
            | none => world
          let world := gtk_box_pack_start world banner (LayoutChild.custom custom_widget)
          update_banner world banner (fun priv => { priv with main_item := some custom_widget })
        else world
      let world := set_name_suffix world banner
      (reshow_banner world banner, some banner)
  | none => (world, none)

/-- The function hildon_banner_set_text. -/
def hildon_banner_set_text (world : World) (self : Nat) (text : String) : World :=
  banner_do_set_text world self text false

/-- The function hildon_banner_set_markup. -/
def hildon_banner_set_markup (world : World) (self : Nat) (markup : String) : World :=
  banner_do_set_text world self markup true

/-! ## The operations of a program -/

/-- What a program and the main loop do with banners. -/
inductive Op where
  | request (window : Option Nat) (timed : Bool)
  | show_information (window : Option Nat) (text : Option String) (override_dnd : Bool)
  | show_information_with_markup (window : Option Nat) (icon_name markup : Option String)
  | show_custom_widget (window : Option Nat) (custom_widget : Nat)
  | set_text (banner : Nat) (text : String) (is_markup : Bool)
  | set_timeout (banner : Nat) (timeout : Nat)
  | map_event (banner : Nat)
  | button_press (banner : Nat) (handled : Bool)
  | timeout_fired (id : Nat) (handled : Bool)
  | destroy (banner : Nat)

/-- A banner that exists and has not been destroyed. -/
def alive (world : World) (banner : Nat) : Bool :=
  match world.banners banner with
  | some priv => !priv.destroyed
  | none => false

/-- The effect of an operation.  Every operation may be applied to every
banner, also to one that was destroyed before and is still referenced: GTK+
runs the "destroy" handler of such a banner again when gtk_widget_destroy is
called on it a second time or when its last reference is dropped. -/
def Op.apply (world : World) : Op → World
  | Op.request window timed => (hildon_banner_get_instance_for_widget world window timed).1
  | Op.show_information window text override_dnd =>
    (hildon_banner_real_show_information world window text override_dnd).1
  | Op.show_information_with_markup window icon_name markup =>
    (hildon_banner_show_information_with_markup world window icon_name markup).1
  | Op.show_custom_widget window custom_widget =>
    (hildon_banner_show_custom_widget world window custom_widget).1
  | Op.set_text banner text is_markup => banner_do_set_text world banner text is_markup
  | Op.set_timeout banner timeout => hildon_banner_set_timeout world banner timeout
  | Op.map_event banner => hildon_banner_map_event world banner
  | Op.button_press banner handled => hildon_banner_button_press_event world banner handled
  | Op.timeout_fired id handled => dispatch_timeout world id handled
  | Op.destroy banner => gtk_widget_destroy world banner

/-- The effect of a sequence of operations. -/
def run (world : World) : List Op → World
  | [] => world
  | op :: ops => run (op.apply world) ops

/-- The states a program reaches from the state without banners. -/
inductive Reachable : World → Prop where
  | init (widget_parent : Nat → Option Container) : Reachable (initial_world widget_parent)
  | step (world : World) (op : Op) : Reachable world → Reachable (op.apply world)

/-! ## Invariants -/

/-- What holds of the instances in every reachable state: instance numbers
are handed out in order, the data of a window names a live timed banner of
that window, and the global pointer names exactly the live timed banner
without window. -/
structure InstInv (world : World) : Prop where
  alloc : ∀ b, world.n_banners ≤ b → world.banners b = none
  qdata_sound : ∀ w b, world.window_qdata w = some b →
    ∃ priv, world.banners b = some priv ∧ priv.is_timed = true ∧ priv.parent = some w ∧
      priv.destroyed = false
  global_sound : ∀ b, world.global_timed_banner = some b →
    ∃ priv, world.banners b = some priv ∧ priv.is_timed = true ∧ priv.parent = none ∧
      priv.destroyed = false
  global_complete : ∀ b priv, world.banners b = some priv → priv.is_timed = true →
    priv.destroyed = false → priv.parent = none → world.global_timed_banner = some b

/-- What holds of the timeouts in every reachable state: the pending sources
are exactly the non-zero `timeout_id`s, and a banner that is not timed has no
timeout. -/
structure TimeInv (world : World) : Prop where
  source_sound : ∀ id b, world.sources id = some b →
    id ≠ 0 ∧ id ≤ world.last_source_id ∧
      ∃ priv, world.banners b = some priv ∧ priv.timeout_id = id
  source_complete : ∀ b priv, world.banners b = some priv → priv.timeout_id ≠ 0 →
    world.sources priv.timeout_id = some b
  not_timed : ∀ b priv, world.banners b = some priv → priv.is_timed = false →
    priv.timeout_id = 0

/-- The invariant of the reachable states. -/
structure Inv (world : World) : Prop where
  inst : InstInv world
  time : TimeInv world

/-- The fields of a banner the invariant of the instances is about. -/
def instKey (priv : HildonBanner) : Bool × Option Nat × Bool :=
  (priv.is_timed, priv.parent, priv.destroyed)

/-- The fields of a banner the invariant of the timeouts is about. -/
def timeKey (priv : HildonBanner) : Bool × Bool × Nat :=
  (priv.is_timed, priv.destroyed, priv.timeout_id)

/-- The fields of a banner the invariant of the layout is about. -/
def layoutKey (priv : HildonBanner) : Option Nat × List LayoutChild :=
  (priv.main_item, priv.layout)

/-- What holds of the layout in every reachable state: the layout of a banner
holds its label when `main_item` is NULL and the custom widget `main_item`
otherwise, and nothing else. -/
def LayoutInv (world : World) : Prop :=
  ∀ b priv, world.banners b = some priv →
    priv.layout = (match priv.main_item with
      | none => [LayoutChild.label]
      | some widget => [LayoutChild.custom widget])

/-- The banners of the first state are banners of the second, with the same
parent window and the same is-timed property, and destroyed if they were. -/
def Extends (world next : World) : Prop :=
  ∀ b priv, world.banners b = some priv →
    ∃ priv2, next.banners b = some priv2 ∧ priv2.is_timed = priv.is_timed ∧
      priv2.parent = priv.parent ∧ (priv.destroyed = true → priv2.destroyed = true)

/-- An update of a banner that leaves alone the fields the invariants are
about. -/
def Harmless (f : HildonBanner → HildonBanner) : Prop :=
  ∀ priv, (f priv).is_timed = priv.is_timed ∧ (f priv).parent = priv.parent ∧
    (f priv).destroyed = priv.destroyed ∧ (f priv).timeout_id = priv.timeout_id

/-- A change of state that keeps the invariant and extends the state. -/
def Step (world next : World) : Prop :=
  Inv world → Inv next ∧ Extends world next

/-! ## Sample states -/

/-- The state without banners in which no custom widget has a parent. -/
def empty_world : World := initial_world (fun _ => none)

/-- The state after an information banner was shown on window 1 and
destroyed, and a second information banner was shown on window 1: banner 0 is
destroyed and banner 1 is the timed banner of the window. -/
def replaced_world : World :=
  (hildon_banner_show_information
    (gtk_widget_destroy (hildon_banner_show_information empty_world (some 1) (some "a")).1 0)
    (some 1) (some "b")).1

/-- The state after the "destroy" handler of the destroyed banner 0 ran once
more in `replaced_world`, as it does on a second gtk_widget_destroy or when
the last reference to the banner is dropped. -/
def destroyed_again_world : World := gtk_widget_destroy replaced_world 0

/-- The state after an information banner was shown on window 1 and mapped,
and a banner that is not timed was requested and given a timeout. -/
def sample_world : World :=
  run empty_world
    [Op.show_information (some 1) (some "hi") false, Op.map_event 0,
      Op.request (some 1) false, Op.set_timeout 1 9000, Op.map_event 1]

/-- The information banner of `sample_world`. -/
def sample_timed_banner : HildonBanner :=
  { hildon_banner_init with
    label_text := "hi", parent := some 1, name_suffix := some "information",
    timeout := 3000, timeout_id := 1, is_timed := true, visible := true, mapped := true }

/-- The state after a custom widget was shown in the banner of window 1. -/
def custom_world : World := (hildon_banner_show_custom_widget empty_world (some 1) 7).1

end Banner

namespace PannableArea

/-! ## Data model -/

/-- Modelled from the spec: the scrolling modes.  The enumeration
HildonPannableAreaMode is declared in hildon-pannable-area.h, which is not
among the sources; these are the three enumerators hildon-pannable-area.c
names, among them the PUSH mode of the kinetic scrolling. -/
inductive HildonPannableAreaMode where
  | PUSH
  | ACCEL
  | AUTO
  deriving DecidableEq, Repr

/-- A `GtkAdjustment`, as far as the scrolling reads and writes it.  The
gdouble fields are exact rational numbers here. -/
structure GtkAdjustment where
  value : ℚ
  lower : ℚ
  upper : ℚ
  page_size : ℚ
  deriving DecidableEq

/-- The fields of `struct _HildonPannableAreaPrivate` that
hildon_pannable_area_timeout and hildon_pannable_area_scroll use;
`has_child` tells whether the alignment `align` has a child.  The gdouble
fields are exact rational numbers here. -/
structure HildonPannableArea where
  mode : HildonPannableAreaMode
  x : ℚ
  y : ℚ
  ex : ℚ
  ey : ℚ
  enabled : Bool
  clicked : Bool
  decel : ℚ
  vel_x : ℚ
  vel_y : ℚ
  idle_id : Nat
  has_child : Bool
  hadjust : Option GtkAdjustment
  vadjust : Option GtkAdjustment
  deriving DecidableEq

/-- GTK+ `gtk_adjustment_set_value`: the value is clamped between `lower`
and `upper`. -/
def gtk_adjustment_set_value (adjustment : GtkAdjustment) (value : ℚ) : GtkAdjustment :=
  { adjustment with
    value :=
      if value > adjustment.upper then adjustment.upper
      else if value < adjustment.lower then adjustment.lower
      else value }

/-- The scroll of one adjustment in hildon_pannable_area_scroll: the new
adjustment and whether the scroll on the axis was successful. -/
def scroll_axis (adjustment : GtkAdjustment) (amount : ℚ) : GtkAdjustment × Bool :=
  let h := adjustment.value - amount
  if h > adjustment.upper - adjustment.page_size then
    (gtk_adjustment_set_value adjustment (adjustment.upper - adjustment.page_size), false)
  else if h < adjustment.lower then
    (gtk_adjustment_set_value adjustment adjustment.lower, false)
  else (gtk_adjustment_set_value adjustment h, true)

/-- The function hildon_pannable_area_scroll with both out-parameters
non-NULL; `sx0` and `sy0` are what the caller's variables hold before the call
(they are written only when there is a child and the adjustment exists). -/
def hildon_pannable_area_scroll (area : HildonPannableArea) (x y : ℚ) (sx0 sy0 : Bool) :
    HildonPannableArea × Bool × Bool :=
  if ¬ area.has_child then (area, sx0, sy0)
  else
    let rh : Option GtkAdjustment × Bool :=
      match area.hadjust with
      | some adjustment => (some (scroll_axis adjustment x).1, (scroll_axis adjustment x).2)
      | none => (none, sx0)
    let rv : Option GtkAdjustment × Bool :=
      match area.vadjust with
      | some adjustment => (some (scroll_axis adjustment y).1, (scroll_axis adjustment y).2)
      | none => (none, sy0)
    ({ area with hadjust := rh.1, vadjust := rv.1 }, rh.2, rv.2)

/-- The end of hildon_pannable_area_timeout: the area is scrolled by the
velocities, the scroll position is reset on an axis that could not scroll,
and TRUE is returned. -/
def scroll_on (area : HildonPannableArea) (sx0 sy0 : Bool) : HildonPannableArea × Bool :=
  let r := hildon_pannable_area_scroll area area.vel_x area.vel_y sx0 sy0
  let area := r.1
  let area := if ¬ r.2.1 then { area with x := area.ex } else area
  let area := if ¬ r.2.2 then { area with y := area.ey } else area
  (area, true)

/-- The function hildon_pannable_area_timeout, the callback of the scroll
timer; the result holds the returned gboolean.  `sx0` and `sy0` are what its
local variables `sx` and `sy` hold before the scroll. -/
def hildon_pannable_area_timeout (area : HildonPannableArea) (sx0 sy0 : Bool) :
    HildonPannableArea × Bool :=
  if (¬ area.enabled) ∨ area.mode = HildonPannableAreaMode.PUSH then
    ({ area with idle_id := 0 }, false)
  else if ¬ area.clicked then
    let area := { area with vel_x := area.vel_x * area.decel, vel_y := area.vel_y * area.decel }
    if |area.vel_x| < 1 ∧ |area.vel_y| < 1 then ({ area with idle_id := 0 }, false)
    else scroll_on area sx0 sy0
  else if area.mode = HildonPannableAreaMode.AUTO then ({ area with idle_id := 0 }, false)
  else scroll_on area sx0 sy0

/-- The area after the first `k` calls of the timer callback; `locals k` is
what the local variables of call number `k` (counted from 0) hold. -/
def ticks (locals : Nat → Bool × Bool) : Nat → HildonPannableArea → HildonPannableArea
  | 0, area => area
  | k + 1, area =>
    (hildon_pannable_area_timeout (ticks locals k area) (locals k).1 (locals k).2).1

/-- What call number `k` (counted from 0) of the timer callback returns. -/
def tick_returns (locals : Nat → Bool × Bool) (k : Nat) (area : HildonPannableArea) : Bool :=
  (hildon_pannable_area_timeout (ticks locals k area) (locals k).1 (locals k).2).2

/-- Both velocities are below 1 after `k` multiplications by the
deceleration. -/
def Slow (area : HildonPannableArea) (k : Nat) : Prop :=
  |area.vel_x * area.decel ^ k| < 1 ∧ |area.vel_y * area.decel ^ k| < 1

instance (area : HildonPannableArea) (k : Nat) : Decidable (Slow area k) := by
  unfold Slow; infer_instance

/-- An area flicked with velocity (40, -3) that decelerates by 1/2 a tick. -/
def sample_area : HildonPannableArea :=
  { mode := HildonPannableAreaMode.AUTO
    x := 0, y := 0, ex := 0, ey := 0
    enabled := true
    clicked := false
    decel := 1 / 2
    vel_x := 40
    vel_y := -3
    idle_id := 5
    has_child := true
    hadjust := some { value := 0, lower := 0, upper := 100, page_size := 10 }
    vadjust := some { value := 50, lower := 0, upper := 100, page_size := 10 } }

end PannableArea

/-! # Theorems -/

namespace TimeSelector

/-! ## The minutes model -/

theorem minutes_rows_get (step : Nat) :
    ∀ fuel i k, k < fuel → i + k * step ≤ 59 →
      (minutes_rows step fuel i).get? k = some (i + k * step) := by
  intro fuel
  induction fuel with
  | zero => intro i k hk; omega
  | succ fuel ih =>
    intro i k hk hle
    have hi : i ≤ 59 := le_trans (Nat.le_add_right _ _) hle
    cases k with
    | zero => simp [minutes_rows, hi]
    | succ k =>
      have hstep : i + step + k * step = i + (k + 1) * step := by ring
      simp only [minutes_rows, hi, if_true, List.get?_cons_succ]
      rw [ih (i + step) k (by omega) (by omega), hstep]

/-- More passes than 60 never add a row when the step is at least 1: the
loop of _create_minutes_model has ended by then. -/
theorem minutes_rows_fuel (step : Nat) :
    ∀ fuel extra i, 59 < i + fuel * step →
      minutes_rows step (fuel + extra) i = minutes_rows step fuel i := by
  intro fuel
  induction fuel with
  | zero =>
    intro extra i h
    have hi : ¬ i ≤ 59 := by omega
    cases extra <;> simp [minutes_rows, hi]
  | succ fuel ih =>
    intro extra i h
    have hfuel : fuel + 1 + extra = (fuel + extra) + 1 := by omega
    rw [hfuel]
    simp only [minutes_rows]
    split
    · rw [ih extra (i + step) (by
        have : i + step + fuel * step = i + (fuel + 1) * step := by ring
        omega)]
    · rfl

theorem create_minutes_model_fuel (step extra : Nat) (hstep : 1 ≤ step) :
    minutes_rows step (60 + extra) 0 = _create_minutes_model step := by
  unfold _create_minutes_model
  exact minutes_rows_fuel step 60 extra 0 (by nlinarith)

theorem nth_child_of_lt (model : GtkTreeModel) (k : Nat) (hk : k < model.length) :
    gtk_tree_model_iter_nth_child model (k : Int) = some k := by
  unfold gtk_tree_model_iter_nth_child
  have h0 : (0 : Int) ≤ (k : Int) := Int.ofNat_nonneg k
  have h1 : (k : Int).toNat = k := Int.toNat_ofNat k
  rw [h1, if_pos ⟨h0, hk⟩]

theorem create_minutes_model_get (step minutes : Nat) (hm : minutes ≤ 59) :
    (_create_minutes_model step).get? (minutes / step) = some (minutes / step * step) := by
  have hk : minutes / step ≤ minutes := Nat.div_le_self _ _
  have hle : minutes / step * step ≤ minutes := Nat.div_mul_le_self _ _
  have h := minutes_rows_get step 60 0 (minutes / step) (by omega) (by omega)
  simpa [_create_minutes_model] using h

theorem create_minutes_model_nth_child (step minutes : Nat) (hm : minutes ≤ 59) :
    gtk_tree_model_iter_nth_child (_create_minutes_model step) ((minutes / step : Nat) : Int)
      = some (minutes / step) := by
  have h := create_minutes_model_get step minutes hm
  have hlt : minutes / step < (_create_minutes_model step).length := by
    by_contra hge
    rw [List.get?_eq_none.mpr (by omega)] at h
    exact absurd h (by simp)
  exact nth_child_of_lt _ _ hlt

/-! ## Selecting rows -/

theorem select_iter_hours (selector : HildonTimeSelector) (row : Nat) :
    hildon_touch_selector_select_iter selector COLUMN_HOURS (some row)
      = { selector with selected_hours := some row } := by
  simp [hildon_touch_selector_select_iter, _manage_ampm_selection_cb, COLUMN_HOURS, COLUMN_AMPM]

theorem select_iter_minutes (selector : HildonTimeSelector) (row : Nat) :
    hildon_touch_selector_select_iter selector COLUMN_MINUTES (some row)
      = { selector with selected_minutes := some row } := by
  simp [hildon_touch_selector_select_iter, _manage_ampm_selection_cb, COLUMN_HOURS,
    COLUMN_MINUTES, COLUMN_AMPM]

theorem manage_cb_minutes_step (selector : HildonTimeSelector) (column : Nat) :
    (_manage_ampm_selection_cb selector column).minutes_step = selector.minutes_step := by
  unfold _manage_ampm_selection_cb
  repeat (first | rfl | split)

theorem select_iter_minutes_step (selector : HildonTimeSelector) (column : Nat)
    (iter : Option Nat) :
    (hildon_touch_selector_select_iter selector column iter).minutes_step
      = selector.minutes_step := by
  unfold hildon_touch_selector_select_iter
  cases iter with
  | none => rfl
  | some row =>
    simp only
    repeat (first | rfl | rw [manage_cb_minutes_step] | split)

theorem set_pm_minutes_step (selector : HildonTimeSelector) (pm : Nat) :
    (_set_pm selector pm).minutes_step = selector.minutes_step := by
  unfold _set_pm
  simp only
  split
  · rw [select_iter_minutes_step]
  · rfl

/-- On a well-formed selector _set_pm with a flag of 0 or 1 stores the flag
and, in am/pm format, selects the am/pm row of that number. -/
theorem set_pm_eq (selector : HildonTimeSelector) (hwf : WellFormed selector) (pm : Nat)
    (hpm : pm ≤ 1) :
    _set_pm selector pm
      = { selector with
          pm := pm
          selected_ampm := if selector.ampm_format then some pm else selector.selected_ampm } := by
  obtain ⟨_, _, _, _, hampm⟩ := hwf
  cases hfmt : selector.ampm_format
  · rw [hfmt] at hampm
    simp [_set_pm, hampm, hfmt]
  · rw [hfmt] at hampm
    have hpm2 : pm = 0 ∨ pm = 1 := by omega
    rcases hpm2 with rfl | rfl <;>
    · simp [_set_pm, hampm, hildon_touch_selector_select_iter, _manage_ampm_selection_cb,
        hildon_touch_selector_get_selected, gtk_tree_model_iter_nth_child, gtk_tree_model_get,
        _create_ampm_model, COLUMN_HOURS, COLUMN_MINUTES, COLUMN_AMPM, hfmt]

/-! ## Setting and reading the time -/

theorem hours_nth_child (ampm_format : Bool) (hours : Nat) (hh : hours ≤ 23) :
    gtk_tree_model_iter_nth_child (_create_hours_model ampm_format)
      (if ampm_format = true then
        to_gint (Int.ofNat hours - Int.ofNat (if hours ≥ 12 then 1 else 0) * 12)
      else to_gint (Int.ofNat hours)) = some (hours_row ampm_format hours) := by
  interval_cases hours <;> cases ampm_format <;> decide

theorem hours_get (ampm_format : Bool) (hours : Nat) (hh : hours ≤ 23) :
    gtk_tree_model_get (_create_hours_model ampm_format) (hours_row ampm_format hours)
      = some (if ampm_format = true then (if hours % 12 = 0 then 12 else hours % 12)
          else hours) := by
  interval_cases hours <;> cases ampm_format <;> decide

/-- The selector hildon_time_selector_set_time leaves for an in-range time. -/
theorem set_time_eq (selector : HildonTimeSelector) (hwf : WellFormed selector)
    (hours minutes : Nat) (hh : hours ≤ 23) (hm : minutes ≤ 59) :
    hildon_time_selector_set_time selector hours minutes
      = some (true,
          { selector with
            pm := if hours ≥ 12 then 1 else 0
            selected_ampm :=
              if selector.ampm_format then some (if hours ≥ 12 then 1 else 0)
              else selector.selected_ampm
            selected_hours := some (hours_row selector.ampm_format hours)
            selected_minutes := some (minutes / selector.minutes_step) }) := by
  have hwf2 := hwf
  obtain ⟨hstep, _, hhm, hmm, _⟩ := hwf2
  have hpm : (if hours ≥ 12 then 1 else 0) ≤ 1 := by split <;> omega
  unfold hildon_time_selector_set_time
  rw [if_neg (by omega), if_neg (by omega), set_pm_eq selector hwf _ hpm]
  simp only [hhm, hmm]
  rw [hours_nth_child _ _ hh, select_iter_hours]
  simp only
  rw [if_neg (by omega), create_minutes_model_nth_child _ _ hm, select_iter_minutes]

/-- The constructor builds well-formed columns for every step of the
"minutes-step" property range and either format. -/
theorem constructed_columns_wellFormed (minutes_step : Nat) (ampm_format : Bool)
    (h1 : 1 ≤ minutes_step) (h30 : minutes_step ≤ 30) :
    WellFormed (constructed_columns minutes_step ampm_format) := by
  have h0 : minutes_step ≠ 0 := by omega
  simp [WellFormed, constructed_columns, h0, h1, h30]

/-- An in-range hildon_time_selector_set_time keeps the selector well-formed. -/
theorem set_time_wellFormed (selector next : HildonTimeSelector) (hwf : WellFormed selector)
    (hours minutes : Nat) (hh : hours ≤ 23) (hm : minutes ≤ 59) (ret : Bool)
    (hset : hildon_time_selector_set_time selector hours minutes = some (ret, next)) :
    WellFormed next := by
  rw [set_time_eq selector hwf hours minutes hh hm] at hset
  simp only [Option.some.injEq, Prod.mk.injEq] at hset
  rw [← hset.2]
  exact hwf

/-- C1: on a selector with a minutes step in 1..30, in am/pm or in 24h
format, for hours in 0..23 and minutes in 0..59,
hildon_time_selector_set_time returns TRUE and hildon_time_selector_get_time
then returns the same hours (in 24h form) and the minutes rounded down to a
multiple of the step. -/
theorem set_time_get_time (selector : HildonTimeSelector) (hwf : WellFormed selector)
    (hours minutes hours0 minutes0 : Nat) (hh : hours ≤ 23) (hm : minutes ≤ 59) :
    ∃ next, hildon_time_selector_set_time selector hours minutes = some (true, next) ∧
      hildon_time_selector_get_time next hours0 minutes0
        = (hours, minutes / selector.minutes_step * selector.minutes_step) := by
  refine ⟨_, set_time_eq selector hwf hours minutes hh hm, ?_⟩
  obtain ⟨_, _, hhm, hmm, _⟩ := hwf
  have hmin : gtk_tree_model_get (_create_minutes_model selector.minutes_step)
      (minutes / selector.minutes_step)
        = some (minutes / selector.minutes_step * selector.minutes_step) :=
    create_minutes_model_get selector.minutes_step minutes hm
  have hhour := hours_get selector.ampm_format hours hh
  cases hfmt : selector.ampm_format
  · rw [hfmt] at hhour hhm
    simp [hildon_time_selector_get_time, hildon_touch_selector_get_selected, COLUMN_HOURS,
      COLUMN_MINUTES, hhm, hmm, hmin, hhour, hfmt]
  · rw [hfmt] at hhour hhm
    simp only [if_true] at hhour
    simp [hildon_time_selector_get_time, hildon_touch_selector_get_selected, COLUMN_HOURS,
      COLUMN_MINUTES, hhm, hmm, hmin, hhour, hfmt]
    interval_cases hours <;> decide

/-- C1 at 13:59 on a freshly built am/pm selector with a minutes step of 7. -/
theorem set_time_get_time_witness :
    WellFormed (constructed_columns 7 true) ∧
    ∃ next, hildon_time_selector_set_time (constructed_columns 7 true) 13 59 = some (true, next) ∧
      hildon_time_selector_get_time next 0 0
        = (13, 59 / (constructed_columns 7 true).minutes_step
            * (constructed_columns 7 true).minutes_step) :=
  ⟨by decide, set_time_get_time (constructed_columns 7 true) (by decide) 13 59 0 0
    (by decide) (by decide)⟩

/-- C2: on a valid selector (its minutes step is positive)
hildon_time_selector_set_time returns, and it returns FALSE exactly when
hours > 23 or minutes > 59; in that case the selector, with its selected hour
and minute rows and its am/pm flag, is left as it was. -/
theorem set_time_false_iff (selector : HildonTimeSelector) (hstep : 0 < selector.minutes_step)
    (hours minutes : Nat) :
    ∃ ret next, hildon_time_selector_set_time selector hours minutes = some (ret, next) ∧
      (ret = false ↔ (hours > 23 ∨ minutes > 59)) ∧
      (ret = false → next = selector) := by
  unfold hildon_time_selector_set_time
  by_cases hh : hours ≤ 23
  · by_cases hm : minutes ≤ 59
    · simp only [hh, hm, not_true_eq_false, if_false, select_iter_minutes_step,
        set_pm_minutes_step, hstep, gt_iff_lt]
      exact ⟨true, _, rfl, by simp; omega, by simp⟩
    · simp only [hh, hm, not_true_eq_false, not_false_eq_true, if_true, if_false]
      exact ⟨false, selector, rfl, by simp; omega, by simp⟩
  · simp only [hh, not_false_eq_true, if_true]
    exact ⟨false, selector, rfl, by simp; omega, by simp⟩

/-- C2 at the out-of-range time 24:10 on a 24h selector with a step of 5. -/
theorem set_time_false_iff_witness :
    0 < (constructed_columns 5 false).minutes_step ∧
    ∃ ret next, hildon_time_selector_set_time (constructed_columns 5 false) 24 10
        = some (ret, next) ∧
      (ret = false ↔ (24 > 23 ∨ 10 > 59)) ∧
      (ret = false → next = constructed_columns 5 false) :=
  ⟨by decide, set_time_false_iff (constructed_columns 5 false) (by decide) 24 10⟩

/-- C3: hildon_time_selector_get_time reports the hour in 24h form.  In
am/pm format, with selected hour row value v among 12, 1, ..., 11 and am/pm
flag p in 0, 1, it returns (v mod 12) + 12 * p, which is at most 23; in 24h
format it returns the selected row value unchanged, whatever the flag. -/
theorem get_time_hours (selector : HildonTimeSelector) (row v hours0 minutes0 : Nat)
    (hsel : selector.selected_hours = some row)
    (hv : gtk_tree_model_get selector.hours_model row = some v) :
    (selector.ampm_format = true → v ∈ range_12h → selector.pm ≤ 1 →
      (hildon_time_selector_get_time selector hours0 minutes0).1 = v % 12 + 12 * selector.pm ∧
      (hildon_time_selector_get_time selector hours0 minutes0).1 ≤ 23) ∧
    (selector.ampm_format = false →
      (hildon_time_selector_get_time selector hours0 minutes0).1 = v) := by
  constructor
  · intro hfmt hmem hpm
    have hlt : v % 12 < 12 := Nat.mod_lt _ (by decide)
    have hval : (hildon_time_selector_get_time selector hours0 minutes0).1
        = v % 12 + 12 * selector.pm := by
      simp only [hildon_time_selector_get_time, hildon_touch_selector_get_selected, COLUMN_HOURS,
        hsel, hv, hfmt, if_true, Option.getD_some, to_guint]
      have hnn : (Int.ofNat (v % 12) + Int.ofNat selector.pm * 12) % 4294967296
          = Int.ofNat (v % 12 + 12 * selector.pm) := by
        have h1 : Int.ofNat (v % 12) + Int.ofNat selector.pm * 12
            = Int.ofNat (v % 12 + 12 * selector.pm) := by
          simp only [Int.ofNat_eq_coe]; push_cast; ring
        rw [h1]
        exact Int.emod_eq_of_lt (Int.ofNat_nonneg _) (by
          simp only [Int.ofNat_eq_coe]; omega)
      rw [hnn]
      exact Int.toNat_ofNat _
    exact ⟨hval, by rw [hval]; omega⟩
  · intro hfmt
    simp [hildon_time_selector_get_time, hildon_touch_selector_get_selected, COLUMN_HOURS,
      hsel, hv, hfmt]

/-- C3 on an am/pm selector with the row of value 12 selected and the pm
flag set: 12 PM reads 12. -/
theorem get_time_hours_witness :
    (constructed_columns 1 true).ampm_format = true ∧
    ({ constructed_columns 1 true with selected_hours := some 0, pm := 1 } :
      HildonTimeSelector).selected_hours = some 0 ∧
    ((({ constructed_columns 1 true with selected_hours := some 0, pm := 1 } :
        HildonTimeSelector).ampm_format = true → 12 ∈ range_12h →
      ({ constructed_columns 1 true with selected_hours := some 0, pm := 1 } :
        HildonTimeSelector).pm ≤ 1 →
      (hildon_time_selector_get_time
        { constructed_columns 1 true with selected_hours := some 0, pm := 1 } 7 7).1
          = 12 % 12 + 12 * ({ constructed_columns 1 true with selected_hours := some 0, pm := 1 } :
              HildonTimeSelector).pm ∧
      (hildon_time_selector_get_time
        { constructed_columns 1 true with selected_hours := some 0, pm := 1 } 7 7).1 ≤ 23) ∧
    (({ constructed_columns 1 true with selected_hours := some 0, pm := 1 } :
        HildonTimeSelector).ampm_format = false →
      (hildon_time_selector_get_time
        { constructed_columns 1 true with selected_hours := some 0, pm := 1 } 7 7).1 = 12)) :=
  ⟨by decide, by decide,
    get_time_hours { constructed_columns 1 true with selected_hours := some 0, pm := 1 }
      0 12 7 7 (by decide) (by decide)⟩

end TimeSelector

namespace LiveSearch

/-! ## Strings -/

theorem g_str_has_prefix_iff (pre : CString) :
    ∀ str : CString, ( g_str_has_prefix str pre) = true ↔ pre <+: str := by
  induction pre with
  | nil => intro str; simp [ g_str_has_prefix]
  | cons b pre ih =>
    intro str
    cases str with
    | nil => simp [ g_str_has_prefix]
    | cons a str =>
      simp only [ g_str_has_prefix, Bool.and_eq_true, beq_iff_eq, ih str]
      constructor
      · rintro ⟨rfl, ⟨t, rfl⟩⟩
        exact ⟨t, rfl⟩
      · rintro ⟨t, ht⟩
        simp only [List.cons_append, List.cons.injEq] at ht
        exact ⟨ht.1.symm, ⟨t, ht.2⟩⟩

theorem g_utf8_strlen_lt_one (text : CString) : g_utf8_strlen text < 1 ↔ text = [] := by
  cases text with
  | nil => simp [g_utf8_strlen, utf8_count]
  | cons c rest => simp [g_utf8_strlen, utf8_count]

/-! ## The default filter -/

/-- C4: with no custom visible function and a text column other than -1, a
row is visible iff the prefix is unset or the string of the row in the text
column is non-NULL and starts with the prefix, byte for byte; with text
column -1 and no custom function every row is visible. -/
theorem visible_func_default (priv : HildonLiveSearch) (row : Row)
    (hfunc : priv.visible_func = none) :
    (priv.text_column ≠ -1 →
      (visible_func priv row = true ↔
        (priv.prefix_ = none ∨
          ∃ pre string, priv.prefix_ = some pre ∧ row priv.text_column = some string ∧
            pre <+: string))) ∧
    (priv.text_column = -1 → visible_func priv row = true) := by
  constructor
  · intro hcol
    unfold visible_func
    cases hpre : priv.prefix_ with
    | none => simp
    | some pre =>
      simp only [hfunc, Option.isNone_none, hcol, and_false, if_false, false_or,
        Option.some.injEq, reduceCtorEq]
      cases hrow : row priv.text_column with
      | none => simp
      | some string =>
        simp only [g_str_has_prefix_iff, Option.some.injEq]
        constructor
        · intro h; exact ⟨pre, string, rfl, rfl, h⟩
        · rintro ⟨pre2, string2, rfl, rfl, h⟩; exact h
  · intro hcol
    unfold visible_func
    cases hpre : priv.prefix_ with
    | none => rfl
    | some pre => simp [hfunc, hcol]

/-- C4 on a live search filtering column 0 by "hi" and a row holding
"hill". -/
theorem visible_func_default_witness :
    sample_search.visible_func = none ∧
    (sample_search.text_column ≠ -1 →
      (visible_func sample_search sample_row = true ↔
        (sample_search.prefix_ = none ∨
          ∃ pre string, sample_search.prefix_ = some pre ∧
            sample_row sample_search.text_column = some string ∧ pre <+: string))) ∧
    (sample_search.text_column = -1 → visible_func sample_search sample_row = true) :=
  ⟨rfl, visible_func_default sample_search sample_row rfl⟩

/-! ## The text column and the visible function -/

theorem refilter_fields (livesearch : HildonLiveSearch) :
    (refilter livesearch).visible_func = livesearch.visible_func ∧
    (refilter livesearch).text_column = livesearch.text_column := by
  unfold refilter selection_map_create
  simp only
  repeat (first | exact ⟨rfl, rfl⟩ | split)

theorem install_visible_func_fields (livesearch : HildonLiveSearch) :
    (install_visible_func livesearch).visible_func = livesearch.visible_func ∧
    (install_visible_func livesearch).text_column = livesearch.text_column := by
  unfold install_visible_func
  split <;> exact ⟨rfl, rfl⟩

theorem set_text_column_exclusive (livesearch : HildonLiveSearch) (text_column : Int)
    (h : Exclusive livesearch) :
    Exclusive (hildon_live_search_set_text_column livesearch text_column) := by
  unfold hildon_live_search_set_text_column
  split
  · exact h
  · split
    · exact h
    · split
      · exact h
      · split
        · exact h
        · rename_i hnone _
          simp only [Exclusive, (refilter_fields _).1, (install_visible_func_fields _).1]
          intro hboth
          have hsome := hboth.1
          simp only [not_not] at hnone
          rw [Option.isNone_iff_eq_none] at hnone
          rw [hnone] at hsome
          exact absurd hsome (by simp)

theorem set_visible_func_exclusive (livesearch : HildonLiveSearch)
    (func : Option HildonLiveSearchVisibleFunc) (data destroy : Nat)
    (h : Exclusive livesearch) :
    Exclusive (hildon_live_search_set_visible_func livesearch func data destroy) := by
  unfold hildon_live_search_set_visible_func
  cases func with
  | none => exact h
  | some f =>
    simp only
    split
    · exact h
    · rename_i hcol
      simp only [not_not] at hcol
      simp only [Exclusive, (refilter_fields _).2, (install_visible_func_fields _).2]
      intro hboth
      apply hboth.2
      split <;> exact hcol

theorem reachable_exclusive (livesearch : HildonLiveSearch) (h : Reachable livesearch) :
    Exclusive livesearch := by
  induction h with
  | init filter => simp [Exclusive, hildon_live_search_init]
  | step livesearch call _ ih =>
    cases call with
    | set_text_column text_column => exact set_text_column_exclusive _ _ ih
    | set_visible_func func data destroy => exact set_visible_func_exclusive _ _ _ _ ih

/-- C5: in every state reached through the two setters a custom visible
function is never set while the text column differs from -1; a
hildon_live_search_set_text_column call with a column other than -1 while a
visible function is set, and a hildon_live_search_set_visible_func call while
the text column differs from -1, are rejected and leave the widget (its text
column and its visible function among the rest) unchanged. -/
theorem text_column_or_visible_func (livesearch : HildonLiveSearch)
    (h : Reachable livesearch) :
    ¬ (livesearch.visible_func.isSome = true ∧ livesearch.text_column ≠ -1) ∧
    (∀ text_column : Int, livesearch.visible_func.isSome = true → text_column ≠ -1 →
      hildon_live_search_set_text_column livesearch text_column = livesearch) ∧
    (∀ (func : HildonLiveSearchVisibleFunc) (data destroy : Nat),
      livesearch.text_column ≠ -1 →
      hildon_live_search_set_visible_func livesearch (some func) data destroy = livesearch) := by
  refine ⟨reachable_exclusive livesearch h, ?_, ?_⟩
  · intro text_column hsome _
    unfold hildon_live_search_set_text_column
    split
    · rfl
    · split
      · rfl
      · rw [if_pos]
        intro hnone
        rw [Option.isNone_iff_eq_none] at hnone
        rw [hnone] at hsome
        exact absurd hsome (by simp)
  · intro func data destroy hcol
    unfold hildon_live_search_set_visible_func
    simp only
    rw [if_pos hcol]

/-- C5 on a live search on which a custom visible function has been set. -/
theorem text_column_or_visible_func_witness :
    sample_custom.visible_func.isSome = true ∧
    ¬ (sample_custom.visible_func.isSome = true ∧ sample_custom.text_column ≠ -1) ∧
    (∀ text_column : Int, sample_custom.visible_func.isSome = true → text_column ≠ -1 →
      hildon_live_search_set_text_column sample_custom text_column = sample_custom) ∧
    (∀ (func : HildonLiveSearchVisibleFunc) (data destroy : Nat),
      sample_custom.text_column ≠ -1 →
      hildon_live_search_set_visible_func sample_custom (some func) data destroy
        = sample_custom) :=
  ⟨rfl, text_column_or_visible_func sample_custom
    (Reachable.step _ _ (Reachable.init (some 2)))⟩

/-! ## The "changed" handler -/

theorem on_entry_changed_filter_fields (livesearch : HildonLiveSearch) :
    (on_entry_changed_filter livesearch).entry_text = livesearch.entry_text ∧
    (on_entry_changed_filter livesearch).visible = livesearch.visible ∧
    (on_entry_changed_filter livesearch).prefix_
      = (if g_utf8_strlen livesearch.entry_text < 1 then none
          else some livesearch.entry_text) := by
  unfold on_entry_changed_filter on_idle_refilter refilter selection_map_destroy
    selection_map_create gdk_threads_add_idle
  simp only
  repeat (first | exact ⟨rfl, rfl, rfl⟩ | split)

theorem on_entry_changed_filter_prefix (livesearch : HildonLiveSearch) :
    (on_entry_changed_filter livesearch).prefix_
      = (if livesearch.entry_text = [] then none else some livesearch.entry_text) := by
  rw [(on_entry_changed_filter_fields livesearch).2.2]
  by_cases h : livesearch.entry_text = []
  · rw [if_pos ((g_utf8_strlen_lt_one _).mpr h), if_pos h]
  · rw [if_neg (fun hlt => h ((g_utf8_strlen_lt_one _).mp hlt)), if_neg h]

/-- What on_entry_changed does, with the nested handlers run: the widget is
hidden when the text is empty, shown otherwise. -/
theorem on_entry_changed_eq (livesearch : HildonLiveSearch) :
    on_entry_changed livesearch =
      if livesearch.entry_text = [] then
        (if livesearch.visible = true then
          { on_entry_changed_filter livesearch with visible := false, run_async := true }
        else on_entry_changed_filter livesearch)
      else { on_entry_changed_filter livesearch with visible := true } := by
  have hpre := on_entry_changed_filter_prefix livesearch
  have hfields := on_entry_changed_filter_fields livesearch
  rw [on_entry_changed]
  by_cases htext : livesearch.entry_text = []
  · rw [if_pos htext] at hpre
    rw [if_pos htext, hpre, gtk_widget_hide]
    simp only [Option.isNone_none, if_true, hfields.2.1]
    by_cases hvis : livesearch.visible = true
    · simp only [hvis, dite_true, if_true]
      rw [on_hide_cb, hildon_live_search_set_text, gtk_entry_set_text]
      simp only [hfields.1, htext, if_true]
    · simp only [hvis, dite_false, if_false]
      rfl
  · rw [if_neg htext] at hpre
    rw [if_neg htext, hpre]
    simp

theorem on_entry_changed_fields (livesearch : HildonLiveSearch) :
    (on_entry_changed livesearch).entry_text = livesearch.entry_text ∧
    (on_entry_changed livesearch).prefix_
      = (if livesearch.entry_text = [] then none else some livesearch.entry_text) ∧
    (on_entry_changed livesearch).visible = !(decide (livesearch.entry_text = [])) := by
  have hpre := on_entry_changed_filter_prefix livesearch
  have hfields := on_entry_changed_filter_fields livesearch
  rw [on_entry_changed_eq]
  by_cases htext : livesearch.entry_text = []
  · by_cases hvis : livesearch.visible = true
    · simp only [htext, hvis, if_true, decide_True, Bool.not_true]
      rw [htext] at hpre hfields
      exact ⟨hfields.1, by simpa using hpre, trivial⟩
    · have hv : livesearch.visible = false := by simpa using hvis
      simp only [htext, hv, if_true, Bool.false_eq_true, if_false, decide_True, Bool.not_true]
      rw [htext] at hpre hfields
      refine ⟨hfields.1, by simpa using hpre, ?_⟩
      rw [hfields.2.1]
      exact hv
  · simp only [htext, if_false, decide_False, Bool.not_false]
    rw [if_neg htext] at hpre
    exact ⟨hfields.1, hpre, trivial⟩

theorem gtk_entry_set_text_entry_text (livesearch : HildonLiveSearch) (text : CString) :
    (gtk_entry_set_text livesearch text).entry_text = text := by
  rw [gtk_entry_set_text]
  split
  · assumption
  · exact (on_entry_changed_fields _).1

theorem key_file_get_set (key_file : GKeyFile) (group key : String) (string : CString) :
    g_key_file_get_string (g_key_file_set_string key_file group key string) group key
      = some string := by
  simp [g_key_file_get_string, g_key_file_set_string]

/-- C6: hildon_live_search_save_state stores the entry text under group
"LiveSearch", key "Text" of the key file, and hildon_live_search_restore_state
on that key file sets the entry text (of any live search) to the saved text;
restoring from a key file without that key leaves the widget, and so its
entry text, unchanged. -/
theorem save_restore_state (saved target : HildonLiveSearch) (key_file : GKeyFile) :
    g_key_file_get_string (hildon_live_search_save_state saved key_file) "LiveSearch" "Text"
      = some saved.entry_text ∧
    (hildon_live_search_restore_state target
      (hildon_live_search_save_state saved key_file)).entry_text = saved.entry_text ∧
    (g_key_file_get_string key_file "LiveSearch" "Text" = none →
      hildon_live_search_restore_state target key_file = target) := by
  have hget : g_key_file_get_string (hildon_live_search_save_state saved key_file)
      "LiveSearch" "Text" = some saved.entry_text := by
    simp only [hildon_live_search_save_state, gtk_entry_get_text]
    exact key_file_get_set _ _ _ _
  refine ⟨hget, ?_, ?_⟩
  · unfold hildon_live_search_restore_state
    rw [hget]
    exact gtk_entry_set_text_entry_text _ _
  · intro hnone
    unfold hildon_live_search_restore_state
    rw [hnone]

/-- C7: after the entry text has changed, the stored prefix is NULL when the
text has no characters and a copy of the text otherwise, and the live search
widget is visible iff the prefix is non-NULL.  This holds after the "changed"
handler on_entry_changed, and so after every gtk_entry_set_text that changes
the text. -/
theorem entry_changed_prefix_visible (livesearch : HildonLiveSearch) :
    ((on_entry_changed livesearch).entry_text = livesearch.entry_text ∧
      (on_entry_changed livesearch).prefix_
        = (if g_utf8_strlen livesearch.entry_text = 0 then none
            else some livesearch.entry_text) ∧
      ((on_entry_changed livesearch).visible = true ↔
        (on_entry_changed livesearch).prefix_ ≠ none)) ∧
    (∀ text : CString, text ≠ livesearch.entry_text →
      (gtk_entry_set_text livesearch text).entry_text = text ∧
      (gtk_entry_set_text livesearch text).prefix_
        = (if g_utf8_strlen text = 0 then none else some text) ∧
      ((gtk_entry_set_text livesearch text).visible = true ↔
        (gtk_entry_set_text livesearch text).prefix_ ≠ none)) := by
  have key : ∀ ls : HildonLiveSearch,
      (on_entry_changed ls).entry_text = ls.entry_text ∧
      (on_entry_changed ls).prefix_
        = (if g_utf8_strlen ls.entry_text = 0 then none else some ls.entry_text) ∧
      ((on_entry_changed ls).visible = true ↔ (on_entry_changed ls).prefix_ ≠ none) := by
    intro ls
    obtain ⟨h1, h2, h3⟩ := on_entry_changed_fields ls
    have hlen : g_utf8_strlen ls.entry_text = 0 ↔ ls.entry_text = [] := by
      rw [← g_utf8_strlen_lt_one]; omega
    refine ⟨h1, ?_, ?_⟩
    · rw [h2]
      by_cases htext : ls.entry_text = []
      · rw [if_pos htext, if_pos (hlen.mpr htext)]
      · rw [if_neg htext, if_neg (fun h => htext (hlen.mp h))]
    · rw [h2, h3]
      by_cases htext : ls.entry_text = [] <;> simp [htext]
  refine ⟨key livesearch, ?_⟩
  intro text hne
  have hset : gtk_entry_set_text livesearch text
      = on_entry_changed { livesearch with entry_text := text } := by
    rw [gtk_entry_set_text, if_neg (fun h => hne h.symm)]
  rw [hset]
  exact key { livesearch with entry_text := text }

end LiveSearch

namespace WizardDialog

/-! ## The buttons and the current page -/

theorem response_stop_fields (wizard_dialog : HildonWizardDialog) :
    (response_stop wizard_dialog).1.n_pages = wizard_dialog.n_pages ∧
    (response_stop wizard_dialog).1.current_page = wizard_dialog.current_page ∧
    (response_stop wizard_dialog).1.previous_sensitive = wizard_dialog.previous_sensitive ∧
    (response_stop wizard_dialog).1.finish_sensitive = wizard_dialog.finish_sensitive ∧
    (response_stop wizard_dialog).1.next_sensitive = wizard_dialog.next_sensitive ∧
    (response_stop wizard_dialog).2 = true := by
  unfold response_stop create_title
  split <;> exact ⟨rfl, rfl, rfl, rfl, rfl, rfl⟩

theorem response_stop_invariant (n_pages : Nat) (wizard_dialog : HildonWizardDialog)
    (h : Invariant n_pages wizard_dialog) : Invariant n_pages (response_stop wizard_dialog).1 := by
  obtain ⟨h1, h2, h3, h4, h5, _⟩ := response_stop_fields wizard_dialog
  unfold Invariant ButtonsMatchPage at *
  rw [h1, h2, h3, h4, h5]
  exact h

theorem response_previous_eq (ids : HildonWizardDialogResponse)
    (wizard_dialog : HildonWizardDialog) :
    response ids wizard_dialog ids.PREVIOUS
      = response_stop (gtk_notebook_prev_page
          (make_buttons_sensitive wizard_dialog
            (!decide (wizard_dialog.current_page - 1 = 0))
            (!decide (wizard_dialog.current_page - 1 = 0))
            (!decide (wizard_dialog.current_page - 1 = Int.ofNat wizard_dialog.n_pages - 1)))) := by
  unfold response
  rw [if_pos rfl]

theorem response_next_eq (ids : HildonWizardDialogResponse)
    (wizard_dialog : HildonWizardDialog) :
    response ids wizard_dialog ids.NEXT
      = if wizard_dialog.forward_function.isNone ∨
            (wizard_dialog.forward_function.map (fun f => f wizard_dialog.current_page))
              = some true then
          response_stop (gtk_notebook_next_page
            (make_buttons_sensitive wizard_dialog
              (!decide (wizard_dialog.current_page + 1 = 0))
              (!decide (wizard_dialog.current_page + 1 = 0))
              (!decide (wizard_dialog.current_page + 1 = Int.ofNat wizard_dialog.n_pages - 1))))
        else response_stop wizard_dialog := by
  unfold response
  rw [if_neg (fun h => ids.distinct.1 h.symm), if_pos rfl]

theorem buttons_for_page (wizard_dialog : HildonWizardDialog) (page : Int) :
    ButtonsMatchPage
      { wizard_dialog with
        current_page := page
        previous_sensitive := !decide (page = 0)
        finish_sensitive := !decide (page = 0)
        next_sensitive := !decide (page = Int.ofNat wizard_dialog.n_pages - 1) } := by
  simp [ButtonsMatchPage]

theorem prev_page_eq (wizard_dialog : HildonWizardDialog) (previous finish next : Bool)
    (hpos : 0 < wizard_dialog.current_page) :
    gtk_notebook_prev_page (make_buttons_sensitive wizard_dialog previous finish next)
      = { wizard_dialog with
          current_page := wizard_dialog.current_page - 1
          previous_sensitive := previous
          finish_sensitive := finish
          next_sensitive := next } := by
  unfold gtk_notebook_prev_page make_buttons_sensitive
  exact if_pos hpos

theorem next_page_eq (wizard_dialog : HildonWizardDialog) (previous finish next : Bool)
    (h0 : 0 ≤ wizard_dialog.current_page)
    (hroom : wizard_dialog.current_page + 1 < wizard_dialog.n_pages) :
    gtk_notebook_next_page (make_buttons_sensitive wizard_dialog previous finish next)
      = { wizard_dialog with
          current_page := wizard_dialog.current_page + 1
          previous_sensitive := previous
          finish_sensitive := finish
          next_sensitive := next } := by
  unfold gtk_notebook_next_page make_buttons_sensitive
  exact if_pos ⟨h0, hroom⟩

theorem press_invariant (ids : HildonWizardDialogResponse) (n_pages : Nat)
    (wizard_dialog next_dialog : HildonWizardDialog) (button : Button)
    (h : Invariant n_pages wizard_dialog)
    (hpress : press ids wizard_dialog button = some next_dialog) :
    Invariant n_pages next_dialog := by
  obtain ⟨hn, h0, hlt, hprev, hfin, hnext⟩ := h
  simp only [Int.ofNat_eq_coe] at hlt
  cases button with
  | previous =>
    unfold press at hpress
    simp only at hpress
    split at hpress
    · rename_i hsens
      have hne : wizard_dialog.current_page ≠ 0 := hprev.mp hsens
      simp only [Option.some.injEq] at hpress
      rw [← hpress, response_previous_eq]
      apply response_stop_invariant
      rw [prev_page_eq _ _ _ _ (by omega)]
      refine ⟨hn, ?_, ?_, buttons_for_page wizard_dialog (wizard_dialog.current_page - 1)⟩
      · show (0 : Int) ≤ wizard_dialog.current_page - 1
        omega
      · show wizard_dialog.current_page - 1 < Int.ofNat n_pages
        simp only [Int.ofNat_eq_coe]
        omega
    · exact absurd hpress (by simp)
  | next =>
    unfold press at hpress
    simp only at hpress
    split at hpress
    · rename_i hsens
      have hne : wizard_dialog.current_page ≠ Int.ofNat wizard_dialog.n_pages - 1 :=
        hnext.mp hsens
      simp only [Int.ofNat_eq_coe] at hne
      simp only [Option.some.injEq] at hpress
      rw [← hpress, response_next_eq]
      split
      · apply response_stop_invariant
        rw [next_page_eq _ _ _ _ h0 (by rw [hn]; omega)]
        refine ⟨hn, ?_, ?_, buttons_for_page wizard_dialog (wizard_dialog.current_page + 1)⟩
        · show (0 : Int) ≤ wizard_dialog.current_page + 1
          omega
        · show wizard_dialog.current_page + 1 < Int.ofNat n_pages
          simp only [Int.ofNat_eq_coe]
          rw [hn] at hne
          omega
      · exact response_stop_invariant _ _ ⟨hn, h0, hlt, hprev, hfin, hnext⟩
    · exact absurd hpress (by simp)

theorem reachable_invariant (ids : HildonWizardDialogResponse) (n_pages : Nat)
    (wizard_dialog : HildonWizardDialog) (hn : 2 ≤ n_pages)
    (h : Reachable ids n_pages wizard_dialog) : Invariant n_pages wizard_dialog := by
  induction h with
  | init autotitle page_func =>
    have h0 : n_pages ≠ 0 := by omega
    simp only [Invariant, ButtonsMatchPage, hildon_wizard_dialog_set_forward_page_func,
      hildon_wizard_dialog_new, h0, if_false, Int.ofNat_eq_coe]
    refine ⟨trivial, le_refl _, by omega, by simp, by simp, ?_⟩
    simp only [true_iff]
    omega
  | press wizard_dialog next_dialog button _ hpress ih =>
    exact press_invariant ids n_pages wizard_dialog next_dialog button ih hpress

/-- C8, as stated, fails for a notebook of one page: in the initial state
the only page is the last page and Next is sensitive; a press of Next then
makes Previous and Finish sensitive on the first page. -/
theorem one_page_buttons_mismatch :
    1 ≤ one_page_wizard.n_pages ∧
    Reachable hildon_response_ids 1 one_page_wizard ∧
    one_page_wizard.current_page = Int.ofNat one_page_wizard.n_pages - 1 ∧
    one_page_wizard.next_sensitive = true ∧
    ¬ ButtonsMatchPage one_page_wizard ∧
    Reachable hildon_response_ids 1
      (response hildon_response_ids one_page_wizard hildon_response_ids.NEXT).1 ∧
    (response hildon_response_ids one_page_wizard hildon_response_ids.NEXT).1.current_page = 0 ∧
    (response hildon_response_ids one_page_wizard
      hildon_response_ids.NEXT).1.previous_sensitive = true := by
  have hinit : Reachable hildon_response_ids 1 one_page_wizard := Reachable.init true none
  refine ⟨by decide, hinit, by decide, rfl, ?_, ?_, by decide, by decide⟩
  · intro h
    have h3 := h.2.2.mp rfl
    exact h3 (by decide)
  · exact Reachable.press one_page_wizard _ Button.next hinit rfl

/-- C8, amended: for every notebook with at least two pages, starting from
the initial state (first page, Previous and Finish insensitive, Next
sensitive) and pressing only sensitive Previous and Next buttons, in every
reachable state Previous and Finish are sensitive iff the current page is not
the first page and Next is sensitive iff the current page is not the last
page. -/
theorem buttons_match_page (ids : HildonWizardDialogResponse) (n_pages : Nat)
    (wizard_dialog : HildonWizardDialog) (hn : 2 ≤ n_pages)
    (h : Reachable ids n_pages wizard_dialog) :
    (wizard_dialog.previous_sensitive = true ↔ wizard_dialog.current_page ≠ 0) ∧
    (wizard_dialog.finish_sensitive = true ↔ wizard_dialog.current_page ≠ 0) ∧
    (wizard_dialog.next_sensitive = true ↔
      wizard_dialog.current_page ≠ Int.ofNat wizard_dialog.n_pages - 1) :=
  (reachable_invariant ids n_pages wizard_dialog hn h).2.2.2

/-- C8, amended, on the three-page wizard after one press of Next. -/
theorem buttons_match_page_witness :
    2 ≤ 3 ∧ three_page_wizard_next.current_page = 1 ∧
    (three_page_wizard_next.previous_sensitive = true ↔
      three_page_wizard_next.current_page ≠ 0) ∧
    (three_page_wizard_next.finish_sensitive = true ↔
      three_page_wizard_next.current_page ≠ 0) ∧
    (three_page_wizard_next.next_sensitive = true ↔
      three_page_wizard_next.current_page ≠ Int.ofNat three_page_wizard_next.n_pages - 1) :=
  ⟨by decide, by decide,
    buttons_match_page hildon_response_ids 3 three_page_wizard_next (by decide)
      (Reachable.press three_page_wizard _ Button.next (Reachable.init true _) rfl)⟩

/-! ## The forward page function -/

/-- C9, as stated, fails on the last page: on the one-page wizard, whose
forward page function is NULL and whose Next button is sensitive, a NEXT
response leaves page 0 current instead of moving to page 1. -/
theorem next_on_last_page_stays :
    one_page_wizard.forward_function.isNone = true ∧
    one_page_wizard.next_sensitive = true ∧
    one_page_wizard.current_page = 0 ∧
    (response hildon_response_ids one_page_wizard hildon_response_ids.NEXT).1.current_page = 0 ∧
    (response hildon_response_ids one_page_wizard hildon_response_ids.NEXT).1.current_page
      ≠ one_page_wizard.current_page + 1 := by
  refine ⟨rfl, rfl, by decide, by decide, by decide⟩

/-- C9, amended: on a page p that is not the last page of the notebook, a
NEXT response moves to page p + 1 when the forward page function is NULL,
and, when it is set, moves to page p + 1 iff the function returns TRUE for p;
when the function returns FALSE (on any page) the current page and the
sensitivity of the Previous, Finish and Next buttons are left unchanged. -/
theorem next_response_forward_func (ids : HildonWizardDialogResponse)
    (wizard_dialog : HildonWizardDialog) :
    (0 ≤ wizard_dialog.current_page →
      wizard_dialog.current_page + 1 < wizard_dialog.n_pages →
      (wizard_dialog.forward_function = none →
        (response ids wizard_dialog ids.NEXT).1.current_page
          = wizard_dialog.current_page + 1) ∧
      (∀ func, wizard_dialog.forward_function = some func →
        ((response ids wizard_dialog ids.NEXT).1.current_page
            = wizard_dialog.current_page + 1 ↔ func wizard_dialog.current_page = true))) ∧
    (∀ func, wizard_dialog.forward_function = some func →
      func wizard_dialog.current_page = false →
      (response ids wizard_dialog ids.NEXT).1.current_page = wizard_dialog.current_page ∧
      (response ids wizard_dialog ids.NEXT).1.previous_sensitive
        = wizard_dialog.previous_sensitive ∧
      (response ids wizard_dialog ids.NEXT).1.finish_sensitive
        = wizard_dialog.finish_sensitive ∧
      (response ids wizard_dialog ids.NEXT).1.next_sensitive
        = wizard_dialog.next_sensitive) := by
  have hstay : ∀ func, wizard_dialog.forward_function = some func →
      func wizard_dialog.current_page = false →
      response ids wizard_dialog ids.NEXT = response_stop wizard_dialog := by
    intro func hfunc hfalse
    rw [response_next_eq, if_neg]
    simp [hfunc, hfalse]
  have hmove : 0 ≤ wizard_dialog.current_page →
      wizard_dialog.current_page + 1 < wizard_dialog.n_pages →
      (wizard_dialog.forward_function.isNone ∨
        (wizard_dialog.forward_function.map (fun f => f wizard_dialog.current_page))
          = some true) →
      (response ids wizard_dialog ids.NEXT).1.current_page
        = wizard_dialog.current_page + 1 := by
    intro h0 hroom hcond
    rw [response_next_eq, if_pos hcond, (response_stop_fields _).2.1,
      next_page_eq _ _ _ _ h0 hroom]
  refine ⟨?_, ?_⟩
  · intro h0 hroom
    refine ⟨?_, ?_⟩
    · intro hnone
      exact hmove h0 hroom (Or.inl (by rw [hnone]; rfl))
    · intro func hfunc
      constructor
      · intro hpage
        by_contra hfalse
        have hf : func wizard_dialog.current_page = false := by simpa using hfalse
        rw [hstay func hfunc hf, (response_stop_fields _).2.1] at hpage
        omega
      · intro htrue
        exact hmove h0 hroom (Or.inr (by rw [hfunc]; simp [htrue]))
  · intro func hfunc hfalse
    rw [hstay func hfunc hfalse]
    obtain ⟨_, h2, h3, h4, h5, _⟩ := response_stop_fields wizard_dialog
    exact ⟨h2, h3, h4, h5⟩

/-- C9, amended, on the three-page wizard: its forward page function lets
page 0 go and holds page 1. -/
theorem next_response_forward_func_witness :
    (response hildon_response_ids three_page_wizard hildon_response_ids.NEXT).1.current_page
        = three_page_wizard.current_page + 1 ∧
    (response hildon_response_ids three_page_wizard_next hildon_response_ids.NEXT).1.current_page
        = three_page_wizard_next.current_page :=
  ⟨(((next_response_forward_func hildon_response_ids three_page_wizard).1
      (by decide) (by decide)).2 _ rfl).mpr rfl,
    ((next_response_forward_func hildon_response_ids three_page_wizard_next).2 _ rfl rfl).1⟩

/-! ## The responses that reach the caller -/

/-- C10: what the response handler does.  It stops the emission of
"response" for every response id other than HILDON_WIZARD_DIALOG_FINISH, the
cancel response included; only a FINISH response is left to reach the
caller. -/
theorem response_stops_all_but_finish (ids : HildonWizardDialogResponse)
    (wizard_dialog : HildonWizardDialog) :
    (response ids wizard_dialog ids.CANCEL).2 = true ∧
    (response ids wizard_dialog ids.FINISH).2 = false ∧
    (∀ response_id : Int, (response ids wizard_dialog response_id).2 = true ↔
      response_id ≠ ids.FINISH) := by
  have hall : ∀ response_id : Int, (response ids wizard_dialog response_id).2 = true ↔
      response_id ≠ ids.FINISH := by
    intro response_id
    unfold response
    simp only
    split
    · rename_i h
      rw [(response_stop_fields _).2.2.2.2.2]
      simp only [true_iff, h]
      exact ids.distinct.2.1
    · split
      · rename_i h
        have hne : response_id ≠ ids.FINISH := by rw [h]; exact ids.distinct.2.2.1
        split <;> simp [(response_stop_fields _).2.2.2.2.2, hne]
      · split
        · rename_i h
          simp [h]
        · rename_i h
          simp [(response_stop_fields _).2.2.2.2.2, h]
  refine ⟨(hall ids.CANCEL).mpr ids.distinct.2.2.2.2.2, ?_, hall⟩
  have h := hall ids.FINISH
  cases hr : (response ids wizard_dialog ids.FINISH).2
  · rfl
  · exact absurd rfl (h.mp hr)

end WizardDialog

namespace Banner

/-! ## Updates of a banner -/

@[simp]
theorem update_banner_banners (world : World) (b : Nat) (f : HildonBanner → HildonBanner)
    (b2 : Nat) :
    (update_banner world b f).banners b2
      = if b2 = b then (world.banners b).map f else world.banners b2 := by
  unfold update_banner
  cases h : world.banners b with
  | none =>
    by_cases hb : b2 = b
    · simp [hb, h]
    · simp [hb]
  | some priv =>
    by_cases hb : b2 = b
    · simp [hb, Function.update_apply]
    · simp [hb, Function.update_apply]

@[simp]
theorem update_banner_fields (world : World) (b : Nat) (f : HildonBanner → HildonBanner) :
    (update_banner world b f).n_banners = world.n_banners ∧
    (update_banner world b f).window_qdata = world.window_qdata ∧
    (update_banner world b f).global_timed_banner = world.global_timed_banner ∧
    (update_banner world b f).sources = world.sources ∧
    (update_banner world b f).last_source_id = world.last_source_id ∧
    (update_banner world b f).widget_parent = world.widget_parent := by
  unfold update_banner
  cases world.banners b <;> simp

theorem key_some {α : Type} (key : HildonBanner → α) (o1 o2 : Option HildonBanner)
    (h : o2.map key = o1.map key) (priv : HildonBanner) (hp : o1 = some priv) :
    ∃ priv2, o2 = some priv2 ∧ key priv2 = key priv := by
  subst hp
  cases o2 with
  | none => exact absurd h (by simp)
  | some priv2 => exact ⟨priv2, rfl, by simpa using h⟩

/-- The invariant of the instances carries over to a state with the same
window data and global pointer whose banners have the same instance fields. -/
theorem inst_transfer (world next : World) (hn : next.n_banners = world.n_banners)
    (hq : next.window_qdata = world.window_qdata)
    (hg : next.global_timed_banner = world.global_timed_banner)
    (hb : ∀ b, (next.banners b).map instKey = (world.banners b).map instKey)
    (h : InstInv world) : InstInv next := by
  have hput : ∀ b priv, world.banners b = some priv →
      ∃ priv2, next.banners b = some priv2 ∧ instKey priv2 = instKey priv :=
    fun b priv hp => key_some instKey _ _ (hb b) priv hp
  have hget : ∀ b priv2, next.banners b = some priv2 →
      ∃ priv, world.banners b = some priv ∧ instKey priv = instKey priv2 :=
    fun b priv2 hp => key_some instKey _ _ (hb b).symm priv2 hp
  simp only [instKey, Prod.mk.injEq] at hput hget
  constructor
  · intro b hb2
    rw [hn] at hb2
    have hnone := h.alloc b hb2
    have := hb b
    rw [hnone] at this
    cases hx : next.banners b with
    | none => rfl
    | some priv => rw [hx] at this; exact absurd this (by simp)
  · intro w b hw
    rw [hq] at hw
    obtain ⟨priv, hp, h1, h2, h3⟩ := h.qdata_sound w b hw
    obtain ⟨priv2, hp2, e1, e2, e3⟩ := hput b priv hp
    exact ⟨priv2, hp2, by rw [e1, h1], by rw [e2, h2], by rw [e3, h3]⟩
  · intro b hw
    rw [hg] at hw
    obtain ⟨priv, hp, h1, h2, h3⟩ := h.global_sound b hw
    obtain ⟨priv2, hp2, e1, e2, e3⟩ := hput b priv hp
    exact ⟨priv2, hp2, by rw [e1, h1], by rw [e2, h2], by rw [e3, h3]⟩
  · intro b priv2 hp2 h1 h2 h3
    obtain ⟨priv, hp, e1, e2, e3⟩ := hget b priv2 hp2
    rw [hg]
    exact h.global_complete b priv hp (by rw [e1, h1]) (by rw [e3, h2]) (by rw [e2, h3])

/-- The invariant of the timeouts carries over to a state with the same
sources whose banners have the same timeout fields. -/
theorem time_transfer (world next : World) (hs : next.sources = world.sources)
    (hl : next.last_source_id = world.last_source_id)
    (hb : ∀ b, (next.banners b).map timeKey = (world.banners b).map timeKey)
    (h : TimeInv world) : TimeInv next := by
  have hput : ∀ b priv, world.banners b = some priv →
      ∃ priv2, next.banners b = some priv2 ∧ timeKey priv2 = timeKey priv :=
    fun b priv hp => key_some timeKey _ _ (hb b) priv hp
  have hget : ∀ b priv2, next.banners b = some priv2 →
      ∃ priv, world.banners b = some priv ∧ timeKey priv = timeKey priv2 :=
    fun b priv2 hp => key_some timeKey _ _ (hb b).symm priv2 hp
  simp only [timeKey, Prod.mk.injEq] at hput hget
  constructor
  · intro id b hsrc
    rw [hs] at hsrc
    obtain ⟨h1, h2, priv, hp, h3⟩ := h.source_sound id b hsrc
    obtain ⟨priv2, hp2, _, _, e3⟩ := hput b priv hp
    rw [hl]
    exact ⟨h1, h2, priv2, hp2, by rw [e3, h3]⟩
  · intro b priv2 hp2 hne
    obtain ⟨priv, hp, _, _, e3⟩ := hget b priv2 hp2
    rw [hs, ← e3]
    exact h.source_complete b priv hp (by rw [e3]; exact hne)
  · intro b priv2 hp2 h1
    obtain ⟨priv, hp, e1, _, e3⟩ := hget b priv2 hp2
    rw [← e3]
    exact h.not_timed b priv hp (by rw [e1, h1])

theorem update_banner_key {α : Type} (world : World) (b : Nat)
    (f : HildonBanner → HildonBanner) (key : HildonBanner → α) (hf : ∀ priv, key (f priv) = key priv) (b2 : Nat) :
    ((update_banner world b f).banners b2).map key = (world.banners b2).map key := by
  rw [update_banner_banners]
  by_cases hb : b2 = b
  · subst hb
    rw [if_pos rfl]
    cases world.banners b2 with
    | none => rfl
    | some priv => simp [hf priv]
  · rw [if_neg hb]

theorem update_banner_inst (world : World) (b : Nat) (f : HildonBanner → HildonBanner)
    (hf : ∀ priv, instKey (f priv) = instKey priv) (h : InstInv world) :
    InstInv (update_banner world b f) := by
  obtain ⟨hn, hq, hg, _, _, _⟩ := update_banner_fields world b f
  exact inst_transfer world _ hn hq hg (update_banner_key world b f instKey hf) h

theorem update_banner_time (world : World) (b : Nat) (f : HildonBanner → HildonBanner)
    (hf : ∀ priv, timeKey (f priv) = timeKey priv) (h : TimeInv world) :
    TimeInv (update_banner world b f) := by
  obtain ⟨_, _, _, hs, hl, _⟩ := update_banner_fields world b f
  exact time_transfer world _ hs hl (update_banner_key world b f timeKey hf) h

theorem update_banner_inv (world : World) (b : Nat) (f : HildonBanner → HildonBanner)
    (hf : Harmless f) (h : Inv world) : Inv (update_banner world b f) :=
  ⟨update_banner_inst world b f
      (fun priv => by simp [instKey, (hf priv).1, (hf priv).2.1, (hf priv).2.2.1]) h.inst,
    update_banner_time world b f
      (fun priv => by simp [timeKey, (hf priv).1, (hf priv).2.2.1, (hf priv).2.2.2]) h.time⟩

/-- An update of a banner that keeps its parent window and its is-timed
property, and does not undo its destruction, extends the state. -/
theorem update_banner_extends (world : World) (b : Nat) (f : HildonBanner → HildonBanner)
    (hf : ∀ priv, (f priv).is_timed = priv.is_timed ∧ (f priv).parent = priv.parent ∧
      (priv.destroyed = true → (f priv).destroyed = true)) :
    Extends world (update_banner world b f) := by
  intro b2 priv hp
  rw [update_banner_banners]
  by_cases hb : b2 = b
  · subst hb
    rw [if_pos rfl, hp]
    exact ⟨f priv, rfl, (hf priv).1, (hf priv).2.1, (hf priv).2.2⟩
  · rw [if_neg hb]
    exact ⟨priv, hp, rfl, rfl, fun h => h⟩

theorem extends_refl (world : World) : Extends world world :=
  fun _ priv hp => ⟨priv, hp, rfl, rfl, fun h => h⟩

theorem extends_trans (w1 w2 w3 : World) (h12 : Extends w1 w2) (h23 : Extends w2 w3) :
    Extends w1 w3 := by
  intro b priv hp
  obtain ⟨priv2, hp2, e1, e2, e3⟩ := h12 b priv hp
  obtain ⟨priv3, hp3, f1, f2, f3⟩ := h23 b priv2 hp2
  exact ⟨priv3, hp3, by rw [f1, e1], by rw [f2, e2], fun h => f3 (e3 h)⟩

/-- A change of the state that leaves the banners alone extends it. -/
theorem extends_of_banners_eq (world next : World) (h : next.banners = world.banners) :
    Extends world next := by
  intro b priv hp
  exact ⟨priv, by rw [h]; exact hp, rfl, rfl, fun h => h⟩

/-! ## The timeout functions keep the invariants -/

/-- The state hildon_banner_clear_timeout leaves when a timeout is pending. -/
theorem clear_timeout_eq (world : World) (b : Nat) (priv : HildonBanner)
    (hp : world.banners b = some priv) :
    hildon_banner_clear_timeout world b
      = if priv.timeout_id ≠ 0 then
          (update_banner (g_source_remove world priv.timeout_id) b
            (fun priv => { priv with timeout_id := 0 }), true)
        else (world, false) := by
  unfold hildon_banner_clear_timeout
  rw [hp]

theorem clear_timeout_banners (world : World) (b b2 : Nat) :
    (hildon_banner_clear_timeout world b).1.banners b2
      = if b2 = b then (world.banners b).map (fun priv => { priv with timeout_id := 0 })
        else world.banners b2 := by
  cases hp : world.banners b with
  | none =>
    simp only [hildon_banner_clear_timeout, hp, Option.map_none']
    by_cases hb : b2 = b
    · rw [if_pos hb, hb, hp]
    · rw [if_neg hb]
  | some priv =>
    rw [clear_timeout_eq world b priv hp]
    by_cases hid : priv.timeout_id = 0
    · simp only [hid, ne_eq, not_true_eq_false, if_false, Option.map_some']
      by_cases hb : b2 = b
      · rw [if_pos hb, hb, hp]
        have : ({ priv with timeout_id := 0 } : HildonBanner) = priv := by
          cases priv; simp only [HildonBanner.mk.injEq, true_and, and_true] at hid ⊢
          simpa using hid.symm
        rw [this]
      · rw [if_neg hb]
    · simp only [ne_eq, hid, not_false_eq_true, if_true, update_banner_banners,
        g_source_remove, hp]

theorem clear_timeout_fields (world : World) (b : Nat) :
    (hildon_banner_clear_timeout world b).1.n_banners = world.n_banners ∧
    (hildon_banner_clear_timeout world b).1.window_qdata = world.window_qdata ∧
    (hildon_banner_clear_timeout world b).1.global_timed_banner = world.global_timed_banner ∧
    (hildon_banner_clear_timeout world b).1.last_source_id = world.last_source_id ∧
    (hildon_banner_clear_timeout world b).1.widget_parent = world.widget_parent := by
  unfold hildon_banner_clear_timeout
  cases world.banners b with
  | none => simp
  | some priv =>
    simp only
    split <;> simp [g_source_remove]

theorem clear_timeout_inst (world : World) (b : Nat) (h : InstInv world) :
    InstInv (hildon_banner_clear_timeout world b).1 := by
  obtain ⟨hn, hq, hg, _, _⟩ := clear_timeout_fields world b
  refine inst_transfer world _ hn hq hg ?_ h
  intro b2
  rw [clear_timeout_banners]
  by_cases hb : b2 = b
  · subst hb
    rw [if_pos rfl]
    cases world.banners b2 <;> rfl
  · rw [if_neg hb]

/-- The sources hildon_banner_clear_timeout leaves: the one of the banner is
gone. -/
theorem clear_timeout_sources (world : World) (b : Nat) (priv : HildonBanner)
    (hp : world.banners b = some priv) (id : Nat) :
    (hildon_banner_clear_timeout world b).1.sources id
      = if priv.timeout_id ≠ 0 ∧ id = priv.timeout_id then none else world.sources id := by
  rw [clear_timeout_eq world b priv hp]
  by_cases hid : priv.timeout_id = 0
  · simp [hid]
  · simp only [ne_eq, hid, not_false_eq_true, if_true, true_and]
    have hsrc := (update_banner_fields (g_source_remove world priv.timeout_id) b
      (fun priv => { priv with timeout_id := 0 })).2.2.2.1
    rw [hsrc]
    simp only [g_source_remove, Function.update_apply]

theorem clear_timeout_time (world : World) (b : Nat) (h : TimeInv world) :
    TimeInv (hildon_banner_clear_timeout world b).1 := by
  cases hp : world.banners b with
  | none =>
    simp only [hildon_banner_clear_timeout, hp]
    exact h
  | some priv =>
    have hl := (clear_timeout_fields world b).2.2.2.1
    constructor
    · intro id b2 hsrc
      rw [clear_timeout_sources world b priv hp] at hsrc
      split at hsrc
      · exact absurd hsrc (by simp)
      · rename_i hcond
        obtain ⟨h1, h2, priv2, hp2, h3⟩ := h.source_sound id b2 hsrc
        rw [hl]
        refine ⟨h1, h2, ?_⟩
        rw [clear_timeout_banners]
        by_cases hb : b2 = b
        · subst hb
          rw [hp] at hp2
          simp only [Option.some.injEq] at hp2
          subst hp2
          exfalso
          apply hcond
          exact ⟨by rw [h3]; exact h1, h3.symm⟩
        · rw [if_neg hb]
          exact ⟨priv2, hp2, h3⟩
    · intro b2 priv2 hp2 hne
      rw [clear_timeout_banners] at hp2
      by_cases hb : b2 = b
      · rw [if_pos hb, hp] at hp2
        simp only [Option.map_some', Option.some.injEq] at hp2
        subst hp2
        exact absurd rfl hne
      · rw [if_neg hb] at hp2
        have hsrc := h.source_complete b2 priv2 hp2 hne
        rw [clear_timeout_sources world b priv hp, if_neg]
        · exact hsrc
        · rintro ⟨hid, heq⟩
          rw [heq, h.source_complete b priv hp hid] at hsrc
          simp only [Option.some.injEq] at hsrc
          exact hb hsrc.symm
    · intro b2 priv2 hp2 h1
      rw [clear_timeout_banners] at hp2
      by_cases hb : b2 = b
      · rw [if_pos hb, hp] at hp2
        simp only [Option.map_some', Option.some.injEq] at hp2
        subst hp2
        rfl
      · rw [if_neg hb] at hp2
        exact h.not_timed b2 priv2 hp2 h1

theorem clear_timeout_inv (world : World) (b : Nat) (h : Inv world) :
    Inv (hildon_banner_clear_timeout world b).1 :=
  ⟨clear_timeout_inst world b h.inst, clear_timeout_time world b h.time⟩

/-- What hildon_banner_ensure_timeout does. -/
theorem ensure_timeout_eq (world : World) (b : Nat) (priv : HildonBanner)
    (hp : world.banners b = some priv) :
    hildon_banner_ensure_timeout world b
      = if priv.timeout_id = 0 ∧ priv.is_timed = true ∧ priv.timeout > 0 then
          { world with
            banners := Function.update world.banners b
              (some { priv with timeout_id := world.last_source_id + 1 })
            sources := Function.update world.sources (world.last_source_id + 1) (some b)
            last_source_id := world.last_source_id + 1 }
        else world := by
  unfold hildon_banner_ensure_timeout
  rw [hp]
  simp only
  split
  · simp only [update_banner, gdk_threads_add_timeout, hp]
  · rfl

theorem ensure_timeout_fields (world : World) (b : Nat) :
    (hildon_banner_ensure_timeout world b).n_banners = world.n_banners ∧
    (hildon_banner_ensure_timeout world b).window_qdata = world.window_qdata ∧
    (hildon_banner_ensure_timeout world b).global_timed_banner = world.global_timed_banner ∧
    (hildon_banner_ensure_timeout world b).widget_parent = world.widget_parent := by
  cases hp : world.banners b with
  | none => simp [hildon_banner_ensure_timeout, hp]
  | some priv =>
    rw [ensure_timeout_eq world b priv hp]
    split <;> simp

theorem ensure_timeout_key {α : Type} (world : World) (b : Nat) (key : HildonBanner → α)
    (hkey : ∀ (priv : HildonBanner) (id : Nat), key { priv with timeout_id := id } = key priv)
    (b2 : Nat) :
    ((hildon_banner_ensure_timeout world b).banners b2).map key
      = (world.banners b2).map key := by
  cases hp : world.banners b with
  | none => simp [hildon_banner_ensure_timeout, hp]
  | some priv =>
    rw [ensure_timeout_eq world b priv hp]
    split
    · simp only [Function.update_apply]
      by_cases hb : b2 = b
      · rw [if_pos hb, hb, hp]
        simp [hkey]
      · rw [if_neg hb]
    · rfl

theorem ensure_timeout_inst (world : World) (b : Nat) (h : InstInv world) :
    InstInv (hildon_banner_ensure_timeout world b) := by
  obtain ⟨hn, hq, hg, _⟩ := ensure_timeout_fields world b
  exact inst_transfer world _ hn hq hg
    (ensure_timeout_key world b instKey (fun _ _ => rfl)) h

theorem ensure_timeout_time (world : World) (b : Nat) (h : TimeInv world) :
    TimeInv (hildon_banner_ensure_timeout world b) := by
  cases hp : world.banners b with
  | none =>
    simp only [hildon_banner_ensure_timeout, hp]
    exact h
  | some priv =>
    rw [ensure_timeout_eq world b priv hp]
    split
    · rename_i hcond
      obtain ⟨hid, htimed, _⟩ := hcond
      constructor
      · intro id b2 hsrc
        simp only [Function.update_apply] at hsrc ⊢
        by_cases hnew : id = world.last_source_id + 1
        · rw [if_pos hnew] at hsrc
          simp only [Option.some.injEq] at hsrc
          subst hsrc
          refine ⟨by omega, by omega, ?_⟩
          rw [if_pos rfl]
          exact ⟨_, rfl, hnew.symm⟩
        · rw [if_neg hnew] at hsrc
          obtain ⟨h1, h2, priv2, hp2, h3⟩ := h.source_sound id b2 hsrc
          refine ⟨h1, by omega, ?_⟩
          by_cases hb : b2 = b
          · subst hb
            rw [hp] at hp2
            simp only [Option.some.injEq] at hp2
            subst hp2
            exact absurd (h3.symm.trans hid) h1
          · rw [if_neg hb]
            exact ⟨priv2, hp2, h3⟩
      · intro b2 priv2 hp2 hne
        simp only [Function.update_apply] at hp2 ⊢
        by_cases hb : b2 = b
        · rw [if_pos hb] at hp2
          simp only [Option.some.injEq] at hp2
          subst hp2
          simp only [if_true, hb]
        · rw [if_neg hb] at hp2
          have hsrc := h.source_complete b2 priv2 hp2 hne
          have hle := (h.source_sound _ _ hsrc).2.1
          rw [if_neg (by omega)]
          exact hsrc
      · intro b2 priv2 hp2 h1
        simp only [Function.update_apply] at hp2
        by_cases hb : b2 = b
        · rw [if_pos hb] at hp2
          simp only [Option.some.injEq] at hp2
          subst hp2
          simp only at h1
          rw [htimed] at h1
          exact absurd h1 (by simp)
        · rw [if_neg hb] at hp2
          exact h.not_timed b2 priv2 hp2 h1
    · exact h

theorem extends_of_key (world next : World)
    (hb : ∀ b, (next.banners b).map instKey = (world.banners b).map instKey) :
    Extends world next := by
  intro b priv hp
  obtain ⟨priv2, hp2, hkey⟩ := key_some instKey _ _ (hb b) priv hp
  simp only [instKey, Prod.mk.injEq] at hkey
  exact ⟨priv2, hp2, hkey.1, hkey.2.1, fun h => by rw [hkey.2.2, h]⟩

theorem clear_timeout_key (world : World) (b b2 : Nat) :
    ((hildon_banner_clear_timeout world b).1.banners b2).map instKey
      = (world.banners b2).map instKey := by
  rw [clear_timeout_banners]
  by_cases hb : b2 = b
  · subst hb
    rw [if_pos rfl]
    cases world.banners b2 <;> rfl
  · rw [if_neg hb]

/-! ## Instances -/

theorem new_instance_banners (world : World) (window : Option Nat) (timed : Bool) (b : Nat) :
    (new_instance world window timed).1.banners b
      = if b = world.n_banners then
          some { hildon_banner_init with
            parent := window, is_timed := timed, timeout := HILDON_BANNER_DEFAULT_TIMEOUT }
        else world.banners b := by
  unfold new_instance
  cases timed <;> cases window <;> simp [Function.update_apply]

theorem new_instance_fields (world : World) (window : Option Nat) (timed : Bool) :
    (new_instance world window timed).2 = world.n_banners ∧
    (new_instance world window timed).1.n_banners = world.n_banners + 1 ∧
    (new_instance world window timed).1.sources = world.sources ∧
    (new_instance world window timed).1.last_source_id = world.last_source_id ∧
    (new_instance world window timed).1.widget_parent = world.widget_parent ∧
    (new_instance world window timed).1.window_qdata
      = (match timed, window with
        | true, some w => Function.update world.window_qdata w (some world.n_banners)
        | _, _ => world.window_qdata) ∧
    (new_instance world window timed).1.global_timed_banner
      = (match timed, window with
        | true, none => some world.n_banners
        | _, _ => world.global_timed_banner) := by
  unfold new_instance
  cases timed <;> cases window <;> simp

theorem new_instance_time (world : World) (window : Option Nat) (timed : Bool)
    (hi : InstInv world) (h : TimeInv world) : TimeInv (new_instance world window timed).1 := by
  obtain ⟨_, _, hs, hl, _, _, _⟩ := new_instance_fields world window timed
  have hnone := hi.alloc world.n_banners (le_refl _)
  constructor
  · intro id b hsrc
    rw [hs] at hsrc
    obtain ⟨h1, h2, priv, hp, h3⟩ := h.source_sound id b hsrc
    rw [hl, new_instance_banners]
    refine ⟨h1, h2, priv, ?_, h3⟩
    rw [if_neg]
    · exact hp
    · rintro rfl
      rw [hnone] at hp
      exact absurd hp (by simp)
  · intro b priv hp hne
    rw [new_instance_banners] at hp
    rw [hs]
    by_cases hb : b = world.n_banners
    · rw [if_pos hb] at hp
      simp only [Option.some.injEq] at hp
      subst hp
      exact absurd rfl hne
    · rw [if_neg hb] at hp
      exact h.source_complete b priv hp hne
  · intro b priv hp h1
    rw [new_instance_banners] at hp
    by_cases hb : b = world.n_banners
    · rw [if_pos hb] at hp
      simp only [Option.some.injEq] at hp
      subst hp
      rfl
    · rw [if_neg hb] at hp
      exact h.not_timed b priv hp h1

theorem new_instance_extends (world : World) (window : Option Nat) (timed : Bool)
    (hi : InstInv world) : Extends world (new_instance world window timed).1 := by
  intro b priv hp
  refine ⟨priv, ?_, rfl, rfl, fun h => h⟩
  rw [new_instance_banners, if_neg]
  · exact hp
  · rintro rfl
    rw [hi.alloc _ (le_refl _)] at hp
    exact absurd hp (by simp)

theorem new_instance_inst (world : World) (window : Option Nat) (timed : Bool)
    (hnew : hildon_banner_real_get_instance world window timed = none)
    (h : InstInv world) : InstInv (new_instance world window timed).1 := by
  obtain ⟨_, hn, _, _, _, hq, hg⟩ := new_instance_fields world window timed
  have hnone := h.alloc world.n_banners (le_refl _)
  have hold : ∀ b priv, world.banners b = some priv →
      (new_instance world window timed).1.banners b = some priv := by
    intro b priv hp
    rw [new_instance_banners, if_neg]
    · exact hp
    · rintro rfl
      rw [hnone] at hp
      exact absurd hp (by simp)
  have hcases : ∀ b priv, (new_instance world window timed).1.banners b = some priv →
      (b = world.n_banners ∧ priv.is_timed = timed ∧ priv.parent = window ∧
        priv.destroyed = false) ∨ (b ≠ world.n_banners ∧ world.banners b = some priv) := by
    intro b priv hp
    rw [new_instance_banners] at hp
    by_cases hb : b = world.n_banners
    · rw [if_pos hb] at hp
      simp only [Option.some.injEq] at hp
      subst hp
      exact Or.inl ⟨hb, rfl, rfl, rfl⟩
    · rw [if_neg hb] at hp
      exact Or.inr ⟨hb, hp⟩
  have hfresh : (new_instance world window timed).1.banners world.n_banners
      = some { hildon_banner_init with
          parent := window, is_timed := timed, timeout := HILDON_BANNER_DEFAULT_TIMEOUT } := by
    rw [new_instance_banners, if_pos rfl]
  constructor
  · intro b hb
    rw [hn] at hb
    rw [new_instance_banners, if_neg (by omega)]
    exact h.alloc b (by omega)
  · intro w b hw
    rw [hq] at hw
    cases timed with
    | false =>
      obtain ⟨priv, hp, h1, h2, h3⟩ := h.qdata_sound w b hw
      exact ⟨priv, hold b priv hp, h1, h2, h3⟩
    | true =>
      cases window with
      | none =>
        obtain ⟨priv, hp, h1, h2, h3⟩ := h.qdata_sound w b hw
        exact ⟨priv, hold b priv hp, h1, h2, h3⟩
      | some w0 =>
        simp only [Function.update_apply] at hw
        by_cases hww : w = w0
        · rw [if_pos hww] at hw
          simp only [Option.some.injEq] at hw
          subst hw
          subst hww
          exact ⟨_, hfresh, rfl, rfl, rfl⟩
        · rw [if_neg hww] at hw
          obtain ⟨priv, hp, h1, h2, h3⟩ := h.qdata_sound w b hw
          exact ⟨priv, hold b priv hp, h1, h2, h3⟩
  · intro b hw
    rw [hg] at hw
    cases timed with
    | false =>
      obtain ⟨priv, hp, h1, h2, h3⟩ := h.global_sound b hw
      exact ⟨priv, hold b priv hp, h1, h2, h3⟩
    | true =>
      cases window with
      | some w0 =>
        obtain ⟨priv, hp, h1, h2, h3⟩ := h.global_sound b hw
        exact ⟨priv, hold b priv hp, h1, h2, h3⟩
      | none =>
        simp only [Option.some.injEq] at hw
        subst hw
        exact ⟨_, hfresh, rfl, rfl, rfl⟩
  · intro b priv hp h1 h2 h3
    rw [hg]
    rcases hcases b priv hp with ⟨hb, e1, e2, _⟩ | ⟨_, hp0⟩
    · rw [h1] at e1
      subst e1
      rw [h3] at e2
      subst e2
      simp only [hb]
    · have hw := h.global_complete b priv hp0 h1 h2 h3
      cases timed with
      | false => exact hw
      | true =>
        cases window with
        | some w0 => exact hw
        | none =>
          simp only [hildon_banner_real_get_instance, if_true] at hnew
          rw [hnew] at hw
          exact absurd hw (by simp)

theorem clear_timeout_snd (world : World) (b : Nat) :
    (hildon_banner_clear_timeout world b).2 = true ↔
      ∃ priv, world.banners b = some priv ∧ priv.timeout_id ≠ 0 := by
  cases hp : world.banners b with
  | none => simp [hildon_banner_clear_timeout, hp]
  | some priv =>
    rw [clear_timeout_eq world b priv hp]
    by_cases hid : priv.timeout_id = 0 <;> simp [hid]

/-- The restart of the timeout at the end of hildon_banner_constructor. -/
theorem restart_inv (world : World) (b : Nat) (h : Inv world) :
    Inv (if (hildon_banner_clear_timeout world b).2 = true then
        hildon_banner_ensure_timeout (hildon_banner_clear_timeout world b).1 b
      else (hildon_banner_clear_timeout world b).1) := by
  have hclear := clear_timeout_inv world b h
  split
  · exact ⟨ensure_timeout_inst _ b hclear.inst, ensure_timeout_time _ b hclear.time⟩
  · exact hclear

theorem restart_key (world : World) (b b2 : Nat) :
    ((if (hildon_banner_clear_timeout world b).2 = true then
        hildon_banner_ensure_timeout (hildon_banner_clear_timeout world b).1 b
      else (hildon_banner_clear_timeout world b).1).banners b2).map instKey
      = (world.banners b2).map instKey := by
  split
  · rw [ensure_timeout_key _ b instKey (fun _ _ => rfl), clear_timeout_key]
  · rw [clear_timeout_key]

/-- The world and the banner hildon_banner_constructor returns, in one
expression for each. -/
theorem constructor_eq (world : World) (window : Option Nat) (timed : Bool) :
    (hildon_banner_constructor world window timed).2
      = (match hildon_banner_real_get_instance world window timed with
        | none => world.n_banners
        | some banner => banner) ∧
    (hildon_banner_constructor world window timed).1
      = (if timed = true then
          (if (hildon_banner_clear_timeout
                (match hildon_banner_real_get_instance world window timed with
                  | none => (new_instance world window timed).1
                  | some _ => world)
                (hildon_banner_constructor world window timed).2).2 = true then
            hildon_banner_ensure_timeout
              (hildon_banner_clear_timeout
                (match hildon_banner_real_get_instance world window timed with
                  | none => (new_instance world window timed).1
                  | some _ => world)
                (hildon_banner_constructor world window timed).2).1
              (hildon_banner_constructor world window timed).2
          else
            (hildon_banner_clear_timeout
              (match hildon_banner_real_get_instance world window timed with
                | none => (new_instance world window timed).1
                | some _ => world)
              (hildon_banner_constructor world window timed).2).1)
        else
          (match hildon_banner_real_get_instance world window timed with
            | none => (new_instance world window timed).1
            | some _ => world)) := by
  have hnew := (new_instance_fields world window timed).1
  unfold hildon_banner_constructor
  cases hinst : hildon_banner_real_get_instance world window timed with
  | none =>
    simp only
    cases timed with
    | false => simp [hnew]
    | true =>
      simp only [if_true]
      split <;> simp [hnew]
  | some banner =>
    simp only
    cases timed with
    | false => simp
    | true =>
      simp only [if_true]
      split <;> simp

/-- The state the lookup or the creation of the instance leaves, before the
restart of the timeout. -/
theorem instance_inv (world : World) (window : Option Nat) (timed : Bool) (h : Inv world) :
    Inv (match hildon_banner_real_get_instance world window timed with
      | none => (new_instance world window timed).1
      | some _ => world) := by
  cases hinst : hildon_banner_real_get_instance world window timed with
  | none =>
    exact ⟨new_instance_inst world window timed hinst h.inst,
      new_instance_time world window timed h.inst h.time⟩
  | some banner => exact h

theorem instance_extends (world : World) (window : Option Nat) (timed : Bool)
    (h : InstInv world) :
    Extends world (match hildon_banner_real_get_instance world window timed with
      | none => (new_instance world window timed).1
      | some _ => world) := by
  cases hinst : hildon_banner_real_get_instance world window timed with
  | none => exact new_instance_extends world window timed h
  | some banner => exact extends_refl world

theorem constructor_inv (world : World) (window : Option Nat) (timed : Bool) (h : Inv world) :
    Inv (hildon_banner_constructor world window timed).1 := by
  rw [(constructor_eq world window timed).2]
  have hinst := instance_inv world window timed h
  cases timed with
  | false => simpa using hinst
  | true =>
    simp only [if_true]
    exact restart_inv _ _ hinst

theorem constructor_extends (world : World) (window : Option Nat) (timed : Bool)
    (h : InstInv world) : Extends world (hildon_banner_constructor world window timed).1 := by
  rw [(constructor_eq world window timed).2]
  have hinst := instance_extends world window timed h
  cases timed with
  | false => simpa using hinst
  | true =>
    simp only [if_true]
    exact extends_trans _ _ _ hinst (extends_of_key _ _ (restart_key _ _))

/-- Whatever the request, hildon_banner_constructor returns a live banner of
the requested kind for the requested window. -/
theorem constructor_live (world : World) (window : Option Nat) (timed : Bool) (h : Inv world) :
    ∃ priv, (hildon_banner_constructor world window timed).1.banners
        (hildon_banner_constructor world window timed).2 = some priv ∧
      priv.is_timed = timed ∧ priv.parent = window ∧ priv.destroyed = false := by
  have hinst : ∃ priv,
      (match hildon_banner_real_get_instance world window timed with
        | none => (new_instance world window timed).1
        | some _ => world).banners (hildon_banner_constructor world window timed).2
        = some priv ∧ instKey priv = (timed, window, false) := by
    rw [(constructor_eq world window timed).1]
    cases hget : hildon_banner_real_get_instance world window timed with
    | none =>
      simp only
      rw [new_instance_banners, if_pos rfl]
      exact ⟨_, rfl, rfl⟩
    | some banner =>
      simp only
      unfold hildon_banner_real_get_instance at hget
      cases timed with
      | false => simp at hget
      | true =>
        simp only [if_true] at hget
        cases window with
        | none =>
          obtain ⟨priv, hp, h1, h2, h3⟩ := h.inst.global_sound banner hget
          exact ⟨priv, hp, by simp [instKey, h1, h2, h3]⟩
        | some w =>
          obtain ⟨priv, hp, h1, h2, h3⟩ := h.inst.qdata_sound w banner hget
          exact ⟨priv, hp, by simp [instKey, h1, h2, h3]⟩
  obtain ⟨priv, hp, hkey⟩ := hinst
  have hfinal : ((hildon_banner_constructor world window timed).1.banners
      (hildon_banner_constructor world window timed).2).map instKey
        = some (timed, window, false) := by
    rw [(constructor_eq world window timed).2]
    cases timed with
    | false =>
      simp only [Bool.false_eq_true, if_false]
      rw [hp]
      simp [hkey]
    | true =>
      simp only [if_true]
      rw [restart_key, hp]
      simp [hkey]
  cases hq : (hildon_banner_constructor world window timed).1.banners
      (hildon_banner_constructor world window timed).2 with
  | none => rw [hq] at hfinal; exact absurd hfinal (by simp)
  | some priv2 =>
    rw [hq] at hfinal
    simp only [Option.map_some', Option.some.injEq, instKey, Prod.mk.injEq] at hfinal
    exact ⟨priv2, rfl, hfinal.1, hfinal.2.1, hfinal.2.2⟩

/-! ## Destruction -/

theorem destroy_eq (world : World) (b : Nat) (priv : HildonBanner)
    (hp : world.banners b = some priv) :
    hildon_banner_destroy world b
      = (hildon_banner_clear_timeout
          { world with
            global_timed_banner :=
              if world.global_timed_banner = some b then none else world.global_timed_banner
            window_qdata :=
              match priv.parent with
              | some w =>
                if priv.is_timed = true then Function.update world.window_qdata w none
                else world.window_qdata
              | none => world.window_qdata } b).1 := by
  unfold hildon_banner_destroy
  rw [hp]
  by_cases hg : world.global_timed_banner = some b <;> cases hpar : priv.parent <;>
    cases htim : priv.is_timed <;> simp [hg, hpar, htim]

theorem widget_destroy_banners (world : World) (b b2 : Nat) :
    (gtk_widget_destroy world b).banners b2
      = if b2 = b then
          (world.banners b).map (fun priv =>
            { priv with timeout_id := 0, destroyed := true, visible := false, mapped := false })
        else world.banners b2 := by
  unfold gtk_widget_destroy
  rw [update_banner_banners]
  cases hp : world.banners b with
  | none =>
    simp only [hildon_banner_destroy, hp, Option.map_none']
  | some priv =>
    rw [destroy_eq world b priv hp]
    by_cases hb : b2 = b
    · rw [if_pos hb, if_pos hb, clear_timeout_banners, if_pos rfl]
      simp only [hp, Option.map_some']
    · rw [if_neg hb, if_neg hb, clear_timeout_banners, if_neg hb]

theorem widget_destroy_fields (world : World) (b : Nat) (priv : HildonBanner)
    (hp : world.banners b = some priv) :
    (gtk_widget_destroy world b).n_banners = world.n_banners ∧
    (gtk_widget_destroy world b).last_source_id = world.last_source_id ∧
    (gtk_widget_destroy world b).global_timed_banner
      = (if world.global_timed_banner = some b then none else world.global_timed_banner) ∧
    (gtk_widget_destroy world b).window_qdata
      = (match priv.parent with
        | some w =>
          if priv.is_timed = true then Function.update world.window_qdata w none
          else world.window_qdata
        | none => world.window_qdata) ∧
    (∀ id, (gtk_widget_destroy world b).sources id
      = if priv.timeout_id ≠ 0 ∧ id = priv.timeout_id then none else world.sources id) := by
  unfold gtk_widget_destroy
  obtain ⟨hn, hq, hg, hs, hl, _⟩ := update_banner_fields (hildon_banner_destroy world b) b
    (fun priv => { priv with destroyed := true, visible := false, mapped := false })
  rw [hn, hq, hg, hs, hl, destroy_eq world b priv hp]
  obtain ⟨cn, cq, cg, cl, _⟩ := clear_timeout_fields
    { world with
      global_timed_banner :=
        if world.global_timed_banner = some b then none else world.global_timed_banner
      window_qdata :=
        match priv.parent with
        | some w =>
          if priv.is_timed = true then Function.update world.window_qdata w none
          else world.window_qdata
        | none => world.window_qdata } b
  refine ⟨cn, cl, cg, cq, ?_⟩
  have key : ∀ w2 : World, w2.banners = world.banners → w2.sources = world.sources →
      ∀ id, (hildon_banner_clear_timeout w2 b).1.sources id
        = if priv.timeout_id ≠ 0 ∧ id = priv.timeout_id then none else world.sources id := by
    intro w2 hb2 hs2 id
    rw [clear_timeout_sources w2 b priv (by rw [hb2]; exact hp), hs2]
  intro id
  exact key
    { world with
      global_timed_banner :=
        if world.global_timed_banner = some b then none else world.global_timed_banner
      window_qdata :=
        match priv.parent with
        | some w =>
          if priv.is_timed = true then Function.update world.window_qdata w none
          else world.window_qdata
        | none => world.window_qdata } rfl rfl id

theorem alive_iff (world : World) (b : Nat) :
    alive world b = true ↔ ∃ priv, world.banners b = some priv ∧ priv.destroyed = false := by
  unfold alive
  cases world.banners b with
  | none => simp
  | some priv => cases hd : priv.destroyed <;> simp [hd]

theorem widget_destroy_time (world : World) (b : Nat) (h : TimeInv world) :
    TimeInv (gtk_widget_destroy world b) := by
  cases hp : world.banners b with
  | none =>
    have hsame : gtk_widget_destroy world b = world := by
      simp [gtk_widget_destroy, hildon_banner_destroy, update_banner, hp]
    rw [hsame]
    exact h
  | some priv =>
    obtain ⟨_, hl, _, _, hs⟩ := widget_destroy_fields world b priv hp
    have hold : ∀ b2 priv2, (gtk_widget_destroy world b).banners b2 = some priv2 →
        (b2 = b ∧ priv2.timeout_id = 0) ∨ (b2 ≠ b ∧ world.banners b2 = some priv2) := by
      intro b2 priv2 hp2
      rw [widget_destroy_banners] at hp2
      by_cases hb : b2 = b
      · rw [if_pos hb, hp] at hp2
        simp only [Option.map_some', Option.some.injEq] at hp2
        subst hp2
        exact Or.inl ⟨hb, rfl⟩
      · rw [if_neg hb] at hp2
        exact Or.inr ⟨hb, hp2⟩
    constructor
    · intro id b2 hsrc
      rw [hs] at hsrc
      split at hsrc
      · exact absurd hsrc (by simp)
      · rename_i hcond
        obtain ⟨h1, h2, priv2, hp2, h3⟩ := h.source_sound id b2 hsrc
        rw [hl, widget_destroy_banners]
        refine ⟨h1, h2, ?_⟩
        by_cases hb : b2 = b
        · subst hb
          rw [hp] at hp2
          simp only [Option.some.injEq] at hp2
          subst hp2
          exact absurd ⟨by rw [h3]; exact h1, h3.symm⟩ hcond
        · rw [if_neg hb]
          exact ⟨priv2, hp2, h3⟩
    · intro b2 priv2 hp2 hne
      rcases hold b2 priv2 hp2 with ⟨_, h0⟩ | ⟨hb, hp0⟩
      · exact absurd h0 hne
      · have hsrc := h.source_complete b2 priv2 hp0 hne
        rw [hs, if_neg]
        · exact hsrc
        · rintro ⟨hid, heq⟩
          rw [heq, h.source_complete b priv hp hid] at hsrc
          simp only [Option.some.injEq] at hsrc
          exact hb hsrc.symm
    · intro b2 priv2 hp2 h1
      rcases hold b2 priv2 hp2 with ⟨_, h0⟩ | ⟨_, hp0⟩
      · exact h0
      · exact h.not_timed b2 priv2 hp0 h1

theorem widget_destroy_inst (world : World) (b : Nat) (h : InstInv world) :
    InstInv (gtk_widget_destroy world b) := by
  cases hp : world.banners b with
  | none =>
    have hsame : gtk_widget_destroy world b = world := by
      simp [gtk_widget_destroy, hildon_banner_destroy, update_banner, hp]
    rw [hsame]
    exact h
  | some priv =>
    obtain ⟨hn, _, hg, hq, _⟩ := widget_destroy_fields world b priv hp
    have hold : ∀ b2 priv2, (gtk_widget_destroy world b).banners b2 = some priv2 →
        (b2 = b ∧ priv2.destroyed = true) ∨ (b2 ≠ b ∧ world.banners b2 = some priv2) := by
      intro b2 priv2 hp2
      rw [widget_destroy_banners] at hp2
      by_cases hb : b2 = b
      · rw [if_pos hb, hp] at hp2
        simp only [Option.map_some', Option.some.injEq] at hp2
        subst hp2
        exact Or.inl ⟨hb, rfl⟩
      · rw [if_neg hb] at hp2
        exact Or.inr ⟨hb, hp2⟩
    have hkeep : ∀ b2 priv2, b2 ≠ b → world.banners b2 = some priv2 →
        (gtk_widget_destroy world b).banners b2 = some priv2 := by
      intro b2 priv2 hb hp2
      rw [widget_destroy_banners, if_neg hb]
      exact hp2
    have hqdata : ∀ w b2, (gtk_widget_destroy world b).window_qdata w = some b2 →
        world.window_qdata w = some b2 ∧ b2 ≠ b := by
      intro w b2 hw
      rw [hq] at hw
      cases hpar : priv.parent with
      | none =>
        rw [hpar] at hw
        refine ⟨hw, ?_⟩
        rintro rfl
        obtain ⟨priv2, hp2, _, h2, _⟩ := h.qdata_sound w b2 hw
        rw [hp] at hp2
        simp only [Option.some.injEq] at hp2
        subst hp2
        rw [hpar] at h2
        exact absurd h2 (by simp)
      | some w0 =>
        rw [hpar] at hw
        cases htim : priv.is_timed with
        | false =>
          simp only [htim, Bool.false_eq_true, if_false] at hw
          refine ⟨hw, ?_⟩
          rintro rfl
          obtain ⟨priv2, hp2, h1, _, _⟩ := h.qdata_sound w b2 hw
          rw [hp] at hp2
          simp only [Option.some.injEq] at hp2
          subst hp2
          rw [htim] at h1
          exact absurd h1 (by simp)
        | true =>
          simp only [htim, if_true, Function.update_apply] at hw
          by_cases hww : w = w0
          · rw [if_pos hww] at hw
            exact absurd hw (by simp)
          · rw [if_neg hww] at hw
            refine ⟨hw, ?_⟩
            rintro rfl
            obtain ⟨priv2, hp2, _, h2, _⟩ := h.qdata_sound w b2 hw
            rw [hp] at hp2
            simp only [Option.some.injEq] at hp2
            subst hp2
            rw [hpar] at h2
            simp only [Option.some.injEq] at h2
            exact hww h2.symm
    constructor
    · intro b2 hb2
      rw [hn] at hb2
      have hnone := h.alloc b2 hb2
      rw [widget_destroy_banners]
      by_cases hb : b2 = b
      · rw [hb, hp] at hnone
        exact absurd hnone (by simp)
      · rw [if_neg hb]
        exact hnone
    · intro w b2 hw
      obtain ⟨hw0, hb⟩ := hqdata w b2 hw
      obtain ⟨priv2, hp2, h1, h2, h3⟩ := h.qdata_sound w b2 hw0
      exact ⟨priv2, hkeep b2 priv2 hb hp2, h1, h2, h3⟩
    · intro b2 hw
      rw [hg] at hw
      by_cases hgb : world.global_timed_banner = some b
      · rw [if_pos hgb] at hw
        exact absurd hw (by simp)
      · rw [if_neg hgb] at hw
        obtain ⟨priv2, hp2, h1, h2, h3⟩ := h.global_sound b2 hw
        refine ⟨priv2, hkeep b2 priv2 ?_ hp2, h1, h2, h3⟩
        rintro rfl
        exact hgb hw
    · intro b2 priv2 hp2 h1 h2 h3
      rcases hold b2 priv2 hp2 with ⟨_, hd⟩ | ⟨hb, hp0⟩
      · rw [hd] at h2
        exact absurd h2 (by simp)
      · have hw := h.global_complete b2 priv2 hp0 h1 h2 h3
        rw [hg, if_neg]
        · exact hw
        · intro hgb
          rw [hw] at hgb
          simp only [Option.some.injEq] at hgb
          exact hb hgb

theorem widget_destroy_extends (world : World) (b : Nat) :
    Extends world (gtk_widget_destroy world b) := by
  intro b2 priv hp
  rw [widget_destroy_banners]
  by_cases hb : b2 = b
  · subst hb
    rw [if_pos rfl, hp]
    exact ⟨_, rfl, rfl, rfl, fun _ => rfl⟩
  · rw [if_neg hb]
    exact ⟨priv, hp, rfl, rfl, fun h => h⟩

/-! ## The timeout callback -/

theorem timeout_eq (world : World) (b : Nat) (handled : Bool) (priv : HildonBanner)
    (hp : world.banners b = some priv) :
    hildon_banner_timeout world b handled
      = if simulate_close priv handled = true then (world, true)
        else (gtk_widget_destroy (hildon_banner_clear_timeout world b).1 b, false) := by
  unfold hildon_banner_timeout
  rw [hp, clear_timeout_eq world b priv hp]
  simp only
  split
  · rfl
  · split <;> rfl

theorem source_remove_absent (world : World) (id : Nat) (h : world.sources id = none) :
    g_source_remove world id = world := by
  unfold g_source_remove
  rw [← h, Function.update_eq_self]

theorem clear_alive (world : World) (b b2 : Nat) :
    alive (hildon_banner_clear_timeout world b).1 b2 = alive world b2 := by
  unfold alive
  rw [clear_timeout_banners]
  by_cases hb : b2 = b
  · subst hb
    rw [if_pos rfl]
    cases world.banners b2 <;> rfl
  · rw [if_neg hb]

/-- What the dispatch of a pending source does: nothing when a handler of
the delete event stops it, otherwise the banner is destroyed. -/
theorem dispatch_eq (world : World) (id b : Nat) (handled : Bool) (priv : HildonBanner)
    (h : Inv world) (hsrc : world.sources id = some b) (hp : world.banners b = some priv) :
    dispatch_timeout world id handled
      = if simulate_close priv handled = true then world
        else gtk_widget_destroy (hildon_banner_clear_timeout world b).1 b := by
  obtain ⟨hne, _, priv2, hp2, hid⟩ := h.time.source_sound id b hsrc
  rw [hp] at hp2
  simp only [Option.some.injEq] at hp2
  subst hp2
  unfold dispatch_timeout
  rw [hsrc]
  simp only
  rw [timeout_eq world b handled priv hp]
  by_cases hclose : simulate_close priv handled = true
  · simp [hclose]
  · simp only [hclose, if_false, Bool.false_eq_true]
    apply source_remove_absent
    have hp1 : (hildon_banner_clear_timeout world b).1.banners b
        = some { priv with timeout_id := 0 } := by
      rw [clear_timeout_banners, if_pos rfl, hp]
      rfl
    rw [(widget_destroy_fields _ b _ hp1).2.2.2.2 id, if_neg (by simp),
      clear_timeout_sources world b priv hp, if_pos ⟨by rw [hid]; exact hne, hid.symm⟩]

theorem dispatch_inv (world : World) (id : Nat) (handled : Bool) (h : Inv world) :
    Inv (dispatch_timeout world id handled) := by
  cases hsrc : world.sources id with
  | none =>
    simp only [dispatch_timeout, hsrc]
    exact h
  | some b =>
    obtain ⟨hne, _, priv, hp, hid⟩ := h.time.source_sound id b hsrc
    rw [dispatch_eq world id b handled priv h hsrc hp]
    split
    · exact h
    · have hclear := clear_timeout_inv world b h
      exact ⟨widget_destroy_inst _ b hclear.inst, widget_destroy_time _ b hclear.time⟩

theorem dispatch_extends (world : World) (id : Nat) (handled : Bool) (h : Inv world) :
    Extends world (dispatch_timeout world id handled) := by
  cases hsrc : world.sources id with
  | none =>
    simp only [dispatch_timeout, hsrc]
    exact extends_refl world
  | some b =>
    obtain ⟨_, _, priv, hp, _⟩ := h.time.source_sound id b hsrc
    rw [dispatch_eq world id b handled priv h hsrc hp]
    split
    · exact extends_refl world
    · exact extends_trans _ _ _ (extends_of_key _ _ (clear_timeout_key world b))
        (widget_destroy_extends _ b)

/-! ## Every operation keeps the invariant -/

theorem step_refl (world : World) : Step world world :=
  fun h => ⟨h, extends_refl world⟩

theorem step_then (w1 w2 w3 : World) (h23 : Step w2 w3) (h12 : Step w1 w2) : Step w1 w3 :=
  fun h => ⟨(h23 (h12 h).1).1, extends_trans _ _ _ (h12 h).2 (h23 (h12 h).1).2⟩

theorem step_update (world : World) (b : Nat) (f : HildonBanner → HildonBanner)
    (hf : Harmless f) : Step world (update_banner world b f) :=
  fun h => ⟨update_banner_inv world b f hf h,
    update_banner_extends world b f
      (fun priv => ⟨(hf priv).1, (hf priv).2.1, fun hd => by rw [(hf priv).2.2.1, hd]⟩)⟩

theorem step_widget_parent (world : World) (widget_parent : Nat → Option Container) :
    Step world { world with widget_parent := widget_parent } :=
  fun h => ⟨⟨inst_transfer world _ rfl rfl rfl (fun _ => rfl) h.inst,
    time_transfer world _ rfl rfl (fun _ => rfl) h.time⟩,
    extends_of_banners_eq world _ rfl⟩

theorem step_constructor (world : World) (window : Option Nat) (timed : Bool) :
    Step world (hildon_banner_constructor world window timed).1 :=
  fun h => ⟨constructor_inv world window timed h, constructor_extends world window timed h.inst⟩

theorem step_container_remove (world : World) (b : Nat) (child : LayoutChild) :
    Step world (gtk_container_remove world b child) := by
  unfold gtk_container_remove
  cases child with
  | label => exact step_update world b _ (fun _ => ⟨rfl, rfl, rfl, rfl⟩)
  | custom widget =>
    exact step_then _ _ _ (step_widget_parent _ _)
      (step_update world b _ (fun _ => ⟨rfl, rfl, rfl, rfl⟩))

theorem step_pack_start (world : World) (b : Nat) (child : LayoutChild) :
    Step world (gtk_box_pack_start world b child) := by
  unfold gtk_box_pack_start
  cases child with
  | label => exact step_update world b _ (fun _ => ⟨rfl, rfl, rfl, rfl⟩)
  | custom widget =>
    exact step_then _ _ _ (step_widget_parent _ _)
      (step_update world b _ (fun _ => ⟨rfl, rfl, rfl, rfl⟩))

theorem step_unpack (world : World) (b : Nat) :
    Step world (unpack_main_widget_pack_label world b) := by
  unfold unpack_main_widget_pack_label
  cases world.banners b with
  | none => exact step_refl world
  | some priv =>
    simp only
    cases hm : priv.main_item with
    | none => exact step_refl world
    | some main_item =>
      simp only
      exact step_then _ _ _ (step_pack_start _ _ _)
        (step_then _ _ _ (step_update _ b _ (fun _ => ⟨rfl, rfl, rfl, rfl⟩))
          (step_container_remove world b _))

theorem step_set_text (world : World) (b : Nat) (text : String) (is_markup : Bool) :
    Step world (banner_do_set_text world b text is_markup) :=
  step_update world b _ (fun _ => ⟨rfl, rfl, rfl, rfl⟩)

theorem step_reshow (world : World) (b : Nat) : Step world (reshow_banner world b) :=
  step_update world b _ (fun _ => ⟨rfl, rfl, rfl, rfl⟩)

theorem step_name_suffix (world : World) (b : Nat) : Step world (set_name_suffix world b) :=
  step_update world b _ (fun _ => ⟨rfl, rfl, rfl, rfl⟩)

theorem step_show_information (world : World) (window : Option Nat) (text : Option String)
    (override_dnd : Bool) :
    Step world (hildon_banner_real_show_information world window text override_dnd).1 := by
  unfold hildon_banner_real_show_information hildon_banner_get_instance_for_widget
  cases text with
  | none => exact step_refl world
  | some text =>
    simp only
    refine step_then _ _ _ (step_reshow _ _) ?_
    have hbase : Step world
        (banner_do_set_text
          (unpack_main_widget_pack_label
            (set_name_suffix (hildon_banner_constructor world window true).1
              (hildon_banner_constructor world window true).2)
            (hildon_banner_constructor world window true).2)
          (hildon_banner_constructor world window true).2 text false) :=
      step_then _ _ _ (step_set_text _ _ _ _)
        (step_then _ _ _ (step_unpack _ _)
          (step_then _ _ _ (step_name_suffix _ _) (step_constructor world window true)))
    cases override_dnd with
    | false => exact hbase
    | true =>
      exact step_then _ _ _ (step_update _ _ _ (fun _ => ⟨rfl, rfl, rfl, rfl⟩)) hbase

theorem step_show_markup (world : World) (window : Option Nat)
    (icon_name markup : Option String) :
    Step world (hildon_banner_show_information_with_markup world window icon_name markup).1 := by
  unfold hildon_banner_show_information_with_markup hildon_banner_get_instance_for_widget
  split
  · exact step_refl world
  · cases markup with
    | none => exact step_refl world
    | some markup =>
      exact step_then _ _ _ (step_reshow _ _)
        (step_then _ _ _ (step_set_text _ _ _ _)
          (step_then _ _ _ (step_name_suffix _ _) (step_constructor world window true)))

theorem step_show_custom_widget (world : World) (window : Option Nat) (custom_widget : Nat) :
    Step world (hildon_banner_show_custom_widget world window custom_widget).1 := by
  unfold hildon_banner_show_custom_widget hildon_banner_get_instance_for_widget
  simp only
  have hctor := step_constructor world window true
  cases hp : (hildon_banner_constructor world window true).1.banners
      (hildon_banner_constructor world window true).2 with
  | none => exact hctor
  | some priv =>
    simp only
    split
    · exact hctor
    · refine step_then _ _ _ (step_reshow _ _) (step_then _ _ _ (step_name_suffix _ _) ?_)
      have hlabel : Step world
          (if priv.main_item = none then
            gtk_container_remove (hildon_banner_constructor world window true).1
              (hildon_banner_constructor world window true).2 LayoutChild.label
          else (hildon_banner_constructor world window true).1) := by
        split
        · exact step_then _ _ _ (step_container_remove _ _ _) hctor
        · exact hctor
      split
      · refine step_then _ _ _ (step_update _ _ _ (fun _ => ⟨rfl, rfl, rfl, rfl⟩))
          (step_then _ _ _ (step_pack_start _ _ _) ?_)
        cases hm : priv.main_item with
        | none =>
          rw [hm] at hlabel
          exact hlabel
        | some old_item =>
          rw [hm] at hlabel
          exact step_then _ _ _ (step_container_remove _ _ _) hlabel
      · exact hlabel

theorem step_map_event (world : World) (b : Nat) :
    Step world (hildon_banner_map_event world b) := by
  unfold hildon_banner_map_event
  intro h
  have hupd := step_update world b (fun priv => { priv with mapped := true })
    (fun _ => ⟨rfl, rfl, rfl, rfl⟩) h
  exact ⟨⟨ensure_timeout_inst _ b hupd.1.inst, ensure_timeout_time _ b hupd.1.time⟩,
    extends_trans _ _ _ hupd.2
      (extends_of_key _ _ (ensure_timeout_key _ b instKey (fun _ _ => rfl)))⟩

theorem step_button_press (world : World) (b : Nat) (handled : Bool) :
    Step world (hildon_banner_button_press_event world b handled) := by
  unfold hildon_banner_button_press_event
  apply step_update
  intro priv
  by_cases hclose : simulate_close priv handled = true
  · simp only [hclose, if_true, and_self]
  · simp only [hclose, if_false, Bool.false_eq_true, and_self]

theorem step_destroy (world : World) (b : Nat) :
    Step world (gtk_widget_destroy world b) :=
  fun h => ⟨⟨widget_destroy_inst world b h.inst, widget_destroy_time world b h.time⟩,
    widget_destroy_extends world b⟩

theorem step_op (world : World) (op : Op) : Step world (op.apply world) := by
  cases op with
  | request window timed => exact step_constructor world window timed
  | show_information window text override_dnd =>
    exact step_show_information world window text override_dnd
  | show_information_with_markup window icon_name markup =>
    exact step_show_markup world window icon_name markup
  | show_custom_widget window custom_widget =>
    exact step_show_custom_widget world window custom_widget
  | set_text b text is_markup => exact step_set_text world b text is_markup
  | set_timeout b timeout => exact step_update world b _ (fun _ => ⟨rfl, rfl, rfl, rfl⟩)
  | map_event b => exact step_map_event world b
  | button_press b handled => exact step_button_press world b handled
  | timeout_fired id handled =>
    exact fun h => ⟨dispatch_inv world id handled h, dispatch_extends world id handled h⟩
  | destroy b => exact step_destroy world b

theorem initial_inv (widget_parent : Nat → Option Container) :
    Inv (initial_world widget_parent) := by
  refine ⟨⟨?_, ?_, ?_, ?_⟩, ⟨?_, ?_, ?_⟩⟩ <;> simp [initial_world]

theorem reachable_inv (world : World) (h : Reachable world) : Inv world := by
  induction h with
  | init widget_parent => exact initial_inv widget_parent
  | step world op _ ih => exact (step_op world op ih).1

theorem reachable_run (world : World) (ops : List Op) (h : Reachable world) :
    Reachable (run world ops) := by
  induction ops generalizing world with
  | nil => exact h
  | cons op ops ih => exact ih (op.apply world) (Reachable.step world op h)

theorem run_extends (world : World) (ops : List Op) (h : Reachable world) :
    Extends world (run world ops) := by
  induction ops generalizing world with
  | nil => exact extends_refl world
  | cons op ops ih =>
    exact extends_trans _ _ _ (step_op world op (reachable_inv world h)).2
      (ih (op.apply world) (Reachable.step world op h))

/-! ## One timed banner per window -/

/-- The banner hildon_banner_constructor returns for a timed request is the
one a lookup finds right after it. -/
theorem constructor_stores (world : World) (window : Option Nat) :
    hildon_banner_real_get_instance (hildon_banner_constructor world window true).1 window true
      = some (hildon_banner_constructor world window true).2 := by
  have hinst : hildon_banner_real_get_instance
      (match hildon_banner_real_get_instance world window true with
        | none => (new_instance world window true).1
        | some _ => world) window true
      = some (hildon_banner_constructor world window true).2 := by
    rw [(constructor_eq world window true).1]
    cases hget : hildon_banner_real_get_instance world window true with
    | some banner => exact hget
    | none =>
      obtain ⟨_, _, _, _, _, hq, hg⟩ := new_instance_fields world window true
      unfold hildon_banner_real_get_instance
      cases window with
      | none => simp [hg]
      | some w => simp [hq]
  have hkeep : ∀ w2 : World, ∀ b,
      hildon_banner_real_get_instance
        (if (hildon_banner_clear_timeout w2 b).2 = true then
          hildon_banner_ensure_timeout (hildon_banner_clear_timeout w2 b).1 b
        else (hildon_banner_clear_timeout w2 b).1) window true
        = hildon_banner_real_get_instance w2 window true := by
    intro w2 b
    obtain ⟨_, cq, cg, _, _⟩ := clear_timeout_fields w2 b
    obtain ⟨_, eq, eg, _⟩ := ensure_timeout_fields (hildon_banner_clear_timeout w2 b).1 b
    by_cases hc : (hildon_banner_clear_timeout w2 b).2 = true
    · rw [if_pos hc]
      unfold hildon_banner_real_get_instance
      rw [eq, eg, cq, cg]
    · rw [if_neg hc]
      unfold hildon_banner_real_get_instance
      rw [cq, cg]
  rw [← hinst]
  conv_lhs => rw [(constructor_eq world window true).2]
  simp only [if_true]
  exact hkeep _ _

/-- Two requests for a timed banner in a row, for a window or for no window,
return the same instance. -/
theorem timed_request_again (world : World) (window : Option Nat) :
    (hildon_banner_get_instance_for_widget
        (hildon_banner_get_instance_for_widget world window true).1 window true).2
      = (hildon_banner_get_instance_for_widget world window true).2 := by
  unfold hildon_banner_get_instance_for_widget
  rw [(constructor_eq (hildon_banner_constructor world window true).1 window true).1,
    constructor_stores]

/-- The timed banner without parent window is one: in every reachable state
the instance a request without window returns is returned again by every
later request without window, whatever the program does in between, as long as
it has not been destroyed. -/
theorem global_banner_shared (world : World) (h : Reachable world) (ops : List Op)
    (halive : alive (run (hildon_banner_get_instance_for_widget world none true).1 ops)
      (hildon_banner_get_instance_for_widget world none true).2 = true) :
    (hildon_banner_get_instance_for_widget
        (run (hildon_banner_get_instance_for_widget world none true).1 ops) none true).2
      = (hildon_banner_get_instance_for_widget world none true).2 := by
  have hinv := reachable_inv world h
  unfold hildon_banner_get_instance_for_widget at *
  have hreach1 : Reachable (hildon_banner_constructor world none true).1 :=
    Reachable.step world (Op.request none true) h
  obtain ⟨priv, hp, h1, h2, _⟩ := constructor_live world none true hinv
  obtain ⟨priv2, hp2, e1, e2, _⟩ := run_extends _ ops hreach1 _ priv hp
  obtain ⟨priv3, hp3, hlive⟩ := (alive_iff _ _).mp halive
  rw [hp2] at hp3
  simp only [Option.some.injEq] at hp3
  subst hp3
  have hget := (reachable_inv _ (reachable_run _ ops hreach1)).inst.global_complete _ priv2
    hp2 (by rw [e1, h1]) hlive (by rw [e2, h2])
  rw [(constructor_eq _ none true).1]
  simp only [hildon_banner_real_get_instance, if_true, hget]

/-- A request for a banner that is not timed returns, in every reachable
state, an instance that did not exist before. -/
theorem not_timed_request_new (world : World) (h : Reachable world) (window : Option Nat) :
    world.banners (hildon_banner_get_instance_for_widget world window false).2 = none ∧
    alive (hildon_banner_get_instance_for_widget world window false).1
      (hildon_banner_get_instance_for_widget world window false).2 = true := by
  have hinv := reachable_inv world h
  unfold hildon_banner_get_instance_for_widget
  have hlive := constructor_live world window false hinv
  refine ⟨?_, (alive_iff _ _).mpr ?_⟩
  · rw [(constructor_eq world window false).1]
    simp only [hildon_banner_real_get_instance, Bool.false_eq_true, if_false]
    exact hinv.inst.alloc _ (le_refl _)
  · obtain ⟨priv, hp, _, _, hd⟩ := hlive
    exact ⟨priv, hp, hd⟩

/-- C11: what the code does when the "destroy" handler of a destroyed banner
runs again.  An information banner is shown on window 1 and destroyed, and a
second one is shown on window 1 (`replaced_world`): banner 1 is the timed
banner of the window and a request returns it.  After the "destroy" handler
of the destroyed banner 0 ran once more (`destroyed_again_world`) the window
has lost its data although banner 1 is alive, so the next request for the
timed banner of window 1 returns a new instance, banner 2, and banners 1 and 2
are two live timed banners of window 1.  The same steps without a parent
window keep the one global instance. -/
theorem second_destroy_forgets_window_banner :
    (replaced_world.banners 0).map instKey = some (true, some 1, true) ∧
    (replaced_world.banners 1).map instKey = some (true, some 1, false) ∧
    replaced_world.window_qdata 1 = some 1 ∧
    (hildon_banner_get_instance_for_widget replaced_world (some 1) true).2 = 1 ∧
    destroyed_again_world.window_qdata 1 = none ∧
    alive destroyed_again_world 1 = true ∧
    (hildon_banner_get_instance_for_widget destroyed_again_world (some 1) true).2 = 2 ∧
    ((hildon_banner_get_instance_for_widget destroyed_again_world (some 1) true).1.banners
        1).map instKey = some (true, some 1, false) ∧
    ((hildon_banner_get_instance_for_widget destroyed_again_world (some 1) true).1.banners
        2).map instKey = some (true, some 1, false) ∧
    (hildon_banner_get_instance_for_widget
        (gtk_widget_destroy
          (hildon_banner_show_information
            (gtk_widget_destroy
              (hildon_banner_show_information empty_world none (some "a")).1 0)
            none (some "b")).1 0)
        none true).2 = 1 := by
  refine ⟨by decide, by decide, by decide, by decide, by decide, by decide, by decide,
    by decide, by decide, by decide⟩

/-! ## The layout -/

theorem layout_transfer (world next : World)
    (hb : ∀ b, (next.banners b).map layoutKey = (world.banners b).map layoutKey)
    (h : LayoutInv world) : LayoutInv next := by
  intro b priv2 hp2
  cases hp : world.banners b with
  | none =>
    have := hb b
    rw [hp, hp2] at this
    simp at this
  | some priv =>
    have hk := hb b
    rw [hp, hp2] at hk
    simp only [Option.map_some', Option.some.injEq, layoutKey, Prod.mk.injEq] at hk
    rw [hk.1, hk.2]
    exact h b priv hp

theorem update_banner_layout (world : World) (b : Nat) (f : HildonBanner → HildonBanner)
    (hf : ∀ priv, layoutKey (f priv) = layoutKey priv) (h : LayoutInv world) :
    LayoutInv (update_banner world b f) :=
  layout_transfer world _ (update_banner_key world b f layoutKey hf) h

theorem clear_timeout_layout (world : World) (b : Nat) (h : LayoutInv world) :
    LayoutInv (hildon_banner_clear_timeout world b).1 := by
  refine layout_transfer world _ ?_ h
  intro b2
  rw [clear_timeout_banners]
  by_cases hb : b2 = b
  · subst hb
    rw [if_pos rfl]
    cases world.banners b2 <;> rfl
  · rw [if_neg hb]

theorem ensure_timeout_layout (world : World) (b : Nat) (h : LayoutInv world) :
    LayoutInv (hildon_banner_ensure_timeout world b) :=
  layout_transfer world _ (ensure_timeout_key world b layoutKey (fun _ _ => rfl)) h

theorem widget_destroy_layout (world : World) (b : Nat) (h : LayoutInv world) :
    LayoutInv (gtk_widget_destroy world b) := by
  refine layout_transfer world _ ?_ h
  intro b2
  rw [widget_destroy_banners]
  by_cases hb : b2 = b
  · subst hb
    rw [if_pos rfl]
    cases world.banners b2 <;> rfl
  · rw [if_neg hb]

theorem new_instance_layout (world : World) (window : Option Nat) (timed : Bool)
    (h : LayoutInv world) : LayoutInv (new_instance world window timed).1 := by
  intro b priv hp
  rw [new_instance_banners] at hp
  by_cases hb : b = world.n_banners
  · rw [if_pos hb] at hp
    simp only [Option.some.injEq] at hp
    subst hp
    rfl
  · rw [if_neg hb] at hp
    exact h b priv hp

theorem constructor_layout (world : World) (window : Option Nat) (timed : Bool)
    (h : LayoutInv world) : LayoutInv (hildon_banner_constructor world window timed).1 := by
  have hinst : LayoutInv (match hildon_banner_real_get_instance world window timed with
      | none => (new_instance world window timed).1
      | some _ => world) := by
    cases hildon_banner_real_get_instance world window timed with
    | none => exact new_instance_layout world window timed h
    | some _ => exact h
  rw [(constructor_eq world window timed).2]
  split
  · split
    · exact ensure_timeout_layout _ _ (clear_timeout_layout _ _ hinst)
    · exact clear_timeout_layout _ _ hinst
  · exact hinst

theorem set_text_layout (world : World) (b : Nat) (text : String) (is_markup : Bool)
    (h : LayoutInv world) : LayoutInv (banner_do_set_text world b text is_markup) :=
  update_banner_layout world b _ (fun _ => rfl) h

theorem reshow_layout (world : World) (b : Nat) (h : LayoutInv world) :
    LayoutInv (reshow_banner world b) :=
  update_banner_layout world b _ (fun _ => rfl) h

theorem name_suffix_layout (world : World) (b : Nat) (h : LayoutInv world) :
    LayoutInv (set_name_suffix world b) :=
  update_banner_layout world b _ (fun _ => rfl) h

theorem layout_of_banners_eq (world next : World) (hb : next.banners = world.banners)
    (h : LayoutInv world) : LayoutInv next := by
  intro b priv hp
  rw [hb] at hp
  exact h b priv hp

theorem container_remove_banners (world : World) (b : Nat) (child : LayoutChild) (b2 : Nat) :
    (gtk_container_remove world b child).banners b2
      = if b2 = b then
          (world.banners b).map (fun priv => { priv with layout := priv.layout.erase child })
        else world.banners b2 := by
  rw [← update_banner_banners]
  cases child <;> rfl

theorem pack_start_banners (world : World) (b : Nat) (child : LayoutChild) (b2 : Nat) :
    (gtk_box_pack_start world b child).banners b2
      = if b2 = b then
          (world.banners b).map (fun priv => { priv with layout := priv.layout ++ [child] })
        else world.banners b2 := by
  rw [← update_banner_banners]
  cases child <;> rfl

theorem unpack_banners (world : World) (b b2 : Nat) :
    (unpack_main_widget_pack_label world b).banners b2
      = if b2 = b then
          (world.banners b).map (fun priv =>
            match priv.main_item with
            | some main_item =>
              { priv with
                main_item := none
                layout := priv.layout.erase (LayoutChild.custom main_item)
                  ++ [LayoutChild.label] }
            | none => priv)
        else world.banners b2 := by
  unfold unpack_main_widget_pack_label
  cases hp : world.banners b with
  | none =>
    simp only [Option.map_none']
    by_cases hb : b2 = b
    · rw [if_pos hb, hb, hp]
    · rw [if_neg hb]
  | some priv =>
    simp only [Option.map_some']
    cases hm : priv.main_item with
    | none =>
      simp only
      by_cases hb : b2 = b
      · rw [if_pos hb, hb, hp]
      · rw [if_neg hb]
    | some w =>
      simp only [pack_start_banners, update_banner_banners, container_remove_banners]
      by_cases hb : b2 = b
      · simp only [if_pos hb, if_true, hp, Option.map_some']
      · simp only [if_neg hb, if_false]

theorem unpack_layout (world : World) (b : Nat) (h : LayoutInv world) :
    LayoutInv (unpack_main_widget_pack_label world b) := by
  intro b2 priv2 hp2
  rw [unpack_banners] at hp2
  by_cases hb : b2 = b
  · rw [if_pos hb] at hp2
    cases hp : world.banners b with
    | none => rw [hp] at hp2; simp at hp2
    | some priv =>
      rw [hp] at hp2
      simp only [Option.map_some', Option.some.injEq] at hp2
      have hgood := h b priv hp
      cases hm : priv.main_item with
      | none =>
        rw [hm] at hp2
        simp only at hp2
        subst hp2
        exact hgood
      | some w =>
        rw [hm] at hp2 hgood
        simp only at hp2 hgood
        subst hp2
        simp [hgood]
  · rw [if_neg hb] at hp2
    exact h b2 priv2 hp2

theorem layout_widget_parent (world : World) (widget_parent : Nat → Option Container)
    (h : LayoutInv world) : LayoutInv { world with widget_parent := widget_parent } :=
  layout_of_banners_eq world _ rfl h

/-- The layout after the custom widget was put in place in
hildon_banner_show_custom_widget. -/
theorem custom_widget_packed (world : World) (b : Nat) (priv : HildonBanner)
    (custom_widget : Nat) (hp : world.banners b = some priv) (h : LayoutInv world) :
    LayoutInv
      (if priv.main_item ≠ some custom_widget then
        update_banner
          (gtk_box_pack_start
            (match priv.main_item with
              | some old_item =>
                gtk_container_remove
                  (if priv.main_item = none then
                    gtk_container_remove world b LayoutChild.label
                  else world) b (LayoutChild.custom old_item)
              | none =>
                if priv.main_item = none then gtk_container_remove world b LayoutChild.label
                else world)
            b (LayoutChild.custom custom_widget))
          b (fun priv => { priv with main_item := some custom_widget })
      else
        if priv.main_item = none then gtk_container_remove world b LayoutChild.label
        else world) := by
  have hgood := h b priv hp
  cases hm : priv.main_item with
  | none =>
    rw [hm] at hgood
    simp only [ne_eq, not_false_eq_true, if_true, reduceCtorEq]
    intro b2 priv2 hp2
    by_cases hb : b2 = b
    · simp only [update_banner_banners, pack_start_banners, container_remove_banners,
        if_pos hb, if_true, hp, Option.map_some', Option.some.injEq] at hp2
      subst hp2
      simp [hgood]
    · simp only [update_banner_banners, pack_start_banners, container_remove_banners,
        if_neg hb, if_false] at hp2
      exact h b2 priv2 hp2
  | some old =>
    rw [hm] at hgood
    by_cases hsame : old = custom_widget
    · subst hsame
      simp only [ne_eq, not_true_eq_false, if_false, reduceCtorEq]
      exact h
    · simp only [ne_eq, Option.some.injEq, hsame, not_false_eq_true, if_true, if_false,
        reduceCtorEq]
      intro b2 priv2 hp2
      by_cases hb : b2 = b
      · simp only [update_banner_banners, pack_start_banners, container_remove_banners,
          if_pos hb, if_true, hp, Option.map_some', Option.some.injEq] at hp2
        subst hp2
        simp [hgood]
      · simp only [update_banner_banners, pack_start_banners, container_remove_banners,
          if_neg hb, if_false] at hp2
        exact h b2 priv2 hp2

theorem show_custom_widget_layout (world : World) (window : Option Nat) (custom_widget : Nat)
    (h : LayoutInv world) :
    LayoutInv (hildon_banner_show_custom_widget world window custom_widget).1 := by
  have hc := constructor_layout world window true h
  unfold hildon_banner_show_custom_widget hildon_banner_get_instance_for_widget
  simp only
  cases hp : (hildon_banner_constructor world window true).1.banners
      (hildon_banner_constructor world window true).2 with
  | none => exact hc
  | some priv =>
    simp only
    split
    · exact hc
    · exact reshow_layout _ _ (name_suffix_layout _ _
        (custom_widget_packed _ _ priv custom_widget hp hc))

theorem show_information_layout (world : World) (window : Option Nat) (text : Option String)
    (override_dnd : Bool) (h : LayoutInv world) :
    LayoutInv (hildon_banner_real_show_information world window text override_dnd).1 := by
  unfold hildon_banner_real_show_information hildon_banner_get_instance_for_widget
  cases text with
  | none => exact h
  | some text =>
    simp only
    refine reshow_layout _ _ ?_
    have hset := set_text_layout _ (hildon_banner_constructor world window true).2 text false
      (unpack_layout _ (hildon_banner_constructor world window true).2
        (name_suffix_layout _ (hildon_banner_constructor world window true).2
          (constructor_layout world window true h)))
    cases override_dnd with
    | false => exact hset
    | true => exact update_banner_layout _ _ _ (fun _ => rfl) hset

theorem show_markup_layout (world : World) (window : Option Nat)
    (icon_name markup : Option String) (h : LayoutInv world) :
    LayoutInv (hildon_banner_show_information_with_markup world window icon_name markup).1 := by
  unfold hildon_banner_show_information_with_markup hildon_banner_get_instance_for_widget
  split
  · exact h
  · cases markup with
    | none => exact h
    | some markup =>
      exact reshow_layout _ _ (set_text_layout _ _ _ _
        (name_suffix_layout _ _ (constructor_layout world window true h)))

theorem timeout_layout (world : World) (b : Nat) (handled : Bool) (h : LayoutInv world) :
    LayoutInv (hildon_banner_timeout world b handled).1 := by
  cases hp : world.banners b with
  | none =>
    unfold hildon_banner_timeout
    rw [hp]
    exact h
  | some priv =>
    rw [timeout_eq world b handled priv hp]
    split
    · exact h
    · exact widget_destroy_layout _ _ (clear_timeout_layout _ _ h)

theorem dispatch_layout (world : World) (id : Nat) (handled : Bool) (h : LayoutInv world) :
    LayoutInv (dispatch_timeout world id handled) := by
  unfold dispatch_timeout
  cases world.sources id with
  | none => exact h
  | some b =>
    simp only
    split
    · exact timeout_layout world b handled h
    · exact layout_of_banners_eq _ _ rfl (timeout_layout world b handled h)

theorem op_layout (world : World) (op : Op) (h : LayoutInv world) :
    LayoutInv (op.apply world) := by
  cases op with
  | request window timed => exact constructor_layout world window timed h
  | show_information window text override_dnd =>
    exact show_information_layout world window text override_dnd h
  | show_information_with_markup window icon_name markup =>
    exact show_markup_layout world window icon_name markup h
  | show_custom_widget window custom_widget =>
    exact show_custom_widget_layout world window custom_widget h
  | set_text b text is_markup => exact set_text_layout world b text is_markup h
  | set_timeout b timeout => exact update_banner_layout world b _ (fun _ => rfl) h
  | map_event b =>
    exact ensure_timeout_layout _ _ (update_banner_layout world b _ (fun _ => rfl) h)
  | button_press b handled =>
    refine update_banner_layout world b _ ?_ h
    intro priv
    by_cases hclose : simulate_close priv handled = true
    · simp only [hclose, if_true]
    · simp only [hclose, if_false, Bool.false_eq_true]
      rfl
  | timeout_fired id handled => exact dispatch_layout world id handled h
  | destroy b => exact widget_destroy_layout world b h

theorem reachable_layout (world : World) (h : Reachable world) : LayoutInv world := by
  induction h with
  | init widget_parent =>
    intro b priv hp
    simp [initial_world] at hp
  | step world op _ ih => exact op_layout world op ih

/-- The half of the claim on a new information banner that holds: in every
reachable state hildon_banner_show_information, given a text, returns a banner
whose layout holds the label, with the text, and nothing else, whatever the
banner showed before. -/
theorem show_information_replaces (world : World) (h : Reachable world)
    (window : Option Nat) (text : String) (override_dnd : Bool) :
    ∃ b priv,
      (hildon_banner_real_show_information world window (some text) override_dnd).2 = some b ∧
      (hildon_banner_real_show_information world window (some text) override_dnd).1.banners b
        = some priv ∧
      priv.layout = [LayoutChild.label] ∧ priv.main_item = none ∧ priv.label_text = text ∧
      priv.label_is_markup = false := by
  obtain ⟨priv0, hp0, _⟩ := constructor_live world window true (reachable_inv world h)
  have hlayout := name_suffix_layout _ (hildon_banner_constructor world window true).2
    (constructor_layout world window true (reachable_layout world h))
  have hp1 : (set_name_suffix (hildon_banner_constructor world window true).1
      (hildon_banner_constructor world window true).2).banners
      (hildon_banner_constructor world window true).2
      = some { priv0 with name_suffix := some "information" } := by
    unfold set_name_suffix
    rw [update_banner_banners, if_pos rfl, hp0]
    rfl
  have hgood := hlayout _ _ hp1
  unfold hildon_banner_real_show_information hildon_banner_get_instance_for_widget
  simp only
  cases hm : priv0.main_item with
  | none =>
    rw [hm] at hgood
    cases override_dnd <;>
      simp [reshow_banner, banner_do_set_text, update_banner_banners, unpack_banners, hp1, hm,
        hgood] <;> exact hgood
  | some w =>
    rw [hm] at hgood
    cases override_dnd <;>
      simp [reshow_banner, banner_do_set_text, update_banner_banners, unpack_banners, hp1, hm,
        hgood] <;> simp at hgood <;> simp [hgood]

/-! ## A new information banner and a custom widget -/

/-- C12: what the code does after a custom widget.  With the custom widget 7
shown in the banner of window 1, hildon_banner_show_information_with_markup
returns that banner and sets the text of its label, but the layout still
holds the custom widget and not the label, while
hildon_banner_show_information puts the label back in place of the widget. -/
theorem markup_keeps_custom_widget :
    (custom_world.banners 0).map (fun priv => (priv.layout, priv.main_item))
      = some ([LayoutChild.custom 7], some 7) ∧
    (hildon_banner_show_information_with_markup custom_world (some 1) none (some "text")).2
      = some 0 ∧
    ((hildon_banner_show_information_with_markup custom_world (some 1) none
        (some "text")).1.banners 0).map
        (fun priv => (priv.layout, priv.main_item, priv.label_text))
      = some ([LayoutChild.custom 7], some 7, "text") ∧
    (hildon_banner_show_information custom_world (some 1) (some "text")).2 = some 0 ∧
    ((hildon_banner_show_information custom_world (some 1) (some "text")).1.banners 0).map
        (fun priv => (priv.layout, priv.main_item, priv.label_text))
      = some ([LayoutChild.label], none, "text") := by
  refine ⟨by decide, by decide, by decide, by decide, by decide⟩

/-! ## The timeout of a banner -/

/-- C13: the timeout only has effect on timed banners.  For a banner of a
reachable state: hildon_banner_ensure_timeout adds a source to the main loop
iff the banner has no `timeout_id`, is timed and has a timeout greater than
0; a banner that is not timed has `timeout_id` 0; the banner has at most one
pending source, the one of its `timeout_id`; and
hildon_banner_clear_timeout returns TRUE iff `timeout_id` was not 0, that is
iff a source was pending, and leaves `timeout_id` 0 and no source pending. -/
theorem timeout_only_when_timed (world : World) (h : Reachable world) (b : Nat)
    (priv : HildonBanner) (hp : world.banners b = some priv) :
    ((∃ id, world.sources id = none ∧
        (hildon_banner_ensure_timeout world b).sources id = some b) ↔
      (priv.timeout_id = 0 ∧ priv.is_timed = true ∧ priv.timeout > 0)) ∧
    (priv.is_timed = false → priv.timeout_id = 0) ∧
    (∀ id, world.sources id = some b ↔ (id = priv.timeout_id ∧ priv.timeout_id ≠ 0)) ∧
    ((hildon_banner_clear_timeout world b).2 = true ↔ priv.timeout_id ≠ 0) ∧
    ((hildon_banner_clear_timeout world b).2 = true ↔ ∃ id, world.sources id = some b) ∧
    ((hildon_banner_clear_timeout world b).1.banners b).map (fun priv => priv.timeout_id)
      = some 0 ∧
    (∀ id, (hildon_banner_clear_timeout world b).1.sources id ≠ some b) := by
  have hinv := reachable_inv world h
  have hsrc : ∀ id, world.sources id = some b ↔ (id = priv.timeout_id ∧ priv.timeout_id ≠ 0) := by
    intro id
    constructor
    · intro hs
      obtain ⟨h1, _, priv2, hp2, h3⟩ := hinv.time.source_sound id b hs
      rw [hp] at hp2
      simp only [Option.some.injEq] at hp2
      subst hp2
      exact ⟨h3.symm, by rw [h3]; exact h1⟩
    · rintro ⟨rfl, hne⟩
      exact hinv.time.source_complete b priv hp hne
  have hclear : (hildon_banner_clear_timeout world b).2 = true ↔ priv.timeout_id ≠ 0 := by
    rw [clear_timeout_snd]
    constructor
    · rintro ⟨priv2, hp2, hne⟩
      rw [hp] at hp2
      simp only [Option.some.injEq] at hp2
      subst hp2
      exact hne
    · intro hne
      exact ⟨priv, hp, hne⟩
  refine ⟨?_, hinv.time.not_timed b priv hp, hsrc, hclear, ?_, ?_, ?_⟩
  · rw [ensure_timeout_eq world b priv hp]
    constructor
    · rintro ⟨id, hnone, hsome⟩
      by_contra hcond
      rw [if_neg hcond, hnone] at hsome
      exact absurd hsome (by simp)
    · intro hcond
      rw [if_pos hcond]
      refine ⟨world.last_source_id + 1, ?_, by simp⟩
      cases hs : world.sources (world.last_source_id + 1) with
      | none => rfl
      | some b2 =>
        have := (hinv.time.source_sound _ b2 hs).2.1
        omega
  · rw [hclear]
    constructor
    · intro hne
      exact ⟨priv.timeout_id, (hsrc _).mpr ⟨rfl, hne⟩⟩
    · rintro ⟨id, hs⟩
      exact ((hsrc id).mp hs).2
  · rw [clear_timeout_banners, if_pos rfl, hp]
    rfl
  · intro id hs
    have hafter := (clear_timeout_inv world b hinv).time.source_sound id b hs
    obtain ⟨h1, _, priv2, hp2, h3⟩ := hafter
    rw [clear_timeout_banners, if_pos rfl, hp] at hp2
    simp only [Option.map_some', Option.some.injEq] at hp2
    subst hp2
    exact h1 h3.symm

/-- C13 on the information banner of `sample_world`, which is mapped and has
the source 1 pending. -/
theorem timeout_only_when_timed_witness :
    sample_world.banners 0 = some sample_timed_banner ∧
    (sample_world.banners 1).map (fun priv => (priv.is_timed, priv.timeout, priv.timeout_id))
      = some (false, 9000, 0) ∧
    (∀ id, sample_world.sources id = some 0 ↔
      (id = sample_timed_banner.timeout_id ∧ sample_timed_banner.timeout_id ≠ 0)) ∧
    ((hildon_banner_clear_timeout sample_world 0).2 = true ↔
      sample_timed_banner.timeout_id ≠ 0) :=
  ⟨by decide, by decide,
    (timeout_only_when_timed sample_world (reachable_run _ _ (Reachable.init _)) 0
      sample_timed_banner (by decide)).2.2.1,
    (timeout_only_when_timed sample_world (reachable_run _ _ (Reachable.init _)) 0
      sample_timed_banner (by decide)).2.2.2.1⟩

end Banner

namespace PannableArea

/-! ## Kinetic scrolling -/

theorem scroll_fields (area : HildonPannableArea) (x y : ℚ) (sx0 sy0 : Bool) :
    (hildon_pannable_area_scroll area x y sx0 sy0).1.vel_x = area.vel_x ∧
    (hildon_pannable_area_scroll area x y sx0 sy0).1.vel_y = area.vel_y ∧
    (hildon_pannable_area_scroll area x y sx0 sy0).1.enabled = area.enabled ∧
    (hildon_pannable_area_scroll area x y sx0 sy0).1.mode = area.mode ∧
    (hildon_pannable_area_scroll area x y sx0 sy0).1.clicked = area.clicked ∧
    (hildon_pannable_area_scroll area x y sx0 sy0).1.decel = area.decel ∧
    (hildon_pannable_area_scroll area x y sx0 sy0).1.idle_id = area.idle_id := by
  unfold hildon_pannable_area_scroll
  split <;> exact ⟨rfl, rfl, rfl, rfl, rfl, rfl, rfl⟩

theorem scroll_on_fields (area : HildonPannableArea) (sx0 sy0 : Bool) :
    (scroll_on area sx0 sy0).1.vel_x = area.vel_x ∧
    (scroll_on area sx0 sy0).1.vel_y = area.vel_y ∧
    (scroll_on area sx0 sy0).1.enabled = area.enabled ∧
    (scroll_on area sx0 sy0).1.mode = area.mode ∧
    (scroll_on area sx0 sy0).1.clicked = area.clicked ∧
    (scroll_on area sx0 sy0).1.decel = area.decel ∧
    (scroll_on area sx0 sy0).1.idle_id = area.idle_id ∧
    (scroll_on area sx0 sy0).2 = true := by
  obtain ⟨h1, h2, h3, h4, h5, h6, h7⟩ :=
    scroll_fields area area.vel_x area.vel_y sx0 sy0
  unfold scroll_on
  simp only
  split <;> split <;> exact ⟨h1, h2, h3, h4, h5, h6, h7, trivial⟩

/-- One call of the timer callback on an enabled area, not in PUSH mode, with
the pointer released: both velocities are multiplied by the deceleration, and
FALSE is returned, with `idle_id` reset, exactly when both are then below 1. -/
theorem timeout_released (area : HildonPannableArea) (sx0 sy0 : Bool)
    (henabled : area.enabled = true) (hmode : area.mode ≠ HildonPannableAreaMode.PUSH)
    (hclicked : area.clicked = false) :
    (hildon_pannable_area_timeout area sx0 sy0).1.vel_x = area.vel_x * area.decel ∧
    (hildon_pannable_area_timeout area sx0 sy0).1.vel_y = area.vel_y * area.decel ∧
    (hildon_pannable_area_timeout area sx0 sy0).1.enabled = true ∧
    (hildon_pannable_area_timeout area sx0 sy0).1.mode = area.mode ∧
    (hildon_pannable_area_timeout area sx0 sy0).1.clicked = false ∧
    (hildon_pannable_area_timeout area sx0 sy0).1.decel = area.decel ∧
    ((hildon_pannable_area_timeout area sx0 sy0).2 = false ↔
      (|area.vel_x * area.decel| < 1 ∧ |area.vel_y * area.decel| < 1)) ∧
    ((hildon_pannable_area_timeout area sx0 sy0).2 = false →
      (hildon_pannable_area_timeout area sx0 sy0).1.idle_id = 0) := by
  unfold hildon_pannable_area_timeout
  rw [if_neg (by simp [henabled, hmode]), if_pos (by simp [hclicked])]
  simp only
  by_cases hslow : |area.vel_x * area.decel| < 1 ∧ |area.vel_y * area.decel| < 1
  · rw [if_pos hslow]
    exact ⟨rfl, rfl, henabled, rfl, hclicked, rfl, by simp [hslow], fun _ => rfl⟩
  · rw [if_neg hslow]
    obtain ⟨h1, h2, h3, h4, h5, h6, _, h8⟩ := scroll_on_fields
      { area with vel_x := area.vel_x * area.decel, vel_y := area.vel_y * area.decel } sx0 sy0
    refine ⟨h1, h2, by rw [h3]; exact henabled, h4, by rw [h5]; exact hclicked, h6, ?_, ?_⟩
    · rw [h8]
      simp [hslow]
    · intro hfalse
      rw [h8] at hfalse
      exact absurd hfalse (by simp)

theorem ticks_fields (locals : Nat → Bool × Bool) (area : HildonPannableArea)
    (henabled : area.enabled = true) (hmode : area.mode ≠ HildonPannableAreaMode.PUSH)
    (hclicked : area.clicked = false) (k : Nat) :
    (ticks locals k area).vel_x = area.vel_x * area.decel ^ k ∧
    (ticks locals k area).vel_y = area.vel_y * area.decel ^ k ∧
    (ticks locals k area).enabled = true ∧
    (ticks locals k area).mode = area.mode ∧
    (ticks locals k area).clicked = false ∧
    (ticks locals k area).decel = area.decel := by
  induction k with
  | zero => simp [ticks, henabled, hclicked]
  | succ k ih =>
    obtain ⟨i1, i2, i3, i4, i5, i6⟩ := ih
    obtain ⟨h1, h2, h3, h4, h5, h6, _, _⟩ := timeout_released (ticks locals k area)
      (locals k).1 (locals k).2 i3 (by rw [i4]; exact hmode) i5
    simp only [ticks]
    refine ⟨?_, ?_, h3, by rw [h4, i4], h5, by rw [h6, i6]⟩
    · rw [h1, i1, i6]; ring
    · rw [h2, i2, i6]; ring

theorem tick_returns_false_iff (locals : Nat → Bool × Bool) (area : HildonPannableArea)
    (henabled : area.enabled = true) (hmode : area.mode ≠ HildonPannableAreaMode.PUSH)
    (hclicked : area.clicked = false) (k : Nat) :
    (tick_returns locals k area = false ↔ Slow area (k + 1)) ∧
    (tick_returns locals k area = false → (ticks locals (k + 1) area).idle_id = 0) := by
  obtain ⟨i1, i2, i3, i4, i5, i6⟩ := ticks_fields locals area henabled hmode hclicked k
  obtain ⟨_, _, _, _, _, _, h7, h8⟩ := timeout_released (ticks locals k area)
    (locals k).1 (locals k).2 i3 (by rw [i4]; exact hmode) i5
  unfold tick_returns Slow
  refine ⟨?_, h8⟩
  rw [h7, i1, i2, i6]
  have e1 : area.vel_x * area.decel ^ k * area.decel = area.vel_x * area.decel ^ (k + 1) := by
    ring
  have e2 : area.vel_y * area.decel ^ k * area.decel = area.vel_y * area.decel ^ (k + 1) := by
    ring
  rw [e1, e2]

/-- With a deceleration in [0, 1) the velocities get below 1. -/
theorem exists_slow (area : HildonPannableArea) (h0 : 0 ≤ area.decel) (h1 : area.decel < 1) :
    ∃ n, Slow area (n + 1) := by
  have hM : (0 : ℚ) < |area.vel_x| + |area.vel_y| + 1 := by positivity
  obtain ⟨n, hn⟩ := exists_pow_lt_of_lt_one (one_div_pos.mpr hM) h1
  have hpow0 : 0 ≤ area.decel ^ (n + 1) := pow_nonneg h0 _
  have hpow : area.decel ^ (n + 1) < 1 / (|area.vel_x| + |area.vel_y| + 1) := by
    have : area.decel ^ (n + 1) ≤ area.decel ^ n :=
      pow_le_pow_of_le_one h0 h1.le (Nat.le_succ n)
    exact lt_of_le_of_lt this hn
  have hlt : (|area.vel_x| + |area.vel_y| + 1) * area.decel ^ (n + 1) < 1 := by
    rw [lt_div_iff₀ hM] at hpow
    linarith
  refine ⟨n, ?_, ?_⟩
  · rw [abs_mul, abs_of_nonneg hpow0]
    nlinarith [abs_nonneg area.vel_x, abs_nonneg area.vel_y]
  · rw [abs_mul, abs_of_nonneg hpow0]
    nlinarith [abs_nonneg area.vel_x, abs_nonneg area.vel_y]

/-- C14: kinetic scrolling stops.  On an enabled area, not in PUSH mode, with
the pointer released and a deceleration d with 0 <= d < 1, over exact
arithmetic: every call of hildon_pannable_area_timeout multiplies both
velocities by d, and there is a call, number n counted from 0, such that all
calls before it return TRUE and it returns FALSE with `idle_id` reset to 0;
it is the first call after which both velocities are below 1 in absolute
value. -/
theorem kinetic_scrolling_stops (area : HildonPannableArea) (locals : Nat → Bool × Bool)
    (henabled : area.enabled = true) (hmode : area.mode ≠ HildonPannableAreaMode.PUSH)
    (hclicked : area.clicked = false) (h0 : 0 ≤ area.decel) (h1 : area.decel < 1) :
    ∃ n, (∀ k, k < n → tick_returns locals k area = true) ∧
      tick_returns locals n area = false ∧
      (ticks locals (n + 1) area).idle_id = 0 ∧
      (∀ k, (ticks locals k area).vel_x = area.vel_x * area.decel ^ k ∧
        (ticks locals k area).vel_y = area.vel_y * area.decel ^ k) ∧
      (|(ticks locals (n + 1) area).vel_x| < 1 ∧ |(ticks locals (n + 1) area).vel_y| < 1) ∧
      (∀ k, k < n → ¬ (|(ticks locals (k + 1) area).vel_x| < 1 ∧
        |(ticks locals (k + 1) area).vel_y| < 1)) := by
  have hex := exists_slow area h0 h1
  have hvel : ∀ k, (ticks locals k area).vel_x = area.vel_x * area.decel ^ k ∧
      (ticks locals k area).vel_y = area.vel_y * area.decel ^ k := fun k =>
    ⟨(ticks_fields locals area henabled hmode hclicked k).1,
      (ticks_fields locals area henabled hmode hclicked k).2.1⟩
  have hslow : ∀ k, (|(ticks locals (k + 1) area).vel_x| < 1 ∧
      |(ticks locals (k + 1) area).vel_y| < 1) ↔ Slow area (k + 1) := by
    intro k
    rw [(hvel (k + 1)).1, (hvel (k + 1)).2]
    rfl
  refine ⟨Nat.find hex, ?_, ?_, ?_, hvel, ?_, ?_⟩
  · intro k hk
    have hnot := Nat.find_min hex hk
    cases hr : tick_returns locals k area with
    | true => rfl
    | false =>
      exact absurd ((tick_returns_false_iff locals area henabled hmode hclicked k).1.mp hr) hnot
  · exact (tick_returns_false_iff locals area henabled hmode hclicked _).1.mpr
      (Nat.find_spec hex)
  · exact (tick_returns_false_iff locals area henabled hmode hclicked _).2
      ((tick_returns_false_iff locals area henabled hmode hclicked _).1.mpr (Nat.find_spec hex))
  · exact (hslow _).mpr (Nat.find_spec hex)
  · intro k hk hk2
    exact Nat.find_min hex hk ((hslow k).mp hk2)

/-- C14 on an area flicked with velocity (40, -3) that halves its velocities
on each tick. -/
theorem kinetic_scrolling_stops_witness :
    sample_area.enabled = true ∧ 0 ≤ sample_area.decel ∧ sample_area.decel < 1 ∧
    ∃ n, (∀ k, k < n → tick_returns (fun _ => (true, true)) k sample_area = true) ∧
      tick_returns (fun _ => (true, true)) n sample_area = false ∧
      (ticks (fun _ => (true, true)) (n + 1) sample_area).idle_id = 0 ∧
      (∀ k, (ticks (fun _ => (true, true)) k sample_area).vel_x
          = sample_area.vel_x * sample_area.decel ^ k ∧
        (ticks (fun _ => (true, true)) k sample_area).vel_y
          = sample_area.vel_y * sample_area.decel ^ k) ∧
      (|(ticks (fun _ => (true, true)) (n + 1) sample_area).vel_x| < 1 ∧
        |(ticks (fun _ => (true, true)) (n + 1) sample_area).vel_y| < 1) ∧
      (∀ k, k < n → ¬ (|(ticks (fun _ => (true, true)) (k + 1) sample_area).vel_x| < 1 ∧
        |(ticks (fun _ => (true, true)) (k + 1) sample_area).vel_y| < 1)) :=
  ⟨rfl, by simp [sample_area], by norm_num [sample_area],
    kinetic_scrolling_stops sample_area (fun _ => (true, true)) rfl (by decide) rfl
      (by simp [sample_area]) (by norm_num [sample_area])⟩

end PannableArea
